import Mathlib

/-!
# SNVS tamper detection driver (`drivers/crypto/caam/tamper.c`)

A shallow embedding of the tamper driver: the register file is a function from
register names to naturals, every access goes through `rd_reg32` / `wr_reg32`
(which truncate to 32 bits), and every externally visible action (register
write, settle delay, kernel message, unmapping) is appended to a trace.
-/

namespace Tamper

/-! ## Machine words -/

/-- Truncation of a natural number to a 32-bit machine word (`u32`). -/
def u32 (x : Nat) : Nat := x % 2 ^ 32

/-- Bitwise complement on 32 bits: the C expression `~x` once converted to `u32`. -/
def not32 (x : Nat) : Nat := 0xffffffff ^^^ u32 x

/-! ## Registers, trace and driver state -/

/-- The memory-mapped registers the driver touches.  `hp_*` and `lp_*` are the
fields of `svpriv->svregs->hp` / `->lp`, `ex_*` are the fields of the expanded
region `snvsexregs`, `ocotp off` is the fuse word at byte offset `off` from
`ocotpaddr`.  `lp_active_cfg i` is `&lp.active_cfg[0] + i` and `ex_tpctrl i` is
`&snvsexregs->tpctrl0 + i`. -/
inductive Reg
  | hp_secvio_intcfg
  | hp_secvio_ctl
  | lp_status
  | lp_tamper_det_status
  | lp_tamper_det_cfg
  | lp_tamper_det_cfg2
  | lp_tamper_filt_cfg
  | lp_tamper_filt_cfg1
  | lp_tamper_filt_cfg2
  | lp_active_ctl
  | lp_active_clk_ctl
  | lp_active_rt_ctl1
  | lp_active_rt_ctl2
  | lp_active_cfg (i : Nat)
  | ex_dmcr
  | ex_dtmr
  | ex_dtocr
  | ex_tpctrl (i : Nat)
  | ocotp (off : Nat)
  deriving DecidableEq, Repr

/-- Mapped regions that the driver unmaps with `iounmap`. -/
inductive Region
  | snvsex
  | ocotp
  deriving DecidableEq, Repr

/-- Externally visible actions, in program order. -/
inductive Event
  | write (r : Reg) (v : Nat)
  | delay (us : Nat)
  | printk (msg : String)
  | iounmap (m : Region)
  | call (fn : String)
  deriving DecidableEq, Repr

/-- Modelled from the spec: the behaviour of the hardware on a register write is
not part of the driver source.  `plain` treats every register as plain storage;
`w1c_status` makes the two status registers `lp.status` and
`lp.tamper_det_status` write-1-to-clear (`new = old & ~written`). -/
inductive HwModel
  | plain
  | w1c_status
  deriving DecidableEq, Repr

/-- Value held by register `r` after `v` is written to it while it holds `old`. -/
def HwModel.store : HwModel → Reg → Nat → Nat → Nat
  | .w1c_status, .lp_status, old, v => old &&& not32 v
  | .w1c_status, .lp_tamper_det_status, old, v => old &&& not32 v
  | _, _, _, v => v

/-- What the driver takes from outside its own source file: the hardware write
behaviour and the constant `AT5_POLYSEED` of the header `tamper.h`. -/
structure Env where
  hw : HwModel
  AT5_POLYSEED : Nat

/-- Driver state: the register file, the module globals `tester_lock` and
`tamper_pin`, and the trace of visible actions. -/
structure World where
  regs : Reg → Nat
  tester_lock : Nat
  tamper_pin : Nat
  trace : List Event

/-- The accessor `rd_reg32(addr)`: the 32-bit word currently held by the register. -/
def rd_reg32 (w : World) (r : Reg) : Nat := u32 (w.regs r)

/-- The accessor `wr_reg32(addr, val)`: store the 32-bit word and record the write. -/
def wr_reg32 (env : Env) (w : World) (r : Reg) (val : Nat) : World :=
  { w with
    regs := fun r' => if r' = r then env.hw.store r (w.regs r) (u32 val) else w.regs r'
    trace := w.trace ++ [Event.write r (u32 val)] }

/-- The call `udelay(us)`: a blocking wait, visible only in the trace. -/
def udelay (w : World) (us : Nat) : World :=
  { w with trace := w.trace ++ [Event.delay us] }

/-- The call `printk(msg)`: a kernel log line, visible only in the trace. -/
def printk (w : World) (msg : String) : World :=
  { w with trace := w.trace ++ [Event.printk msg] }

/-- The call `iounmap(region)`, visible only in the trace. -/
def iounmap (w : World) (m : Region) : World :=
  { w with trace := w.trace ++ [Event.iounmap m] }

/-- Any other kernel service the driver calls for effect only. -/
def kcall (w : World) (fn : String) : World :=
  { w with trace := w.trace ++ [Event.call fn] }

/-- The register writes of a trace, in order. -/
def writes : List Event → List (Reg × Nat)
  | [] => []
  | Event.write r v :: es => (r, v) :: writes es
  | _ :: es => writes es

/-- The kernel messages of a trace, in order. -/
def messages : List Event → List String
  | [] => []
  | Event.printk m :: es => m :: messages es
  | _ :: es => messages es

/-! ## Errno values and user payloads -/

/-- Errno `EFAULT` (bad user address). -/
def EFAULT : Int := 14

/-- Errno `ENOMEM`. -/
def ENOMEM : Int := 12

/-- Errno `ENODEV`. -/
def ENODEV : Int := 19

/-- Errno `EINVAL`. -/
def EINVAL : Int := 22

/-- Modelled from the spec: `tamper_active` is declared in the missing header
`tamper.h`; the spec gives the two slots as unsigned 8-bit indices. -/
structure tamper_active where
  tx : Nat
  rx : Nat
  deriving DecidableEq, Repr

/-- Modelled from the spec: `tamper_passive` is declared in the missing header
`tamper.h`; `polarity` is only tested for being non-zero. -/
structure tamper_passive where
  rx : Nat
  polarity : Nat
  deriving DecidableEq, Repr

/-- Modelled from the spec: `tamper_status` is declared in the missing header
`tamper.h`; it carries the two 32-bit status words. -/
structure tamper_status where
  lpsr : Nat
  lptdsr : Nat
  deriving DecidableEq, Repr

/-- Modelled from the spec: the command codes `TAMPER_IOCTL_*` are declared in
the missing header `tamper.h`.  A constructor stands for the `case` label that
`cmd` selects, `unknown` for a code matching no label.  The payload is what
`copy_from_user` delivers from `arg` (`none` when the copy faults); for
`GET_STATUS` it says whether `copy_to_user` to `arg` succeeds. -/
inductive Cmd
  | CLOCK_EN (arg : Option Bool)
  | TEMP_EN (arg : Option Bool)
  | VOLT_EN (arg : Option Bool)
  | ACTIVE_EN (arg : Option tamper_active)
  | PASSIVE_EN (arg : Option tamper_passive)
  | GET_STATUS (writable : Bool)
  | CLEAR_STATUS (arg : Option tamper_status)
  | unknown (code : Nat)
  deriving DecidableEq, Repr

/-- Outcome of one `tamper_ioctl` call: the new driver state, the return value,
and the status block copied out to the caller (if any). -/
structure IoctlResult where
  world : World
  ret : Int
  out : Option tamper_status

/-- The message printed when the fuses lock the tamper configuration. -/
def lockedMsg : String :=
  "tamper fuse is programmed, tamper shadow register is locked, can\x27t verify tamper function\n"

/-! ## `tamper_detect_handler` -/

/-- The interrupt-path entry `tamper_detect_handler`. -/
def tamper_detect_handler (env : Env) (w : World) : World :=
  let val := rd_reg32 w .hp_secvio_intcfg
  let w := wr_reg32 env w .hp_secvio_intcfg (val &&& not32 0x80000000)
  if rd_reg32 w .lp_status &&& 0x7f0 ≠ 0 ∨ rd_reg32 w .lp_tamper_det_status &&& 0xff ≠ 0 then
    printk w "tamper detected!\n"
  else
    w

/-! ## `tamper_ioctl` -/

/-- The trigger control word assembled in the `TAMPER_IOCTL_ACTIVE_EN` case. -/
def active_tpctrl_val (tx : Nat) : Nat :=
  (0x0 <<< 28) ||| (0x1 <<< 27) ||| (0x0 <<< 21) ||| (0x1 <<< 20) ||| ((tx - 4) <<< 17) |||
  (0x0 <<< 16) ||| (0x1 <<< 15) ||| (0x1 <<< 14) ||| (0x1 <<< 13) ||| (0x0 <<< 12) |||
  (0x1 <<< 11) ||| (0x0 <<< 10) ||| (0x1 <<< 7) ||| (0x1 <<< 6) ||| (0x1 <<< 4) |||
  (0x3 <<< 2) ||| (0x0 <<< 0)

/-- The trigger control word assembled in the `TAMPER_IOCTL_PASSIVE_EN` case
when `passive.polarity` is non-zero. -/
def passive_tpctrl_val_pol : Nat :=
  (0x0 <<< 28) ||| (0x1 <<< 27) ||| (0x0 <<< 21) ||| (0x1 <<< 20) ||| (0x0 <<< 17) |||
  (0x0 <<< 16) ||| (0x1 <<< 15) ||| (0x1 <<< 14) ||| (0x1 <<< 13) ||| (0x0 <<< 12) |||
  (0x1 <<< 11) ||| (0x0 <<< 10) ||| (0x1 <<< 7) ||| (0x1 <<< 6) ||| (0x1 <<< 4) |||
  (0x3 <<< 2) ||| (0x0 <<< 0)

/-- The trigger control word assembled in the `TAMPER_IOCTL_PASSIVE_EN` case
when `passive.polarity` is zero. -/
def passive_tpctrl_val_nopol : Nat :=
  (0x0 <<< 28) ||| (0x1 <<< 27) ||| (0x0 <<< 21) ||| (0x1 <<< 20) ||| (0x0 <<< 17) |||
  (0x1 <<< 16) ||| (0x1 <<< 15) ||| (0x1 <<< 14) ||| (0x1 <<< 13) ||| (0x0 <<< 12) |||
  (0x1 <<< 11) ||| (0x0 <<< 10) ||| (0x1 <<< 7) ||| (0x1 <<< 6) ||| (0x1 <<< 4) |||
  (0x3 <<< 2) ||| (0x0 <<< 0)

/-- Body of `case TAMPER_IOCTL_CLOCK_EN` after the user copy (lines 48-73). -/
def clock_en (env : Env) (w : World) (enable : Bool) : World :=
  if enable then
    let val := rd_reg32 w .lp_status ||| 0x10
    let w := wr_reg32 env w .lp_status val
    let val := rd_reg32 w .ex_dmcr ||| 0x4
    let w := wr_reg32 env w .ex_dmcr val
    let w := udelay w 1000
    let val := rd_reg32 w .lp_tamper_det_cfg ||| 0x10
    let w := wr_reg32 env w .lp_tamper_det_cfg val
    let val := rd_reg32 w .hp_secvio_intcfg
    wr_reg32 env w .hp_secvio_intcfg (val ||| 0x80000000)
  else
    let val := rd_reg32 w .ex_dmcr &&& not32 0x4
    let w := wr_reg32 env w .ex_dmcr val
    let w := udelay w 1000
    let val := rd_reg32 w .lp_tamper_det_cfg &&& not32 0x10
    wr_reg32 env w .lp_tamper_det_cfg val

/-- Body of `case TAMPER_IOCTL_TEMP_EN` after the user copy (lines 83-108). -/
def temp_en (env : Env) (w : World) (enable : Bool) : World :=
  if enable then
    let val := rd_reg32 w .lp_status ||| 0x20
    let w := wr_reg32 env w .lp_status val
    let val := rd_reg32 w .ex_dmcr ||| 0x1
    let w := wr_reg32 env w .ex_dmcr val
    let w := udelay w 1000
    let val := rd_reg32 w .lp_tamper_det_cfg ||| 0x20
    let w := wr_reg32 env w .lp_tamper_det_cfg val
    let val := rd_reg32 w .hp_secvio_intcfg
    wr_reg32 env w .hp_secvio_intcfg (val ||| 0x80000000)
  else
    let val := rd_reg32 w .ex_dmcr &&& not32 0x1
    let w := wr_reg32 env w .ex_dmcr val
    let w := udelay w 1000
    let val := rd_reg32 w .lp_tamper_det_cfg &&& not32 0x20
    wr_reg32 env w .lp_tamper_det_cfg val

/-- Body of `case TAMPER_IOCTL_VOLT_EN` after the user copy (lines 118-143). -/
def volt_en (env : Env) (w : World) (enable : Bool) : World :=
  if enable then
    let val := rd_reg32 w .lp_status ||| 0x40
    let w := wr_reg32 env w .lp_status val
    let val := rd_reg32 w .ex_dmcr ||| 0x2
    let w := wr_reg32 env w .ex_dmcr val
    let w := udelay w 1000
    let val := rd_reg32 w .lp_tamper_det_cfg ||| 0x40
    let w := wr_reg32 env w .lp_tamper_det_cfg val
    let val := rd_reg32 w .hp_secvio_intcfg
    wr_reg32 env w .hp_secvio_intcfg (val ||| 0x80000000)
  else
    let val := rd_reg32 w .ex_dmcr &&& not32 0x2
    let w := wr_reg32 env w .ex_dmcr val
    let w := udelay w 1000
    let val := rd_reg32 w .lp_tamper_det_cfg &&& not32 0x40
    wr_reg32 env w .lp_tamper_det_cfg val

/-- Filter-enable step of the active case (lines 176-191). -/
def active_filt_step (env : Env) (w : World) (rx : Nat) : World :=
  if rx < 2 then
    let val := rd_reg32 w .lp_tamper_filt_cfg
    let val := if rx = 0 then val ||| 0x800000 else if rx = 1 then val ||| 0x80000000 else val
    wr_reg32 env w .lp_tamper_filt_cfg val
  else if rx < 6 then
    let val := rd_reg32 w .lp_tamper_filt_cfg1
    let val := val ||| (1 <<< ((rx - 1) * 8 - 1))
    wr_reg32 env w .lp_tamper_filt_cfg1 val
  else
    let val := rd_reg32 w .lp_tamper_filt_cfg2
    let val := val ||| (1 <<< ((rx - 5) * 8 - 1))
    wr_reg32 env w .lp_tamper_filt_cfg2 val

/-- Routing step of the active case (lines 193-203). -/
def active_route_step (env : Env) (w : World) (tx rx : Nat) : World :=
  if rx < 8 then
    let val := rd_reg32 w .lp_active_rt_ctl1
    let val := val &&& not32 (0xf <<< (rx * 4))
    let val := val ||| ((tx - 4) <<< (rx * 4))
    wr_reg32 env w .lp_active_rt_ctl1 val
  else
    let val := rd_reg32 w .lp_active_rt_ctl2
    let val := val &&& not32 (0xf <<< ((rx - 8) * 4))
    let val := val ||| ((tx - 4) <<< ((rx - 8) * 4))
    wr_reg32 env w .lp_active_rt_ctl2 val

/-- Detect-enable step of the active case (lines 205-216). -/
def active_det_step (env : Env) (w : World) (rx : Nat) : World :=
  if rx < 2 then
    let val := rd_reg32 w .lp_tamper_det_cfg
    let val := if rx = 0 then val ||| 0x200 else if rx = 1 then val ||| 0x400 else val
    wr_reg32 env w .lp_tamper_det_cfg val
  else
    let val := rd_reg32 w .lp_tamper_det_cfg2
    let val := val ||| (1 <<< (rx - 2))
    wr_reg32 env w .lp_tamper_det_cfg2 val

/-- Filter-enable step of the passive case (lines 256-271). -/
def passive_filt_step (env : Env) (w : World) (rx : Nat) : World :=
  if rx < 2 then
    let val := rd_reg32 w .lp_tamper_filt_cfg
    let val := if rx = 0 then val ||| 0x800000 else if rx = 1 then val ||| 0x80000000 else val
    wr_reg32 env w .lp_tamper_filt_cfg val
  else if rx < 6 then
    let val := rd_reg32 w .lp_tamper_filt_cfg1
    let val := val ||| (1 <<< ((rx - 1) * 8 - 1))
    wr_reg32 env w .lp_tamper_filt_cfg1 val
  else
    let val := rd_reg32 w .lp_tamper_filt_cfg2
    let val := val ||| (1 <<< ((rx - 5) * 8 - 1))
    wr_reg32 env w .lp_tamper_filt_cfg2 val

/-- Polarity step of the passive case (lines 273-287). -/
def passive_pol_step (env : Env) (w : World) (rx polarity : Nat) : World :=
  if polarity ≠ 0 then
    if rx < 2 then
      let val := rd_reg32 w .lp_tamper_det_cfg
      let val := if rx = 0 then val ||| 0x800 else if rx = 1 then val ||| 0x1000 else val
      wr_reg32 env w .lp_tamper_det_cfg val
    else
      let val := rd_reg32 w .lp_tamper_det_cfg2
      let val := val ||| (1 <<< (rx - 2 + 16))
      wr_reg32 env w .lp_tamper_det_cfg2 val
  else
    w

/-- Detect-enable step of the passive case (lines 289-300). -/
def passive_det_step (env : Env) (w : World) (rx : Nat) : World :=
  if rx < 2 then
    let val := rd_reg32 w .lp_tamper_det_cfg
    let val := if rx = 0 then val ||| 0x200 else if rx = 1 then val ||| 0x400 else val
    wr_reg32 env w .lp_tamper_det_cfg val
  else
    let val := rd_reg32 w .lp_tamper_det_cfg2
    let val := val ||| (1 <<< (rx - 2))
    wr_reg32 env w .lp_tamper_det_cfg2 val

/-- The command dispatcher `tamper_ioctl`. -/
def tamper_ioctl (env : Env) (w : World) : Cmd → IoctlResult
  | .CLOCK_EN none => ⟨w, -EFAULT, none⟩
  | .CLOCK_EN (some enable) => ⟨clock_en env w enable, 0, none⟩
  | .TEMP_EN none => ⟨w, -EFAULT, none⟩
  | .TEMP_EN (some enable) => ⟨temp_en env w enable, 0, none⟩
  | .VOLT_EN none => ⟨w, -EFAULT, none⟩
  | .VOLT_EN (some enable) => ⟨volt_en env w enable, 0, none⟩
  | .ACTIVE_EN none => ⟨w, -EFAULT, none⟩
  | .ACTIVE_EN (some active) =>
    if w.tamper_pin ≠ 0 ∧ w.tester_lock ≠ 0 then
      ⟨printk w lockedMsg, -EINVAL, none⟩
    else if active.tx > 9 ∨ active.tx < 5 then
      ⟨w, -EINVAL, none⟩
    else if active.rx > 9 ∨ active.rx = active.tx then
      ⟨w, -EINVAL, none⟩
    else
      let val := env.AT5_POLYSEED
      let w := wr_reg32 env w (.lp_active_cfg (0 + active.tx - 5)) val
      let val := rd_reg32 w .lp_active_ctl ||| (1 <<< (active.tx - 5 + 16))
      let w := wr_reg32 env w .lp_active_ctl val
      let val := rd_reg32 w .lp_active_clk_ctl
      let val := val &&& not32 (3 <<< ((active.tx - 5) * 4))
      let w := wr_reg32 env w .lp_active_clk_ctl val
      let val := rd_reg32 w .lp_active_ctl ||| (1 <<< (active.tx - 5))
      let w := wr_reg32 env w .lp_active_ctl val
      let w := active_filt_step env w active.rx
      let w := active_route_step env w active.tx active.rx
      let w := active_det_step env w active.rx
      let val := active_tpctrl_val active.tx
      let w := wr_reg32 env w (.ex_tpctrl active.rx) val
      let val := rd_reg32 w .hp_secvio_intcfg
      let w := wr_reg32 env w .hp_secvio_intcfg (val ||| 0x80000000)
      ⟨w, 0, none⟩
  | .PASSIVE_EN none => ⟨w, -EFAULT, none⟩
  | .PASSIVE_EN (some passive) =>
    if w.tamper_pin ≠ 0 ∧ w.tester_lock ≠ 0 then
      ⟨printk w lockedMsg, -EINVAL, none⟩
    else if passive.rx > 9 then
      ⟨w, -EINVAL, none⟩
    else
      let w := passive_filt_step env w passive.rx
      let w := passive_pol_step env w passive.rx passive.polarity
      let w := passive_det_step env w passive.rx
      let val := if passive.polarity ≠ 0 then passive_tpctrl_val_pol else passive_tpctrl_val_nopol
      let w := wr_reg32 env w (.ex_tpctrl passive.rx) val
      let val := rd_reg32 w .hp_secvio_intcfg
      let w := wr_reg32 env w .hp_secvio_intcfg (val ||| 0x80000000)
      ⟨w, 0, none⟩
  | .GET_STATUS writable =>
    let status : tamper_status :=
      { lpsr := rd_reg32 w .lp_status &&& 0x7f0
        lptdsr := rd_reg32 w .lp_tamper_det_status &&& 0xff }
    if writable then ⟨w, 0, some status⟩ else ⟨w, -EFAULT, none⟩
  | .CLEAR_STATUS none => ⟨w, -EFAULT, none⟩
  | .CLEAR_STATUS (some status) =>
    let w := wr_reg32 env w .lp_status (status.lpsr &&& 0x7f0)
    let w := wr_reg32 env w .lp_tamper_det_status (status.lptdsr &&& 0xff)
    ⟨w, 0, none⟩
  | .unknown _ => ⟨w, 0, none⟩

/-! ## Module init and exit -/

/-- Results of the platform look-ups made by `snvs_tamper_init`, in the order
the function makes them.  A `Bool` is `true` when the look-up returns a
non-NULL pointer; `register_chrdev` is the returned major number (negative on
failure); `class_create` is `some err` when `IS_ERR(tamper_class)` holds, with
`err = PTR_ERR(tamper_class)`. -/
structure Platform where
  caam_snvs_node : Bool
  caam_snvs_pdev : Bool
  caam_snvs_drvdata : Bool
  snvs_node : Bool
  snvs_iomap : Bool
  ocotp_node : Bool
  ocotp_iomap : Bool
  register_chrdev : Int
  class_create : Option Int

/-- The module entry `snvs_tamper_init`. -/
def snvs_tamper_init (env : Env) (p : Platform) (w : World) : World × Int :=
  if !p.caam_snvs_node then (w, -ENODEV)
  else if !p.caam_snvs_pdev then (kcall w "of_node_put", -ENODEV)
  else if !p.caam_snvs_drvdata then (kcall w "of_node_put", -ENODEV)
  else if !p.snvs_node then (w, -ENODEV)
  else if !p.snvs_iomap then (w, -ENOMEM)
  else if !p.ocotp_node then (w, -ENODEV)
  else if !p.ocotp_iomap then (w, -ENOMEM)
  else
    let tester_lock := rd_reg32 w (.ocotp 0x400) &&& 0x2
    let tamper_pin := (rd_reg32 w (.ocotp 0x430) &&& 0x300000) >>> 20
    let trim := rd_reg32 w (.ocotp 0x490)
    let w := { w with tester_lock := tester_lock, tamper_pin := tamper_pin }
    let w := if tamper_pin ≠ 0 ∧ tester_lock ≠ 0 then printk w lockedMsg else w
    let w :=
      if tamper_pin ≠ 0 ∧ tester_lock = 0 then
        let val := rd_reg32 w (.ocotp 0x430) &&& not32 0x300000
        wr_reg32 env w (.ocotp 0x430) val
      else w
    let w := iounmap w .ocotp
    let trim := if trim = 0 then 0x020081a1 else trim
    let val := (rd_reg32 w .ex_dtmr &&& not32 0x3ff000) ||| (((trim >>> 10) &&& 0x3ff) <<< 12)
    let w := wr_reg32 env w .ex_dtmr val
    let val := (rd_reg32 w .ex_dtmr &&& not32 0x3f) ||| ((trim >>> 26) &&& 0x3f)
    let w := wr_reg32 env w .ex_dtmr val
    let val := (rd_reg32 w .ex_dtmr &&& not32 0xfc0) ||| (((trim >>> 20) &&& 0x3f) <<< 6)
    let w := wr_reg32 env w .ex_dtmr val
    let val := (rd_reg32 w .ex_dtmr &&& not32 0xffc00000) ||| ((trim &&& 0x3ff) <<< 22)
    let w := wr_reg32 env w .ex_dtmr val
    let val := rd_reg32 w .ex_dtocr
    let w := wr_reg32 env w .ex_dtocr (val ||| 0x1)
    let val := rd_reg32 w .hp_secvio_intcfg
    let w := wr_reg32 env w .hp_secvio_intcfg (val &&& not32 0x80000000)
    let val := rd_reg32 w .hp_secvio_ctl
    let w := wr_reg32 env w .hp_secvio_ctl (val ||| 0x40000000)
    if p.register_chrdev < 0 then
      (printk w "TAMPER: Unable to register driver\n", -ENODEV)
    else
      match p.class_create with
      | some err => (kcall (printk w "TAMPER: Unable to create class\n") "unregister_chrdev", err)
      | none => (kcall w "device_create", 0)

/-- The module exit `snvs_tamper_exit`. -/
def snvs_tamper_exit (w : World) : World :=
  let w := iounmap w .snvsex
  let w := kcall w "device_destroy"
  let w := kcall w "class_destroy"
  kcall w "unregister_chrdev"

/-! ## Specification-side vocabulary -/

/-- The guard both channel-configuration cases test before anything else:
`(tamper_pin != 0) && tester_lock`. -/
def Locked (w : World) : Prop := w.tamper_pin ≠ 0 ∧ w.tester_lock ≠ 0

instance (w : World) : Decidable (Locked w) := by
  unfold Locked; infer_instance

/-- A call that started in `w` failed with `-EINVAL`, copied nothing out, left
every register as it was, and appended no register write to the trace. -/
def RejectedNoWrite (w : World) (r : IoctlResult) : Prop :=
  r.ret = -EINVAL ∧ r.out = none ∧ r.world.regs = w.regs ∧
    ∃ evs, r.world.trace = w.trace ++ evs ∧ writes evs = []

/-- All seven look-ups of `snvs_tamper_init` that precede the fuse reads succeed. -/
def Platform.probed (p : Platform) : Bool :=
  p.caam_snvs_node && p.caam_snvs_pdev && p.caam_snvs_drvdata && p.snvs_node &&
    p.snvs_iomap && p.ocotp_node && p.ocotp_iomap

/-- A sample environment: plain-storage hardware and a sample seed constant. -/
def sampleEnv : Env := { hw := .plain, AT5_POLYSEED := 0x12345678 }

/-- A sample state: every register zero, both fuse globals zero, empty trace. -/
def zeroWorld : World := { regs := fun _ => 0, tester_lock := 0, tamper_pin := 0, trace := [] }

/-- A sample locked state: as `zeroWorld`, with the globals as init leaves them
when the tamper-pin field reads 3 and the tester-lock bit is set. -/
def lockedWorld : World := { zeroWorld with tester_lock := 2, tamper_pin := 3 }

/-- A fuse state in which bits 20-21 of the word at 0x430 and bit 1 of the word
at 0x400 are all set; every other register is zero. -/
def fusedWorld : World :=
  { regs := fun r => if r = .ocotp 0x430 then 0x300000 else if r = .ocotp 0x400 then 0x2 else 0
    tester_lock := 0, tamper_pin := 0, trace := [] }

/-- A platform on which every look-up of init succeeds. -/
def goodPlatform : Platform :=
  { caam_snvs_node := true, caam_snvs_pdev := true, caam_snvs_drvdata := true,
    snvs_node := true, snvs_iomap := true, ocotp_node := true, ocotp_iomap := true,
    register_chrdev := 250, class_create := none }

/-- Spec-side `filter_enable_bits` (spec 4.4): the filter register and the bit
position that receive slot `rx` enables. -/
def filter_enable_bits (rx : Nat) : Reg × Nat :=
  if rx = 0 then (.lp_tamper_filt_cfg, 23)
  else if rx = 1 then (.lp_tamper_filt_cfg, 31)
  else if rx ≤ 5 then (.lp_tamper_filt_cfg1, (rx - 1) * 8 - 1)
  else (.lp_tamper_filt_cfg2, (rx - 5) * 8 - 1)

/-- Spec-side routing bank (spec 4.4): the route register, chosen by `rx < 8`,
and the bit offset of the 4-bit field of receive slot `rx` inside it. -/
def route_bits (rx : Nat) : Reg × Nat :=
  if rx < 8 then (.lp_active_rt_ctl1, rx * 4) else (.lp_active_rt_ctl2, (rx - 8) * 4)

/-- Spec-side `detect_enable_bits` (spec 4.4): the detect-config register and
the enable bit of receive slot `rx`. -/
def detect_enable_bits (rx : Nat) : Reg × Nat :=
  if rx = 0 then (.lp_tamper_det_cfg, 9)
  else if rx = 1 then (.lp_tamper_det_cfg, 10)
  else (.lp_tamper_det_cfg2, rx - 2)

/-- Spec-side detection classes (spec 3 and 6): the three classes that
`SetClockDetect`, `SetTemperatureDetect` and `SetVoltageDetect` switch. -/
inductive TamperClass
  | Clock
  | Temperature
  | Voltage
  deriving DecidableEq, Repr

/-- The bit of a class in `lp.status` and `lp.tamper_det_cfg` (spec 4.5: the
status-enable bit and the detect-config bit of the class). -/
def TamperClass.sbit : TamperClass → Nat
  | .Clock => 0x10
  | .Temperature => 0x20
  | .Voltage => 0x40

/-- The detect-mode bit of a class in the expanded-region register `dmcr`. -/
def TamperClass.dbit : TamperClass → Nat
  | .Clock => 0x4
  | .Temperature => 0x1
  | .Voltage => 0x2

/-- The command `set_class_enable(class, enable)` of the spec, as the request the
dispatcher receives. -/
def TamperClass.cmd : TamperClass → Bool → Cmd
  | .Clock, enable => .CLOCK_EN (some enable)
  | .Temperature, enable => .TEMP_EN (some enable)
  | .Voltage, enable => .VOLT_EN (some enable)

/-- Spec-side trim layout (spec 4.2): the four sub-fields of a calibration word
placed in their slices of the timing register. -/
def trim_fields (t : Nat) : Nat :=
  ((t &&& 0x3ff) <<< 22) ||| (((t >>> 10) &&& 0x3ff) <<< 12) |||
    (((t >>> 20) &&& 0x3f) <<< 6) ||| ((t >>> 26) &&& 0x3f)

/-- The writes of a trace that go to fuse-shadow storage (the `ocotp` words). -/
def fuse_writes : List Event → List (Reg × Nat)
  | [] => []
  | Event.write (.ocotp off) v :: es => (.ocotp off, v) :: fuse_writes es
  | _ :: es => fuse_writes es

/-- Modelled from the spec: the hardware asserting a tamper condition, which
sets `bits` in register `r` without any driver action (the "simulated hardware
assertion" of the end-to-end scenario in spec 8). -/
def hw_assert (w : World) (r : Reg) (bits : Nat) : World :=
  { w with regs := fun r' => if r' = r then w.regs r ||| bits else w.regs r' }

/-- A sample environment with write-1-to-clear status registers. -/
def w1cEnv : Env := { hw := .w1c_status, AT5_POLYSEED := 0x12345678 }

/-- A sample armed state: as `zeroWorld`, with the top-level interrupt-enable
bit (bit 31 of `hp.secvio_intcfg`) set. -/
def armedWorld : World :=
  { zeroWorld with regs := fun r => if r = .hp_secvio_intcfg then 0x80000000 else 0 }

/-- A sample fuse state with the tamper-pin field assigned (bits 20-21 of the
word at 0x430 set, together with bit 10) and the tester-lock bit clear. -/
def assignedWorld : World :=
  { regs := fun r => if r = .ocotp 0x430 then 0x300400 else 0
    tester_lock := 0, tamper_pin := 0, trace := [] }

/-- Spec-side polarity bit (spec 4.4): the detect-config register and the extra
bit that a passive channel with non-zero polarity sets for receive slot `rx`. -/
def polarity_bits (rx : Nat) : Reg × Nat :=
  if rx = 0 then (.lp_tamper_det_cfg, 11)
  else if rx = 1 then (.lp_tamper_det_cfg, 12)
  else (.lp_tamper_det_cfg2, rx - 2 + 16)

/-- Register `R` with the bit of `b` ORed in when `b` names `R`. -/
def or_bit_at (R : Reg) (b : Reg × Nat) (x : Nat) : Nat :=
  if R = b.1 then x ||| 1 <<< b.2 else x

/-- The values written to register `r` in a trace, in order. -/
def reg_writes (r : Reg) : List Event → List Nat
  | [] => []
  | Event.write r' v :: es => if r' = r then v :: reg_writes r es else reg_writes r es
  | _ :: es => reg_writes r es

/-- One read-modify-write of init on the timing register, as a function of the
word read: clear the slice `m`, then OR in the field `f`. -/
def dtmr_step (x m f : Nat) : Nat := x &&& not32 m ||| f

/-- A sample state whose calibration word (offset 0x490) is `0xffffffff` and
whose timing register holds `0x12345678`; every other register is zero. -/
def trimmedWorld : World :=
  { regs := fun r => if r = .ocotp 0x490 then 0xffffffff
      else if r = .ex_dtmr then 0x12345678 else 0
    tester_lock := 0, tamper_pin := 0, trace := [] }

/-- The routing read-modify-write as a function of the word read: replace the
4-bit field at offset `s` by `t`. -/
def route_upd (s t x : Nat) : Nat := u32 (x &&& not32 (0xf <<< s) ||| t <<< s)

/-- Closed form of what an accepted `ConfigureActive(tx, rx)` does to each
register, as a function of the 32-bit word the register held (`seed` is
`AT5_POLYSEED`); proved equal to the code in `active_en_rd`. -/
def active_eff (seed tx rx : Nat) : Reg → Nat → Nat
  | .lp_active_cfg i, x => if i = tx - 5 then u32 seed else x
  | .lp_active_ctl, x => x ||| 1 <<< (tx - 5 + 16) ||| 1 <<< (tx - 5)
  | .lp_active_clk_ctl, x => x &&& not32 (3 <<< ((tx - 5) * 4))
  | .lp_tamper_filt_cfg, x => or_bit_at .lp_tamper_filt_cfg (filter_enable_bits rx) x
  | .lp_tamper_filt_cfg1, x => or_bit_at .lp_tamper_filt_cfg1 (filter_enable_bits rx) x
  | .lp_tamper_filt_cfg2, x => or_bit_at .lp_tamper_filt_cfg2 (filter_enable_bits rx) x
  | .lp_active_rt_ctl1, x =>
    if Reg.lp_active_rt_ctl1 = (route_bits rx).1 then route_upd (route_bits rx).2 (tx - 4) x
    else x
  | .lp_active_rt_ctl2, x =>
    if Reg.lp_active_rt_ctl2 = (route_bits rx).1 then route_upd (route_bits rx).2 (tx - 4) x
    else x
  | .lp_tamper_det_cfg, x => or_bit_at .lp_tamper_det_cfg (detect_enable_bits rx) x
  | .lp_tamper_det_cfg2, x => or_bit_at .lp_tamper_det_cfg2 (detect_enable_bits rx) x
  | .ex_tpctrl i, x => if i = rx then active_tpctrl_val tx else x
  | .hp_secvio_intcfg, x => x ||| 0x80000000
  | _, x => x

/-- Closed form of what an accepted `ConfigurePassive(rx, polarity)` does to
each register, as a function of the 32-bit word the register held; proved
equal to the code in `passive_en_rd`. -/
def passive_eff (rx pol : Nat) : Reg → Nat → Nat
  | .lp_tamper_filt_cfg, x => or_bit_at .lp_tamper_filt_cfg (filter_enable_bits rx) x
  | .lp_tamper_filt_cfg1, x => or_bit_at .lp_tamper_filt_cfg1 (filter_enable_bits rx) x
  | .lp_tamper_filt_cfg2, x => or_bit_at .lp_tamper_filt_cfg2 (filter_enable_bits rx) x
  | .lp_tamper_det_cfg, x =>
    or_bit_at .lp_tamper_det_cfg (detect_enable_bits rx)
      (if pol ≠ 0 then or_bit_at .lp_tamper_det_cfg (polarity_bits rx) x else x)
  | .lp_tamper_det_cfg2, x =>
    or_bit_at .lp_tamper_det_cfg2 (detect_enable_bits rx)
      (if pol ≠ 0 then or_bit_at .lp_tamper_det_cfg2 (polarity_bits rx) x else x)
  | .ex_tpctrl i, x =>
    if i = rx then (if pol ≠ 0 then passive_tpctrl_val_pol else passive_tpctrl_val_nopol) else x
  | .hp_secvio_intcfg, x => x ||| 0x80000000
  | _, x => x

/-- The shift counts that the filter step evaluates for receive slot `rx`
(lines 176-191 and 256-271), as C `int` values on the branch taken. -/
def filt_shift_counts (rx : Int) : List Int :=
  if rx < 2 then [] else if rx < 6 then [(rx - 1) * 8 - 1] else [(rx - 5) * 8 - 1]

/-- The shift counts that the detect step evaluates for receive slot `rx`
(lines 205-216 and 289-300), on the branch taken. -/
def det_shift_counts (rx : Int) : List Int :=
  if rx < 2 then [] else [rx - 2]

/-- The constant shift counts of the trigger control word (lines 218-234,
304-320 and 324-340). -/
def tpctrl_shift_counts : List Int :=
  [28, 27, 21, 20, 17, 16, 15, 14, 13, 12, 11, 10, 7, 6, 4, 2, 0]

/-- Every shift count evaluated by the `TAMPER_IOCTL_ACTIVE_EN` case after
validation (lines 163-238), in source order, on the branches taken. -/
def active_shift_counts (tx rx : Int) : List Int :=
  [tx - 5 + 16, (tx - 5) * 4, tx - 5] ++ filt_shift_counts rx ++
    (if rx < 8 then [rx * 4, rx * 4] else [(rx - 8) * 4, (rx - 8) * 4]) ++
    det_shift_counts rx ++ tpctrl_shift_counts

/-- Every shift count evaluated by the `TAMPER_IOCTL_PASSIVE_EN` case after
validation (lines 256-345), in source order, on the branches taken. -/
def passive_shift_counts (rx pol : Int) : List Int :=
  filt_shift_counts rx ++
    (if pol ≠ 0 then (if rx < 2 then [] else [rx - 2 + 16]) else []) ++
    det_shift_counts rx ++ tpctrl_shift_counts

/-- The value of every subtraction evaluated by the two configuration cases for
`(tx, rx)` on the branches taken: `tx-5`, `tx-4`, and, where their branch is
taken, `rx-1`, `rx-5`, `rx-8`, `rx-2`. -/
def config_differences (tx rx : Int) : List Int :=
  [tx - 5, tx - 4] ++
    (if rx < 2 then [] else if rx < 6 then [rx - 1] else [rx - 5]) ++
    (if rx < 8 then [] else [rx - 8]) ++
    (if rx < 2 then [] else [rx - 2])

/-- Spec-side channel-configuration request (spec 6): `ConfigureActive(tx, rx)`
or `ConfigurePassive(rx, polarity)`. -/
inductive ChanCfg
  | active (tx rx : Nat)
  | passive (rx pol : Nat)
  deriving DecidableEq, Repr

/-- The request the dispatcher receives for a channel-configuration command. -/
def ChanCfg.cmd : ChanCfg → Cmd
  | .active tx rx => .ACTIVE_EN (some ⟨tx, rx⟩)
  | .passive rx pol => .PASSIVE_EN (some ⟨rx, pol⟩)

/-- The receive slot a channel-configuration command names. -/
def ChanCfg.rx : ChanCfg → Nat
  | .active _ rx => rx
  | .passive rx _ => rx

/-- The parameters pass the validation of the command (spec 6: `5 <= tx <= 9`,
`rx <= 9`, `tx != rx` for the active form, `rx <= 9` for the passive form). -/
def ChanCfg.valid : ChanCfg → Prop
  | .active tx rx => (5 ≤ tx ∧ tx ≤ 9) ∧ rx ≤ 9 ∧ tx ≠ rx
  | .passive rx _ => rx ≤ 9

/-- The trigger control word the command stores in `tpctrl[rx]`. -/
def ChanCfg.word : ChanCfg → Nat
  | .active tx _ => active_tpctrl_val tx
  | .passive _ pol => if pol ≠ 0 then passive_tpctrl_val_pol else passive_tpctrl_val_nopol

/-- Closed form of the effect of an accepted channel-configuration command on
each register (`active_eff` or `passive_eff`). -/
def ChanCfg.eff (seed : Nat) : ChanCfg → Reg → Nat → Nat
  | .active tx rx => active_eff seed tx rx
  | .passive rx pol => passive_eff rx pol

/-- Spec-side: the request is a class enable, `set_class_enable(c, true)` for
one of the three classes. -/
def Cmd.is_class_enable : Cmd → Bool
  | .CLOCK_EN (some true) => true
  | .TEMP_EN (some true) => true
  | .VOLT_EN (some true) => true
  | _ => false

/-- Spec-side: the request is a channel configuration, `ConfigureActive` or
`ConfigurePassive`. -/
def Cmd.is_channel_config : Cmd → Bool
  | .ACTIVE_EN _ => true
  | .PASSIVE_EN _ => true
  | _ => false

/-- Spec-side: the request is a class enable or a channel configuration and the
dispatcher returns 0 for it in state `w`. -/
def arming (env : Env) (w : World) (c : Cmd) : Bool :=
  (c.is_class_enable || c.is_channel_config) && decide ((tamper_ioctl env w c).ret = 0)

/-- One entry into the driver after init: an ioctl request or the security
violation interrupt. -/
inductive DriverCall
  | ioctl (c : Cmd)
  | irq
  deriving DecidableEq, Repr

/-- The state after one entry into the driver. -/
def DriverCall.step (env : Env) (w : World) : DriverCall → World
  | .ioctl c => (tamper_ioctl env w c).world
  | .irq => tamper_detect_handler env w

/-- The state after a sequence of entries into the driver, issued one after the
other. -/
def run_calls (env : Env) (w : World) : List DriverCall → World
  | [] => w
  | d :: ds => run_calls env (d.step env w) ds

/-- No entry of the sequence is a class enable or a channel configuration that
succeeds in the state in which it is issued. -/
def quiet_calls (env : Env) (w : World) : List DriverCall → Bool
  | [] => true
  | d :: ds =>
    (match d with
      | .ioctl c => !arming env w c
      | .irq => true) && quiet_calls env (d.step env w) ds

/-- Spec-side: the top-level security-violation interrupt is masked, bit 31 of
`hp.secvio_intcfg` reads 0. -/
def masked (w : World) : Prop := (rd_reg32 w .hp_secvio_intcfg).testBit 31 = false

/-! ## Basic lemmas -/

theorem u32_lt (x : Nat) : u32 x < 2 ^ 32 := Nat.mod_lt _ (by decide)

theorem u32_of_lt {x : Nat} (h : x < 2 ^ 32) : u32 x = x := Nat.mod_eq_of_lt h

theorem rd_reg32_lt (w : World) (r : Reg) : rd_reg32 w r < 2 ^ 32 := u32_lt _

theorem testBit_u32 (x i : Nat) : (u32 x).testBit i = (decide (i < 32) && x.testBit i) :=
  Nat.testBit_mod_two_pow x 32 i

theorem testBit_not32 (x i : Nat) :
    (not32 x).testBit i = (decide (i < 32) && !x.testBit i) := by
  have h : (0xffffffff : Nat).testBit i = decide (i < 32) := Nat.testBit_two_pow_sub_one 32 i
  unfold not32
  rw [Nat.testBit_xor, h, testBit_u32]
  cases decide (i < 32) <;> cases x.testBit i <;> rfl

theorem writes_append (a b : List Event) : writes (a ++ b) = writes a ++ writes b := by
  induction a with
  | nil => rfl
  | cons e es ih => cases e <;> simp [writes, ih]

theorem testBit_mask (k s j : Nat) :
    (((2 ^ k - 1) <<< s)).testBit j = (decide (s ≤ j) && decide (j - s < k)) := by
  rw [Nat.testBit_shiftLeft, Nat.testBit_two_pow_sub_one]

@[simp] theorem wr_reg32_tamper_pin (env : Env) (w : World) (r : Reg) (v : Nat) :
    (wr_reg32 env w r v).tamper_pin = w.tamper_pin := rfl

@[simp] theorem wr_reg32_tester_lock (env : Env) (w : World) (r : Reg) (v : Nat) :
    (wr_reg32 env w r v).tester_lock = w.tester_lock := rfl

@[simp] theorem wr_reg32_trace (env : Env) (w : World) (r : Reg) (v : Nat) :
    (wr_reg32 env w r v).trace = w.trace ++ [Event.write r (u32 v)] := rfl

@[simp] theorem printk_tamper_pin (w : World) (m : String) :
    (printk w m).tamper_pin = w.tamper_pin := rfl

@[simp] theorem printk_tester_lock (w : World) (m : String) :
    (printk w m).tester_lock = w.tester_lock := rfl

@[simp] theorem printk_regs (w : World) (m : String) : (printk w m).regs = w.regs := rfl

@[simp] theorem printk_trace (w : World) (m : String) :
    (printk w m).trace = w.trace ++ [Event.printk m] := rfl

@[simp] theorem udelay_tamper_pin (w : World) (n : Nat) :
    (udelay w n).tamper_pin = w.tamper_pin := rfl

@[simp] theorem udelay_tester_lock (w : World) (n : Nat) :
    (udelay w n).tester_lock = w.tester_lock := rfl

@[simp] theorem udelay_regs (w : World) (n : Nat) : (udelay w n).regs = w.regs := rfl

@[simp] theorem udelay_trace (w : World) (n : Nat) :
    (udelay w n).trace = w.trace ++ [Event.delay n] := rfl

@[simp] theorem iounmap_tamper_pin (w : World) (m : Region) :
    (iounmap w m).tamper_pin = w.tamper_pin := rfl

@[simp] theorem iounmap_tester_lock (w : World) (m : Region) :
    (iounmap w m).tester_lock = w.tester_lock := rfl

@[simp] theorem iounmap_regs (w : World) (m : Region) : (iounmap w m).regs = w.regs := rfl

@[simp] theorem iounmap_trace (w : World) (m : Region) :
    (iounmap w m).trace = w.trace ++ [Event.iounmap m] := rfl

@[simp] theorem kcall_tamper_pin (w : World) (f : String) :
    (kcall w f).tamper_pin = w.tamper_pin := rfl

@[simp] theorem kcall_tester_lock (w : World) (f : String) :
    (kcall w f).tester_lock = w.tester_lock := rfl

@[simp] theorem kcall_regs (w : World) (f : String) : (kcall w f).regs = w.regs := rfl

@[simp] theorem kcall_trace (w : World) (f : String) :
    (kcall w f).trace = w.trace ++ [Event.call f] := rfl

/-- The tamper-pin field extracted at init is non-zero exactly when bit 20 or
bit 21 of the fuse word is set. -/
theorem pin_field_ne_zero (x : Nat) :
    (u32 x &&& 0x300000) >>> 20 ≠ 0 ↔ (x.testBit 20 = true ∨ x.testBit 21 = true) := by
  have hm : ∀ j, (0x300000 : Nat).testBit j = (decide (20 ≤ j) && decide (j - 20 < 2)) :=
    fun j => testBit_mask 2 20 j
  constructor
  · intro h
    obtain ⟨i, hi⟩ := Nat.ne_zero_implies_bit_true h
    rw [Nat.testBit_shiftRight, Nat.testBit_and, testBit_u32, hm] at hi
    simp only [Bool.and_eq_true, decide_eq_true_eq] at hi
    obtain ⟨⟨_, hx⟩, _, h2⟩ := hi
    have : i = 0 ∨ i = 1 := by omega
    rcases this with rfl | rfl
    · exact Or.inl hx
    · exact Or.inr hx
  · intro h hz
    have h20 := congrArg (fun z => Nat.testBit z 0) hz
    have h21 := congrArg (fun z => Nat.testBit z 1) hz
    simp only [Nat.testBit_shiftRight, Nat.testBit_and, testBit_u32, hm,
      Nat.zero_testBit] at h20 h21
    rcases h with h | h
    · simp [h] at h20
    · simp [h] at h21

/-- The tester-lock word extracted at init is non-zero exactly when bit 1 of
the fuse word is set. -/
theorem lock_bit_ne_zero (x : Nat) : u32 x &&& 0x2 ≠ 0 ↔ x.testBit 1 = true := by
  have hm : ∀ j, (0x2 : Nat).testBit j = decide (1 = j) := fun j => @Nat.testBit_two_pow 1 j
  constructor
  · intro h
    obtain ⟨i, hi⟩ := Nat.ne_zero_implies_bit_true h
    rw [Nat.testBit_and, testBit_u32, hm] at hi
    simp only [Bool.and_eq_true, decide_eq_true_eq] at hi
    obtain ⟨⟨_, hx⟩, rfl⟩ := hi
    exact hx
  · intro h hz
    have h1 := congrArg (fun z => Nat.testBit z 1) hz
    simp only [Nat.testBit_and, testBit_u32, hm, Nat.zero_testBit] at h1
    simp [h] at h1

/-- Once the look-ups succeed, init leaves in the two globals the fields it
extracted from the fuse words, whatever happens afterwards. -/
theorem init_globals (env : Env) (p : Platform) (w : World) (hp : p.probed = true) :
    (snvs_tamper_init env p w).1.tamper_pin = (rd_reg32 w (.ocotp 0x430) &&& 0x300000) >>> 20 ∧
    (snvs_tamper_init env p w).1.tester_lock = rd_reg32 w (.ocotp 0x400) &&& 0x2 := by
  simp only [Platform.probed, Bool.and_eq_true] at hp
  obtain ⟨⟨⟨⟨⟨⟨h1, h2⟩, h3⟩, h4⟩, h5⟩, h6⟩, h7⟩ := hp
  simp only [snvs_tamper_init, h1, h2, h3, h4, h5, h6, h7, Bool.not_true, Bool.false_eq_true,
    if_false]
  split_ifs <;> (try split) <;> simp

theorem wr_reg32_regs (env : Env) (w : World) (r : Reg) (v : Nat) (r' : Reg) :
    (wr_reg32 env w r v).regs r' =
      if r' = r then env.hw.store r (w.regs r) (u32 v) else w.regs r' := rfl

/-- A write to any register other than the two status registers stores the
written word under either hardware model. -/
theorem store_of_not_status (hw : HwModel) (r : Reg) (old v : Nat)
    (h1 : r ≠ .lp_status) (h2 : r ≠ .lp_tamper_det_status) : hw.store r old v = v := by
  cases hw <;> cases r <;> first | rfl | exact absurd rfl h1 | exact absurd rfl h2

theorem not32_bit31 : not32 0x80000000 = 0x7fffffff := by decide

theorem testBit_0x7fffffff (i : Nat) : (0x7fffffff : Nat).testBit i = decide (i < 31) :=
  Nat.testBit_two_pow_sub_one 31 i

theorem testBit_0x7f0 (i : Nat) :
    (0x7f0 : Nat).testBit i = (decide (4 ≤ i) && decide (i - 4 < 7)) := testBit_mask 7 4 i

theorem testBit_0xff (i : Nat) : (0xff : Nat).testBit i = decide (i < 8) :=
  Nat.testBit_two_pow_sub_one 8 i

theorem u32_and_left (x m : Nat) (hx : x < 2 ^ 32) : u32 (x &&& m) = x &&& m :=
  u32_of_lt (Nat.lt_of_le_of_lt Nat.and_le_left hx)

theorem u32_or {x y : Nat} (hx : x < 2 ^ 32) (hy : y < 2 ^ 32) : u32 (x ||| y) = x ||| y :=
  u32_of_lt (Nat.or_lt_two_pow hx hy)

theorem u32_u32 (x : Nat) : u32 (u32 x) = u32 x := u32_of_lt (u32_lt x)

/-- A mask is non-zero exactly when one of its bits is set. -/
theorem ne_zero_iff_exists_testBit (x : Nat) : x ≠ 0 ↔ ∃ i, x.testBit i = true := by
  constructor
  · exact Nat.ne_zero_implies_bit_true
  · rintro ⟨i, hi⟩ rfl
    simp at hi

/-- The handler `tamper_detect_handler` in closed form: the status reads that follow the
write to `hp.secvio_intcfg` see the values the registers held on entry. -/
theorem tamper_detect_handler_eq (env : Env) (w : World) :
    tamper_detect_handler env w =
      if rd_reg32 w .lp_status &&& 0x7f0 ≠ 0 ∨ rd_reg32 w .lp_tamper_det_status &&& 0xff ≠ 0 then
        printk (wr_reg32 env w .hp_secvio_intcfg (rd_reg32 w .hp_secvio_intcfg &&& 0x7fffffff))
          "tamper detected!\n"
      else
        wr_reg32 env w .hp_secvio_intcfg (rd_reg32 w .hp_secvio_intcfg &&& 0x7fffffff) := by
  have hrd : ∀ r v, r ≠ .hp_secvio_intcfg →
      rd_reg32 (wr_reg32 env w .hp_secvio_intcfg v) r = rd_reg32 w r := by
    intro r v hr
    simp [rd_reg32, wr_reg32_regs, hr]
  simp only [tamper_detect_handler, not32_bit31, hrd .lp_status _ (by decide),
    hrd .lp_tamper_det_status _ (by decide)]

theorem u32_rd_or (w : World) (r : Reg) (k : Nat) (hk : k < 2 ^ 32) :
    u32 (rd_reg32 w r ||| k) = rd_reg32 w r ||| k := u32_or (rd_reg32_lt w r) hk

/-- The filter-enable step of the active case is one write that ORs the bit of
`filter_enable_bits rx` into the register of `filter_enable_bits rx`. -/
theorem active_filt_step_eq (env : Env) (w : World) (rx : Nat) (h : rx ≤ 9) :
    active_filt_step env w rx =
      wr_reg32 env w (filter_enable_bits rx).1
        (rd_reg32 w (filter_enable_bits rx).1 ||| 1 <<< (filter_enable_bits rx).2) := by
  interval_cases rx <;> simp [active_filt_step, filter_enable_bits]

/-- The filter-enable step of the passive case, likewise. -/
theorem passive_filt_step_eq (env : Env) (w : World) (rx : Nat) (h : rx ≤ 9) :
    passive_filt_step env w rx =
      wr_reg32 env w (filter_enable_bits rx).1
        (rd_reg32 w (filter_enable_bits rx).1 ||| 1 <<< (filter_enable_bits rx).2) := by
  interval_cases rx <;> simp [passive_filt_step, filter_enable_bits]

theorem rd_wr_same (env : Env) (w : World) (r : Reg) (v : Nat)
    (h1 : r ≠ .lp_status) (h2 : r ≠ .lp_tamper_det_status) :
    rd_reg32 (wr_reg32 env w r v) r = u32 v := by
  simp [rd_reg32, wr_reg32_regs, store_of_not_status _ _ _ _ h1 h2, u32_u32]

theorem rd_wr_ne (env : Env) (w : World) (r r' : Reg) (v : Nat) (h : r' ≠ r) :
    rd_reg32 (wr_reg32 env w r v) r' = rd_reg32 w r' := by
  simp [rd_reg32, wr_reg32_regs, h]

/-- Frame of the active filter step: only the three filter registers can change. -/
theorem active_filt_step_rd (env : Env) (w : World) (rx : Nat) (r : Reg)
    (h0 : r ≠ .lp_tamper_filt_cfg) (h1 : r ≠ .lp_tamper_filt_cfg1)
    (h2 : r ≠ .lp_tamper_filt_cfg2) :
    rd_reg32 (active_filt_step env w rx) r = rd_reg32 w r := by
  unfold active_filt_step
  split_ifs <;> simp only [rd_wr_ne _ _ _ _ _ h0, rd_wr_ne _ _ _ _ _ h1, rd_wr_ne _ _ _ _ _ h2]

/-- Frame of the active detect step: only the two detect-config registers can change. -/
theorem active_det_step_rd (env : Env) (w : World) (rx : Nat) (r : Reg)
    (h0 : r ≠ .lp_tamper_det_cfg) (h1 : r ≠ .lp_tamper_det_cfg2) :
    rd_reg32 (active_det_step env w rx) r = rd_reg32 w r := by
  unfold active_det_step
  split_ifs <;> simp only [rd_wr_ne _ _ _ _ _ h0, rd_wr_ne _ _ _ _ _ h1]

/-- Frame of the active routing step: only the two routing registers can change. -/
theorem active_route_step_rd (env : Env) (w : World) (tx rx : Nat) (r : Reg)
    (h0 : r ≠ .lp_active_rt_ctl1) (h1 : r ≠ .lp_active_rt_ctl2) :
    rd_reg32 (active_route_step env w tx rx) r = rd_reg32 w r := by
  unfold active_route_step
  split_ifs <;> simp only [rd_wr_ne _ _ _ _ _ h0, rd_wr_ne _ _ _ _ _ h1]

/-- The routing step of the active case is one read-modify-write of the register
of `route_bits rx` on the 4-bit field at the offset of `route_bits rx`. -/
theorem active_route_step_eq (env : Env) (w : World) (tx rx : Nat) :
    active_route_step env w tx rx =
      wr_reg32 env w (route_bits rx).1
        (rd_reg32 w (route_bits rx).1 &&& not32 (0xf <<< (route_bits rx).2)
          ||| (tx - 4) <<< (route_bits rx).2) := by
  unfold active_route_step route_bits
  split_ifs <;> rfl

/-- Writing a value below 16 into a 4-bit field and reading the field back. -/
theorem route_field (x t s : Nat) (ht : t < 16) (hs : s + 4 ≤ 32) :
    (u32 (u32 x &&& not32 (0xf <<< s) ||| t <<< s) >>> s) &&& 0xf = t := by
  have hf : ∀ j, (0xf : Nat).testBit j = decide (j < 4) :=
    fun j => Nat.testBit_two_pow_sub_one 4 j
  apply Nat.eq_of_testBit_eq
  intro i
  simp only [Nat.testBit_and, Nat.testBit_shiftRight, testBit_u32, Nat.testBit_or,
    testBit_not32, Nat.testBit_shiftLeft, hf, Nat.add_sub_cancel_left]
  by_cases h4 : i < 4
  · have : s + i < 32 := by omega
    simp [h4, this]
  · have h16 : t.testBit i = false :=
      Nat.testBit_lt_two_pow (Nat.lt_of_lt_of_le ht
        (Nat.pow_le_pow_right (show 0 < 2 by decide) (show 4 ≤ i by omega)))
    simp [h4, h16]

theorem one_shiftLeft_lt (k : Nat) (h : k < 32) : 1 <<< k < 2 ^ 32 := by
  rw [Nat.one_shiftLeft]
  exact Nat.pow_lt_pow_right (by decide) h

theorem shiftLeft_lt (t s a : Nat) (ht : t < 2 ^ a) (hs : s + a ≤ 32) : t <<< s < 2 ^ 32 := by
  rw [Nat.shiftLeft_eq]
  calc t * 2 ^ s < 2 ^ a * 2 ^ s := Nat.mul_lt_mul_of_pos_right ht (Nat.two_pow_pos s)
    _ = 2 ^ (a + s) := (Nat.pow_add 2 a s).symm
    _ ≤ 2 ^ 32 := Nat.pow_le_pow_right (by decide) (by omega)

/-- The detect-enable step of the active case is one write that ORs the bit of
`detect_enable_bits rx` into the register of `detect_enable_bits rx`. -/
theorem active_det_step_eq (env : Env) (w : World) (rx : Nat) :
    active_det_step env w rx =
      wr_reg32 env w (detect_enable_bits rx).1
        (rd_reg32 w (detect_enable_bits rx).1 ||| 1 <<< (detect_enable_bits rx).2) := by
  unfold active_det_step detect_enable_bits
  split_ifs <;> first | rfl | omega

theorem filter_reg_cases (rx : Nat) :
    (filter_enable_bits rx).1 = .lp_tamper_filt_cfg ∨
    (filter_enable_bits rx).1 = .lp_tamper_filt_cfg1 ∨
    (filter_enable_bits rx).1 = .lp_tamper_filt_cfg2 := by
  unfold filter_enable_bits
  split_ifs <;> simp

theorem route_reg_cases (rx : Nat) :
    (route_bits rx).1 = .lp_active_rt_ctl1 ∨ (route_bits rx).1 = .lp_active_rt_ctl2 := by
  unfold route_bits
  split_ifs <;> simp

theorem detect_reg_cases (rx : Nat) :
    (detect_enable_bits rx).1 = .lp_tamper_det_cfg ∨
    (detect_enable_bits rx).1 = .lp_tamper_det_cfg2 := by
  unfold detect_enable_bits
  split_ifs <;> simp

theorem filter_bit_lt (rx : Nat) (h : rx ≤ 9) : (filter_enable_bits rx).2 < 32 := by
  interval_cases rx <;> decide

theorem route_shift_le (rx : Nat) (h : rx ≤ 9) : (route_bits rx).2 + 4 ≤ 32 := by
  unfold route_bits
  split_ifs <;> simp only <;> omega

theorem detect_bit_lt (rx : Nat) (h : rx ≤ 9) : (detect_enable_bits rx).2 < 32 := by
  unfold detect_enable_bits
  split_ifs <;> simp only <;> omega

@[simp] theorem rd_printk (w : World) (m : String) (r : Reg) :
    rd_reg32 (printk w m) r = rd_reg32 w r := rfl

@[simp] theorem rd_udelay (w : World) (n : Nat) (r : Reg) :
    rd_reg32 (udelay w n) r = rd_reg32 w r := rfl

@[simp] theorem rd_iounmap (w : World) (m : Region) (r : Reg) :
    rd_reg32 (iounmap w m) r = rd_reg32 w r := rfl

@[simp] theorem rd_kcall (w : World) (f : String) (r : Reg) :
    rd_reg32 (kcall w f) r = rd_reg32 w r := rfl

/-- The four read-modify-write steps of init on the timing register, composed:
whatever the register held, it ends up holding the four sub-fields of `t`. -/
theorem dtmr_steps (x t : Nat) :
    u32 (u32 (u32 (u32 (u32 x &&& not32 0x3ff000 ||| (((t >>> 10) &&& 0x3ff) <<< 12))
      &&& not32 0x3f ||| ((t >>> 26) &&& 0x3f))
      &&& not32 0xfc0 ||| (((t >>> 20) &&& 0x3f) <<< 6))
      &&& not32 0xffc00000 ||| ((t &&& 0x3ff) <<< 22))
    = trim_fields t := by
  have m1 : ∀ j, (0x3ff000 : Nat).testBit j = (decide (12 ≤ j) && decide (j - 12 < 10)) :=
    fun j => testBit_mask 10 12 j
  have m2 : ∀ j, (0x3f : Nat).testBit j = decide (j < 6) :=
    fun j => Nat.testBit_two_pow_sub_one 6 j
  have m3 : ∀ j, (0xfc0 : Nat).testBit j = (decide (6 ≤ j) && decide (j - 6 < 6)) :=
    fun j => testBit_mask 6 6 j
  have m4 : ∀ j, (0xffc00000 : Nat).testBit j = (decide (22 ≤ j) && decide (j - 22 < 10)) :=
    fun j => testBit_mask 10 22 j
  have m5 : ∀ j, (0x3ff : Nat).testBit j = decide (j < 10) :=
    fun j => Nat.testBit_two_pow_sub_one 10 j
  apply Nat.eq_of_testBit_eq
  intro i
  unfold trim_fields
  simp only [testBit_u32, Nat.testBit_or, Nat.testBit_and, testBit_not32, Nat.testBit_shiftLeft,
    Nat.testBit_shiftRight, m1, m2, m3, m4, m5]
  generalize x.testBit i = a
  generalize t.testBit (10 + (i - 12)) = b1
  generalize t.testBit (26 + i) = b2
  generalize t.testBit (20 + (i - 6)) = b3
  generalize t.testBit (i - 22) = b4
  clear m1 m2 m3 m4 m5
  cases a <;> cases b1 <;> cases b2 <;> cases b3 <;> cases b4 <;> simp <;>
    first
    | omega
    | (rw [Bool.eq_iff_iff]
       simp only [Bool.and_eq_true, Bool.or_eq_true, Bool.not_eq_true', decide_eq_true_eq,
         decide_eq_false_iff_not]
       omega)

/-- Once the look-ups succeed, init leaves in the timing register the four
sub-fields of the calibration word it read (the fallback constant when that
word is zero), whatever the register held before. -/
theorem init_rd_dtmr (env : Env) (p : Platform) (w : World) (hp : p.probed = true) :
    rd_reg32 (snvs_tamper_init env p w).1 .ex_dtmr =
      trim_fields (if rd_reg32 w (.ocotp 0x490) = 0 then 0x020081a1
        else rd_reg32 w (.ocotp 0x490)) := by
  simp only [Platform.probed, Bool.and_eq_true] at hp
  obtain ⟨⟨⟨⟨⟨⟨h1, h2⟩, h3⟩, h4⟩, h5⟩, h6⟩, h7⟩ := hp
  rw [← dtmr_steps (w.regs .ex_dtmr)]
  simp only [snvs_tamper_init, h1, h2, h3, h4, h5, h6, h7, Bool.not_true, Bool.false_eq_true,
    if_false]
  split_ifs <;> (try split) <;>
    simp only [rd_printk, rd_kcall, rd_iounmap, rd_wr_ne, rd_wr_same, ne_eq, reduceCtorEq,
      not_false_eq_true, u32_u32] <;> rfl

@[simp] theorem rd_with_globals (w : World) (a b : Nat) (r : Reg) :
    rd_reg32 { w with tester_lock := a, tamper_pin := b } r = rd_reg32 w r := rfl

/-- The guard of the fuse-consuming write of init, in terms of the fuse bits. -/
theorem consume_guard_iff (w : World) :
    ((rd_reg32 w (.ocotp 0x430) &&& 0x300000) >>> 20 ≠ 0 ∧ rd_reg32 w (.ocotp 0x400) &&& 0x2 = 0) ↔
      (((w.regs (.ocotp 0x430)).testBit 20 = true ∨ (w.regs (.ocotp 0x430)).testBit 21 = true) ∧
        ¬ (w.regs (.ocotp 0x400)).testBit 1 = true) := by
  apply and_congr (pin_field_ne_zero _)
  rw [← lock_bit_ne_zero]
  exact not_not.symm

/-- The trigger register of `rx` after an accepted `ConfigureActive(tx, rx)`. -/
theorem active_en_rd_tpctrl (env : Env) (w : World) (tx rx : Nat) (hopen : ¬ Locked w)
    (htx : 5 ≤ tx ∧ tx ≤ 9) (hrx : rx ≤ 9) (hne : tx ≠ rx) :
    rd_reg32 (tamper_ioctl env w (.ACTIVE_EN (some ⟨tx, rx⟩))).world (.ex_tpctrl rx)
      = active_tpctrl_val tx := by
  obtain ⟨h5, h9⟩ := htx
  have hopen' : ¬ (w.tamper_pin ≠ 0 ∧ w.tester_lock ≠ 0) := hopen
  have hv1 : ¬ (tx > 9 ∨ tx < 5) := by omega
  have hv2 : ¬ (rx > 9 ∨ rx = tx) := by omega
  have hu : u32 (active_tpctrl_val tx) = active_tpctrl_val tx := by
    interval_cases tx <;> decide
  simp only [tamper_ioctl, if_neg hopen', if_neg hv1, if_neg hv2]
  rw [rd_wr_ne _ _ _ _ _ (by simp), rd_wr_same _ _ _ _ (by simp) (by simp), hu]

/-- The trigger register of `rx` after an accepted `ConfigurePassive(rx, polarity)`. -/
theorem passive_en_rd_tpctrl (env : Env) (w : World) (rx pol : Nat) (hopen : ¬ Locked w)
    (hrx : rx ≤ 9) :
    rd_reg32 (tamper_ioctl env w (.PASSIVE_EN (some ⟨rx, pol⟩))).world (.ex_tpctrl rx)
      = if pol ≠ 0 then passive_tpctrl_val_pol else passive_tpctrl_val_nopol := by
  have hopen' : ¬ (w.tamper_pin ≠ 0 ∧ w.tester_lock ≠ 0) := hopen
  have hv : ¬ rx > 9 := by omega
  simp only [tamper_ioctl, if_neg hopen', if_neg hv]
  rw [rd_wr_ne _ _ _ _ _ (by simp), rd_wr_same _ _ _ _ (by simp) (by simp)]
  split_ifs <;> decide

/-- Trace appended by `set_class_enable(c, true)`: four register writes with
the settle delay after the second. -/
theorem class_enable_trace (env : Env) (w : World) (c : TamperClass) :
    (tamper_ioctl env w (c.cmd true)).world.trace = w.trace ++
      [ Event.write .lp_status (rd_reg32 w .lp_status ||| c.sbit),
        Event.write .ex_dmcr (rd_reg32 w .ex_dmcr ||| c.dbit),
        Event.delay 1000,
        Event.write .lp_tamper_det_cfg (rd_reg32 w .lp_tamper_det_cfg ||| c.sbit),
        Event.write .hp_secvio_intcfg (rd_reg32 w .hp_secvio_intcfg ||| 0x80000000) ] := by
  have e1 : ∀ r, u32 (rd_reg32 w r ||| 0x1) = rd_reg32 w r ||| 0x1 :=
    fun r => u32_rd_or w r _ (by decide)
  have e2 : ∀ r, u32 (rd_reg32 w r ||| 0x2) = rd_reg32 w r ||| 0x2 :=
    fun r => u32_rd_or w r _ (by decide)
  have e4 : ∀ r, u32 (rd_reg32 w r ||| 0x4) = rd_reg32 w r ||| 0x4 :=
    fun r => u32_rd_or w r _ (by decide)
  have e10 : ∀ r, u32 (rd_reg32 w r ||| 0x10) = rd_reg32 w r ||| 0x10 :=
    fun r => u32_rd_or w r _ (by decide)
  have e20 : ∀ r, u32 (rd_reg32 w r ||| 0x20) = rd_reg32 w r ||| 0x20 :=
    fun r => u32_rd_or w r _ (by decide)
  have e40 : ∀ r, u32 (rd_reg32 w r ||| 0x40) = rd_reg32 w r ||| 0x40 :=
    fun r => u32_rd_or w r _ (by decide)
  have e31 : ∀ r, u32 (rd_reg32 w r ||| 0x80000000) = rd_reg32 w r ||| 0x80000000 :=
    fun r => u32_rd_or w r _ (by decide)
  cases c <;>
    simp only [TamperClass.cmd, TamperClass.sbit, TamperClass.dbit, tamper_ioctl, clock_en,
      temp_en, volt_en, if_true, wr_reg32_trace, udelay_trace, rd_wr_ne, rd_udelay, ne_eq,
      reduceCtorEq, not_false_eq_true, List.append_assoc, List.singleton_append,
      List.cons_append, List.nil_append, e1, e2, e4, e10, e20, e40, e31]

/-- Trace appended by `set_class_enable(c, false)`: two register writes with
the settle delay between them. -/
theorem class_disable_trace (env : Env) (w : World) (c : TamperClass) :
    (tamper_ioctl env w (c.cmd false)).world.trace = w.trace ++
      [ Event.write .ex_dmcr (rd_reg32 w .ex_dmcr &&& not32 c.dbit),
        Event.delay 1000,
        Event.write .lp_tamper_det_cfg (rd_reg32 w .lp_tamper_det_cfg &&& not32 c.sbit) ] := by
  have e : ∀ r m, u32 (rd_reg32 w r &&& m) = rd_reg32 w r &&& m :=
    fun r m => u32_and_left _ _ (rd_reg32_lt _ _)
  cases c <;>
    simp only [TamperClass.cmd, TamperClass.sbit, TamperClass.dbit, tamper_ioctl, clock_en,
      temp_en, volt_en, Bool.false_eq_true, if_false, wr_reg32_trace, udelay_trace, rd_wr_ne,
      rd_udelay, ne_eq, reduceCtorEq, not_false_eq_true, List.append_assoc,
      List.singleton_append, List.cons_append, List.nil_append, e]

theorem store_plain (r : Reg) (old v : Nat) : HwModel.plain.store r old v = v := by
  simp [HwModel.store]

theorem rd_wr_same_plain (seed : Nat) (w : World) (r : Reg) (v : Nat) :
    rd_reg32 (wr_reg32 ⟨.plain, seed⟩ w r v) r = u32 v := by
  simp [rd_reg32, wr_reg32_regs, store_plain, u32_u32]

/-- Registers after `set_class_enable(c, true)` on plain-storage hardware. -/
theorem class_enable_rd_plain (seed : Nat) (w : World) (c : TamperClass) (r : Reg) :
    rd_reg32 (tamper_ioctl ⟨.plain, seed⟩ w (c.cmd true)).world r =
      if r = .lp_status then rd_reg32 w r ||| c.sbit
      else if r = .ex_dmcr then rd_reg32 w r ||| c.dbit
      else if r = .lp_tamper_det_cfg then rd_reg32 w r ||| c.sbit
      else if r = .hp_secvio_intcfg then rd_reg32 w r ||| 0x80000000
      else rd_reg32 w r := by
  have e1 : ∀ r, u32 (rd_reg32 w r ||| 0x1) = rd_reg32 w r ||| 0x1 :=
    fun r => u32_rd_or w r _ (by decide)
  have e2 : ∀ r, u32 (rd_reg32 w r ||| 0x2) = rd_reg32 w r ||| 0x2 :=
    fun r => u32_rd_or w r _ (by decide)
  have e4 : ∀ r, u32 (rd_reg32 w r ||| 0x4) = rd_reg32 w r ||| 0x4 :=
    fun r => u32_rd_or w r _ (by decide)
  have e10 : ∀ r, u32 (rd_reg32 w r ||| 0x10) = rd_reg32 w r ||| 0x10 :=
    fun r => u32_rd_or w r _ (by decide)
  have e20 : ∀ r, u32 (rd_reg32 w r ||| 0x20) = rd_reg32 w r ||| 0x20 :=
    fun r => u32_rd_or w r _ (by decide)
  have e40 : ∀ r, u32 (rd_reg32 w r ||| 0x40) = rd_reg32 w r ||| 0x40 :=
    fun r => u32_rd_or w r _ (by decide)
  have e31 : ∀ r, u32 (rd_reg32 w r ||| 0x80000000) = rd_reg32 w r ||| 0x80000000 :=
    fun r => u32_rd_or w r _ (by decide)
  split_ifs with h1 h2 h3 h4
  · subst h1
    cases c <;>
      simp only [TamperClass.cmd, TamperClass.sbit, tamper_ioctl, clock_en, temp_en, volt_en,
        if_true, rd_wr_ne, rd_udelay, rd_wr_same_plain, ne_eq, reduceCtorEq, not_false_eq_true,
        e10, e20, e40]
  · subst h2
    cases c <;>
      simp only [TamperClass.cmd, TamperClass.dbit, tamper_ioctl, clock_en, temp_en, volt_en,
        if_true, rd_wr_ne, rd_udelay, rd_wr_same_plain, ne_eq, reduceCtorEq, not_false_eq_true,
        e1, e2, e4]
  · subst h3
    cases c <;>
      simp only [TamperClass.cmd, TamperClass.sbit, tamper_ioctl, clock_en, temp_en, volt_en,
        if_true, rd_wr_ne, rd_udelay, rd_wr_same_plain, ne_eq, reduceCtorEq, not_false_eq_true,
        e10, e20, e40]
  · subst h4
    cases c <;>
      simp only [TamperClass.cmd, tamper_ioctl, clock_en, temp_en, volt_en,
        if_true, rd_wr_ne, rd_udelay, rd_wr_same_plain, ne_eq, reduceCtorEq, not_false_eq_true,
        e31]
  · cases c <;>
      simp only [TamperClass.cmd, tamper_ioctl, clock_en, temp_en, volt_en,
        if_true, rd_wr_ne _ _ _ _ _ h1, rd_wr_ne _ _ _ _ _ h2, rd_wr_ne _ _ _ _ _ h3,
        rd_wr_ne _ _ _ _ _ h4, rd_udelay]

/-- Frame of the passive polarity step: only the two detect-config registers
can change. -/
theorem passive_pol_step_rd (env : Env) (w : World) (rx pol : Nat) (r : Reg)
    (h0 : r ≠ .lp_tamper_det_cfg) (h1 : r ≠ .lp_tamper_det_cfg2) :
    rd_reg32 (passive_pol_step env w rx pol) r = rd_reg32 w r := by
  unfold passive_pol_step
  split_ifs <;>
    first
    | rfl
    | simp only [rd_wr_ne _ _ _ _ _ h0, rd_wr_ne _ _ _ _ _ h1]

/-- Frame of the passive detect step: only the two detect-config registers can
change. -/
theorem passive_det_step_rd (env : Env) (w : World) (rx : Nat) (r : Reg)
    (h0 : r ≠ .lp_tamper_det_cfg) (h1 : r ≠ .lp_tamper_det_cfg2) :
    rd_reg32 (passive_det_step env w rx) r = rd_reg32 w r := by
  unfold passive_det_step
  split_ifs <;> simp only [rd_wr_ne _ _ _ _ _ h0, rd_wr_ne _ _ _ _ _ h1]

/-- The three filter registers after an accepted `ConfigureActive(tx, rx)`. -/
theorem active_en_rd_filter (env : Env) (w : World) (tx rx : Nat) (R : Reg)
    (hopen : ¬ Locked w) (htx : 5 ≤ tx ∧ tx ≤ 9) (hrx : rx ≤ 9) (hne : tx ≠ rx)
    (hR : R = .lp_tamper_filt_cfg ∨ R = .lp_tamper_filt_cfg1 ∨ R = .lp_tamper_filt_cfg2) :
    rd_reg32 (tamper_ioctl env w (.ACTIVE_EN (some ⟨tx, rx⟩))).world R =
      if R = (filter_enable_bits rx).1 then rd_reg32 w R ||| 1 <<< (filter_enable_bits rx).2
      else rd_reg32 w R := by
  obtain ⟨h5, h9⟩ := htx
  have hopen' : ¬ (w.tamper_pin ≠ 0 ∧ w.tester_lock ≠ 0) := hopen
  have hv1 : ¬ (tx > 9 ∨ tx < 5) := by omega
  have hv2 : ¬ (rx > 9 ∨ rx = tx) := by omega
  have e4 : ∀ r, u32 (rd_reg32 w r ||| 1 <<< (filter_enable_bits rx).2)
      = rd_reg32 w r ||| 1 <<< (filter_enable_bits rx).2 :=
    fun r => u32_rd_or _ _ _ (one_shiftLeft_lt _ (filter_bit_lt rx hrx))
  simp only [tamper_ioctl, if_neg hopen', if_neg hv1, if_neg hv2, active_filt_step_eq _ _ _ hrx]
  have hF := filter_reg_cases rx
  rcases hR with rfl | rfl | rfl <;>
    rw [rd_wr_ne _ _ _ _ _ (by decide), rd_wr_ne _ _ _ _ _ (by simp),
      active_det_step_rd _ _ _ _ (by decide) (by decide),
      active_route_step_rd _ _ _ _ _ (by decide) (by decide)] <;>
    rcases hF with hF | hF | hF <;>
    simp only [hF, rd_wr_same, rd_wr_ne, ne_eq, reduceCtorEq, not_false_eq_true, if_true,
      if_false, e4]

/-- The three filter registers after an accepted `ConfigurePassive(rx, polarity)`. -/
theorem passive_en_rd_filter (env : Env) (w : World) (rx pol : Nat) (R : Reg)
    (hopen : ¬ Locked w) (hrx : rx ≤ 9)
    (hR : R = .lp_tamper_filt_cfg ∨ R = .lp_tamper_filt_cfg1 ∨ R = .lp_tamper_filt_cfg2) :
    rd_reg32 (tamper_ioctl env w (.PASSIVE_EN (some ⟨rx, pol⟩))).world R =
      if R = (filter_enable_bits rx).1 then rd_reg32 w R ||| 1 <<< (filter_enable_bits rx).2
      else rd_reg32 w R := by
  have hopen' : ¬ (w.tamper_pin ≠ 0 ∧ w.tester_lock ≠ 0) := hopen
  have hv : ¬ rx > 9 := by omega
  have e4 : ∀ r, u32 (rd_reg32 w r ||| 1 <<< (filter_enable_bits rx).2)
      = rd_reg32 w r ||| 1 <<< (filter_enable_bits rx).2 :=
    fun r => u32_rd_or _ _ _ (one_shiftLeft_lt _ (filter_bit_lt rx hrx))
  simp only [tamper_ioctl, if_neg hopen', if_neg hv, passive_filt_step_eq _ _ _ hrx]
  have hF := filter_reg_cases rx
  rcases hR with rfl | rfl | rfl <;>
    rw [rd_wr_ne _ _ _ _ _ (by decide), rd_wr_ne _ _ _ _ _ (by simp),
      passive_det_step_rd _ _ _ _ (by decide) (by decide),
      passive_pol_step_rd _ _ _ _ _ (by decide) (by decide)] <;>
    rcases hF with hF | hF | hF <;>
    simp only [hF, rd_wr_same, rd_wr_ne, ne_eq, reduceCtorEq, not_false_eq_true, if_true,
      if_false, e4]

/-- Writing a value below 16 into the 4-bit field at offset `s` (a multiple of
4) leaves every other 4-bit field as it was. -/
theorem route_field_other (x t s j : Nat) (ht : t < 16) (hs : s % 4 = 0) (hj : 4 * j ≠ s) :
    (u32 (u32 x &&& not32 (0xf <<< s) ||| t <<< s) >>> (4 * j)) &&& 0xf
      = (u32 x >>> (4 * j)) &&& 0xf := by
  have hf : ∀ k, (0xf : Nat).testBit k = decide (k < 4) :=
    fun k => Nat.testBit_two_pow_sub_one 4 k
  apply Nat.eq_of_testBit_eq
  intro i
  simp only [Nat.testBit_and, Nat.testBit_shiftRight, testBit_u32, Nat.testBit_or,
    testBit_not32, Nat.testBit_shiftLeft, hf]
  by_cases h4 : i < 4
  · by_cases hge : s ≤ 4 * j + i
    · have hk : t.testBit (4 * j + i - s) = false :=
        Nat.testBit_lt_two_pow (Nat.lt_of_lt_of_le ht
          (Nat.pow_le_pow_right (show 0 < 2 by decide) (show 4 ≤ 4 * j + i - s by omega)))
      have hn : ¬ (4 * j + i - s < 4) := by omega
      by_cases h32 : 4 * j + i < 32 <;> simp [h4, hge, hk, hn, h32]
    · by_cases h32 : 4 * j + i < 32 <;> simp [h4, hge, h32]
  · simp [h4]

/-- The two routing registers after an accepted `ConfigureActive(tx, rx)`. -/
theorem active_en_rd_route (env : Env) (w : World) (tx rx : Nat) (R : Reg)
    (hopen : ¬ Locked w) (htx : 5 ≤ tx ∧ tx ≤ 9) (hrx : rx ≤ 9) (hne : tx ≠ rx)
    (hR : R = .lp_active_rt_ctl1 ∨ R = .lp_active_rt_ctl2) :
    rd_reg32 (tamper_ioctl env w (.ACTIVE_EN (some ⟨tx, rx⟩))).world R =
      if R = (route_bits rx).1 then
        u32 (rd_reg32 w R &&& not32 (0xf <<< (route_bits rx).2) ||| (tx - 4) <<< (route_bits rx).2)
      else rd_reg32 w R := by
  obtain ⟨h5, h9⟩ := htx
  have hopen' : ¬ (w.tamper_pin ≠ 0 ∧ w.tester_lock ≠ 0) := hopen
  have hv1 : ¬ (tx > 9 ∨ tx < 5) := by omega
  have hv2 : ¬ (rx > 9 ∨ rx = tx) := by omega
  simp only [tamper_ioctl, if_neg hopen', if_neg hv1, if_neg hv2, active_route_step_eq]
  have hRt := route_reg_cases rx
  rcases hR with rfl | rfl <;>
    rw [rd_wr_ne _ _ _ _ _ (by decide), rd_wr_ne _ _ _ _ _ (by simp),
      active_det_step_rd _ _ _ _ (by decide) (by decide)] <;>
    rcases hRt with hRt | hRt <;>
    simp only [hRt, rd_wr_same, rd_wr_ne, active_filt_step_rd, ne_eq, reduceCtorEq,
      not_false_eq_true, if_true, if_false]

theorem passive_filt_step_rd (env : Env) (w : World) (rx : Nat) (r : Reg)
    (h0 : r ≠ .lp_tamper_filt_cfg) (h1 : r ≠ .lp_tamper_filt_cfg1)
    (h2 : r ≠ .lp_tamper_filt_cfg2) :
    rd_reg32 (passive_filt_step env w rx) r = rd_reg32 w r := by
  unfold passive_filt_step
  split_ifs <;> simp only [rd_wr_ne _ _ _ _ _ h0, rd_wr_ne _ _ _ _ _ h1, rd_wr_ne _ _ _ _ _ h2]

theorem passive_det_step_eq (env : Env) (w : World) (rx : Nat) :
    passive_det_step env w rx =
      wr_reg32 env w (detect_enable_bits rx).1
        (rd_reg32 w (detect_enable_bits rx).1 ||| 1 <<< (detect_enable_bits rx).2) := by
  unfold passive_det_step detect_enable_bits
  split_ifs <;> first | rfl | omega

theorem passive_pol_step_eq (env : Env) (w : World) (rx pol : Nat) :
    passive_pol_step env w rx pol =
      if pol ≠ 0 then
        wr_reg32 env w (polarity_bits rx).1
          (rd_reg32 w (polarity_bits rx).1 ||| 1 <<< (polarity_bits rx).2)
      else w := by
  unfold passive_pol_step polarity_bits
  split_ifs <;> first | rfl | omega

theorem polarity_reg_eq (rx : Nat) : (polarity_bits rx).1 = (detect_enable_bits rx).1 := by
  unfold polarity_bits detect_enable_bits
  split_ifs <;> rfl

theorem polarity_bit_lt (rx : Nat) (h : rx ≤ 9) : (polarity_bits rx).2 < 32 := by
  unfold polarity_bits
  split_ifs <;> simp only <;> omega

/-- The two detect-config registers after an accepted `ConfigureActive(tx, rx)`. -/
theorem active_en_rd_det (env : Env) (w : World) (tx rx : Nat) (R : Reg)
    (hopen : ¬ Locked w) (htx : 5 ≤ tx ∧ tx ≤ 9) (hrx : rx ≤ 9) (hne : tx ≠ rx)
    (hR : R = .lp_tamper_det_cfg ∨ R = .lp_tamper_det_cfg2) :
    rd_reg32 (tamper_ioctl env w (.ACTIVE_EN (some ⟨tx, rx⟩))).world R =
      or_bit_at R (detect_enable_bits rx) (rd_reg32 w R) := by
  obtain ⟨h5, h9⟩ := htx
  have hopen' : ¬ (w.tamper_pin ≠ 0 ∧ w.tester_lock ≠ 0) := hopen
  have hv1 : ¬ (tx > 9 ∨ tx < 5) := by omega
  have hv2 : ¬ (rx > 9 ∨ rx = tx) := by omega
  have e6 : ∀ r, u32 (rd_reg32 w r ||| 1 <<< (detect_enable_bits rx).2)
      = rd_reg32 w r ||| 1 <<< (detect_enable_bits rx).2 :=
    fun r => u32_rd_or _ _ _ (one_shiftLeft_lt _ (detect_bit_lt rx hrx))
  simp only [tamper_ioctl, if_neg hopen', if_neg hv1, if_neg hv2, active_det_step_eq, or_bit_at]
  have hD := detect_reg_cases rx
  rcases hR with rfl | rfl <;>
    rw [rd_wr_ne _ _ _ _ _ (by decide), rd_wr_ne _ _ _ _ _ (by simp)] <;>
    rcases hD with hD | hD <;>
    simp only [hD, rd_wr_same, rd_wr_ne, active_route_step_rd, active_filt_step_rd, ne_eq,
      reduceCtorEq, not_false_eq_true, if_true, if_false, e6]

/-- The two detect-config registers after an accepted
`ConfigurePassive(rx, polarity)`. -/
theorem passive_en_rd_det (env : Env) (w : World) (rx pol : Nat) (R : Reg)
    (hopen : ¬ Locked w) (hrx : rx ≤ 9)
    (hR : R = .lp_tamper_det_cfg ∨ R = .lp_tamper_det_cfg2) :
    rd_reg32 (tamper_ioctl env w (.PASSIVE_EN (some ⟨rx, pol⟩))).world R =
      or_bit_at R (detect_enable_bits rx)
        (if pol ≠ 0 then or_bit_at R (polarity_bits rx) (rd_reg32 w R) else rd_reg32 w R) := by
  have hopen' : ¬ (w.tamper_pin ≠ 0 ∧ w.tester_lock ≠ 0) := hopen
  have hv : ¬ rx > 9 := by omega
  have e6 : ∀ r, u32 (rd_reg32 w r ||| 1 <<< (detect_enable_bits rx).2)
      = rd_reg32 w r ||| 1 <<< (detect_enable_bits rx).2 :=
    fun r => u32_rd_or _ _ _ (one_shiftLeft_lt _ (detect_bit_lt rx hrx))
  have e7 : ∀ r, u32 (rd_reg32 w r ||| 1 <<< (polarity_bits rx).2)
      = rd_reg32 w r ||| 1 <<< (polarity_bits rx).2 :=
    fun r => u32_rd_or _ _ _ (one_shiftLeft_lt _ (polarity_bit_lt rx hrx))
  have e8 : ∀ r, u32 (rd_reg32 w r ||| 1 <<< (polarity_bits rx).2
        ||| 1 <<< (detect_enable_bits rx).2)
      = rd_reg32 w r ||| 1 <<< (polarity_bits rx).2 ||| 1 <<< (detect_enable_bits rx).2 :=
    fun r => u32_or (Nat.or_lt_two_pow (rd_reg32_lt _ _)
      (one_shiftLeft_lt _ (polarity_bit_lt rx hrx))) (one_shiftLeft_lt _ (detect_bit_lt rx hrx))
  simp only [tamper_ioctl, if_neg hopen', if_neg hv, passive_det_step_eq, passive_pol_step_eq,
    or_bit_at, polarity_reg_eq]
  have hD := detect_reg_cases rx
  by_cases hp : pol ≠ 0
  · simp only [if_pos hp]
    rcases hR with rfl | rfl <;>
      rw [rd_wr_ne _ _ _ _ _ (by decide), rd_wr_ne _ _ _ _ _ (by simp)] <;>
      rcases hD with hD | hD <;>
      simp only [hD, rd_wr_same, rd_wr_ne, passive_filt_step_rd, ne_eq,
        reduceCtorEq, not_false_eq_true, if_true, if_false, e6, e7, e8]
  · simp only [if_neg hp]
    rcases hR with rfl | rfl <;>
      rw [rd_wr_ne _ _ _ _ _ (by decide), rd_wr_ne _ _ _ _ _ (by simp)] <;>
      rcases hD with hD | hD <;>
      simp only [hD, rd_wr_same, rd_wr_ne, passive_filt_step_rd, ne_eq,
        reduceCtorEq, not_false_eq_true, if_true, if_false, e6]

theorem testBit_or_bit_at (R : Reg) (b : Reg × Nat) (x i : Nat) :
    (or_bit_at R b x).testBit i = (x.testBit i || decide (R = b.1 ∧ i = b.2)) := by
  unfold or_bit_at
  split_ifs with h
  · rw [Nat.testBit_or, Nat.one_shiftLeft, Nat.testBit_two_pow]
    simp [h, eq_comm]
  · simp [h]

theorem reg_writes_append (r : Reg) (a b : List Event) :
    reg_writes r (a ++ b) = reg_writes r a ++ reg_writes r b := by
  induction a with
  | nil => rfl
  | cons e es ih =>
    cases e with
    | write r' v =>
      simp only [List.cons_append, reg_writes]
      split_ifs <;> simp [ih]
    | _ => simpa [reg_writes] using ih

/-- Each calibration sub-field lies inside the slice of the timing register that
the corresponding step of init clears. -/
theorem trim_fields_in_slices (t : Nat) :
    (((t >>> 10) &&& 0x3ff) <<< 12) &&& 0x3ff000 = ((t >>> 10) &&& 0x3ff) <<< 12 ∧
    ((t >>> 26) &&& 0x3f) &&& 0x3f = (t >>> 26) &&& 0x3f ∧
    (((t >>> 20) &&& 0x3f) <<< 6) &&& 0xfc0 = ((t >>> 20) &&& 0x3f) <<< 6 ∧
    ((t &&& 0x3ff) <<< 22) &&& 0xffc00000 = (t &&& 0x3ff) <<< 22 := by
  have m1 : ∀ j, (0x3ff000 : Nat).testBit j = (decide (12 ≤ j) && decide (j - 12 < 10)) :=
    fun j => testBit_mask 10 12 j
  have m2 : ∀ j, (0x3f : Nat).testBit j = decide (j < 6) :=
    fun j => Nat.testBit_two_pow_sub_one 6 j
  have m3 : ∀ j, (0xfc0 : Nat).testBit j = (decide (6 ≤ j) && decide (j - 6 < 6)) :=
    fun j => testBit_mask 6 6 j
  have m4 : ∀ j, (0xffc00000 : Nat).testBit j = (decide (22 ≤ j) && decide (j - 22 < 10)) :=
    fun j => testBit_mask 10 22 j
  have m5 : ∀ j, (0x3ff : Nat).testBit j = decide (j < 10) :=
    fun j => Nat.testBit_two_pow_sub_one 10 j
  refine ⟨?_, ?_, ?_, ?_⟩ <;>
    (apply Nat.eq_of_testBit_eq
     intro i
     simp only [Nat.testBit_and, Nat.testBit_shiftLeft, Nat.testBit_shiftRight, m1, m2, m3, m4, m5]
     generalize Nat.testBit t _ = a
     cases a <;> simp)

/-- The four sub-fields of a calibration word are below `2 ^ 32`. -/
theorem trim_fields_lt (t : Nat) :
    ((t >>> 10) &&& 0x3ff) <<< 12 < 2 ^ 32 ∧ (t >>> 26) &&& 0x3f < 2 ^ 32 ∧
    ((t >>> 20) &&& 0x3f) <<< 6 < 2 ^ 32 ∧ (t &&& 0x3ff) <<< 22 < 2 ^ 32 :=
  ⟨shiftLeft_lt _ 12 10 (Nat.and_lt_two_pow _ (by decide)) (by decide),
   Nat.lt_of_lt_of_le (Nat.and_lt_two_pow _ (show 0x3f < 2 ^ 6 by decide)) (by decide),
   shiftLeft_lt _ 6 6 (Nat.and_lt_two_pow _ (by decide)) (by decide),
   shiftLeft_lt _ 22 10 (Nat.and_lt_two_pow _ (by decide)) (by decide)⟩

theorem u32_and_or {a m f : Nat} (ha : a < 2 ^ 32) (hf : f < 2 ^ 32) :
    u32 (a &&& m ||| f) = a &&& m ||| f :=
  u32_or (Nat.lt_of_le_of_lt Nat.and_le_left ha) hf

theorem and_or_lt {a m f : Nat} (ha : a < 2 ^ 32) (hf : f < 2 ^ 32) : a &&& m ||| f < 2 ^ 32 :=
  Nat.or_lt_two_pow (Nat.lt_of_le_of_lt Nat.and_le_left ha) hf

/-- Once the look-ups succeed and the calibration word is non-zero, the writes
init makes to the timing register are the four read-modify-write results, each
computed from the previous one. -/
theorem init_dtmr_writes (env : Env) (p : Platform) (w : World) (hp : p.probed = true)
    (htrim : rd_reg32 w (.ocotp 0x490) ≠ 0) :
    ∃ evs, (snvs_tamper_init env p w).1.trace = w.trace ++ evs ∧
      reg_writes .ex_dtmr evs =
        [ rd_reg32 w .ex_dtmr &&& not32 0x3ff000
            ||| (((rd_reg32 w (.ocotp 0x490) >>> 10) &&& 0x3ff) <<< 12),
          (rd_reg32 w .ex_dtmr &&& not32 0x3ff000
            ||| (((rd_reg32 w (.ocotp 0x490) >>> 10) &&& 0x3ff) <<< 12))
            &&& not32 0x3f ||| ((rd_reg32 w (.ocotp 0x490) >>> 26) &&& 0x3f),
          ((rd_reg32 w .ex_dtmr &&& not32 0x3ff000
            ||| (((rd_reg32 w (.ocotp 0x490) >>> 10) &&& 0x3ff) <<< 12))
            &&& not32 0x3f ||| ((rd_reg32 w (.ocotp 0x490) >>> 26) &&& 0x3f))
            &&& not32 0xfc0 ||| (((rd_reg32 w (.ocotp 0x490) >>> 20) &&& 0x3f) <<< 6),
          (((rd_reg32 w .ex_dtmr &&& not32 0x3ff000
            ||| (((rd_reg32 w (.ocotp 0x490) >>> 10) &&& 0x3ff) <<< 12))
            &&& not32 0x3f ||| ((rd_reg32 w (.ocotp 0x490) >>> 26) &&& 0x3f))
            &&& not32 0xfc0 ||| (((rd_reg32 w (.ocotp 0x490) >>> 20) &&& 0x3f) <<< 6))
            &&& not32 0xffc00000 ||| ((rd_reg32 w (.ocotp 0x490) &&& 0x3ff) <<< 22) ] := by
  obtain ⟨l1, l2, l3, l4⟩ := trim_fields_lt (rd_reg32 w (.ocotp 0x490))
  have b0 := rd_reg32_lt w .ex_dtmr
  have b1 := and_or_lt (m := not32 0x3ff000) b0 l1
  have b2 := and_or_lt (m := not32 0x3f) b1 l2
  have b3 := and_or_lt (m := not32 0xfc0) b2 l3
  have e1 := u32_and_or (m := not32 0x3ff000) b0 l1
  have e2 := u32_and_or (m := not32 0x3f) b1 l2
  have e3 := u32_and_or (m := not32 0xfc0) b2 l3
  have e4 := u32_and_or (m := not32 0xffc00000) b3 l4
  simp only [Platform.probed, Bool.and_eq_true] at hp
  obtain ⟨⟨⟨⟨⟨⟨h1, h2⟩, h3⟩, h4⟩, h5⟩, h6⟩, h7⟩ := hp
  simp only [snvs_tamper_init, h1, h2, h3, h4, h5, h6, h7, Bool.not_true, Bool.false_eq_true,
    if_false, if_neg htrim]
  split_ifs <;> (try split) <;>
    simp only [printk_trace, kcall_trace, iounmap_trace, wr_reg32_trace, rd_printk, rd_kcall,
      rd_iounmap, rd_with_globals, rd_wr_ne, rd_wr_same, ne_eq, reduceCtorEq, not_false_eq_true,
      List.append_assoc, List.append_cancel_left_eq, exists_eq_left', reg_writes_append,
      reg_writes, if_true, if_false, List.nil_append, List.append_nil, List.cons_append,
      List.singleton_append, e1, e2, e3, e4]

/-- A read-modify-write step whose field lies inside its slice leaves every bit
outside the slice as it was. -/
theorem dtmr_step_frame (x m f i : Nat) (hx : x < 2 ^ 32) (hf : f &&& m = f)
    (hm : m.testBit i = false) : (dtmr_step x m f).testBit i = x.testBit i := by
  have hfi : f.testBit i = false := by
    rw [← hf, Nat.testBit_and, hm, Bool.and_false]
  unfold dtmr_step
  rw [Nat.testBit_or, Nat.testBit_and, testBit_not32, hm, hfi]
  by_cases h32 : i < 32
  · simp [h32]
  · have : x.testBit i = false :=
      Nat.testBit_lt_two_pow (Nat.lt_of_lt_of_le hx
        (Nat.pow_le_pow_right (show 0 < 2 by decide) (by omega)))
    simp [this]

theorem dtmr_step_lt (x m f : Nat) (hx : x < 2 ^ 32) (hf : f < 2 ^ 32) :
    dtmr_step x m f < 2 ^ 32 := and_or_lt hx hf

/-- Registers outside the filter, routing and detect-config groups after an
accepted `ConfigureActive(tx, rx)`. -/
theorem active_en_rd_other (env : Env) (w : World) (tx rx : Nat) (r : Reg)
    (hopen : ¬ Locked w) (htx : 5 ≤ tx ∧ tx ≤ 9) (hrx : rx ≤ 9) (hne : tx ≠ rx)
    (hf0 : r ≠ .lp_tamper_filt_cfg) (hf1 : r ≠ .lp_tamper_filt_cfg1)
    (hf2 : r ≠ .lp_tamper_filt_cfg2) (hr1 : r ≠ .lp_active_rt_ctl1)
    (hr2 : r ≠ .lp_active_rt_ctl2) (hd1 : r ≠ .lp_tamper_det_cfg)
    (hd2 : r ≠ .lp_tamper_det_cfg2) :
    rd_reg32 (tamper_ioctl env w (.ACTIVE_EN (some ⟨tx, rx⟩))).world r =
      if r = .hp_secvio_intcfg then rd_reg32 w r ||| 0x80000000
      else if r = .ex_tpctrl rx then active_tpctrl_val tx
      else if r = .lp_active_ctl then rd_reg32 w r ||| 1 <<< (tx - 5 + 16) ||| 1 <<< (tx - 5)
      else if r = .lp_active_clk_ctl then rd_reg32 w r &&& not32 (3 <<< ((tx - 5) * 4))
      else if r = .lp_active_cfg (tx - 5) then u32 env.AT5_POLYSEED
      else rd_reg32 w r := by
  obtain ⟨h5, h9⟩ := htx
  have hopen' : ¬ (w.tamper_pin ≠ 0 ∧ w.tester_lock ≠ 0) := hopen
  have hv1 : ¬ (tx > 9 ∨ tx < 5) := by omega
  have hv2 : ¬ (rx > 9 ∨ rx = tx) := by omega
  have hidx : 0 + tx - 5 = tx - 5 := by omega
  have e1 : ∀ r, u32 (rd_reg32 w r ||| 1 <<< (tx - 5 + 16))
      = rd_reg32 w r ||| 1 <<< (tx - 5 + 16) :=
    fun r => u32_rd_or _ _ _ (one_shiftLeft_lt _ (by omega))
  have e2 : ∀ r m, u32 (rd_reg32 w r &&& m) = rd_reg32 w r &&& m :=
    fun r m => u32_and_left _ _ (rd_reg32_lt _ _)
  have e3 : ∀ r, u32 (rd_reg32 w r ||| 1 <<< (tx - 5 + 16) ||| 1 <<< (tx - 5))
      = rd_reg32 w r ||| 1 <<< (tx - 5 + 16) ||| 1 <<< (tx - 5) :=
    fun r => u32_or (Nat.or_lt_two_pow (rd_reg32_lt _ _) (one_shiftLeft_lt _ (by omega)))
      (one_shiftLeft_lt _ (by omega))
  have e7 : u32 (active_tpctrl_val tx) = active_tpctrl_val tx := by
    interval_cases tx <;> decide
  have e8 : ∀ r, u32 (rd_reg32 w r ||| 0x80000000) = rd_reg32 w r ||| 0x80000000 :=
    fun r => u32_rd_or _ _ _ (by decide)
  simp only [tamper_ioctl, if_neg hopen', if_neg hv1, if_neg hv2, hidx]
  split_ifs with h1 h2 h3 h4 h5
  · subst h1
    simp only [rd_wr_same, rd_wr_ne, active_det_step_rd, active_route_step_rd,
      active_filt_step_rd, ne_eq, reduceCtorEq, not_false_eq_true, e8]
  · subst h2
    simp only [rd_wr_same, rd_wr_ne, ne_eq, reduceCtorEq, not_false_eq_true, e7]
  · subst h3
    simp only [rd_wr_same, rd_wr_ne, active_det_step_rd, active_route_step_rd,
      active_filt_step_rd, ne_eq, reduceCtorEq, not_false_eq_true, e1, e3]
  · subst h4
    simp only [rd_wr_same, rd_wr_ne, active_det_step_rd, active_route_step_rd,
      active_filt_step_rd, ne_eq, reduceCtorEq, not_false_eq_true, e2]
  · subst h5
    simp only [rd_wr_same, rd_wr_ne, active_det_step_rd, active_route_step_rd,
      active_filt_step_rd, ne_eq, reduceCtorEq, not_false_eq_true]
  · rw [rd_wr_ne _ _ _ _ _ h1, rd_wr_ne _ _ _ _ _ h2, active_det_step_rd _ _ _ _ hd1 hd2,
      active_route_step_rd _ _ _ _ _ hr1 hr2, active_filt_step_rd _ _ _ _ hf0 hf1 hf2,
      rd_wr_ne _ _ _ _ _ h3, rd_wr_ne _ _ _ _ _ h4, rd_wr_ne _ _ _ _ _ h3,
      rd_wr_ne _ _ _ _ _ h5]

/-- Every register after an accepted `ConfigureActive(tx, rx)`, in closed form. -/
theorem active_en_rd (env : Env) (w : World) (tx rx : Nat) (r : Reg)
    (hopen : ¬ Locked w) (htx : 5 ≤ tx ∧ tx ≤ 9) (hrx : rx ≤ 9) (hne : tx ≠ rx) :
    rd_reg32 (tamper_ioctl env w (.ACTIVE_EN (some ⟨tx, rx⟩))).world r =
      active_eff env.AT5_POLYSEED tx rx r (rd_reg32 w r) := by
  cases r with
  | lp_tamper_filt_cfg => exact active_en_rd_filter env w tx rx _ hopen htx hrx hne (Or.inl rfl)
  | lp_tamper_filt_cfg1 =>
    exact active_en_rd_filter env w tx rx _ hopen htx hrx hne (Or.inr (Or.inl rfl))
  | lp_tamper_filt_cfg2 =>
    exact active_en_rd_filter env w tx rx _ hopen htx hrx hne (Or.inr (Or.inr rfl))
  | lp_active_rt_ctl1 => exact active_en_rd_route env w tx rx _ hopen htx hrx hne (Or.inl rfl)
  | lp_active_rt_ctl2 => exact active_en_rd_route env w tx rx _ hopen htx hrx hne (Or.inr rfl)
  | lp_tamper_det_cfg => exact active_en_rd_det env w tx rx _ hopen htx hrx hne (Or.inl rfl)
  | lp_tamper_det_cfg2 => exact active_en_rd_det env w tx rx _ hopen htx hrx hne (Or.inr rfl)
  | _ =>
    rw [active_en_rd_other env w tx rx _ hopen htx hrx hne (by simp) (by simp) (by simp)
      (by simp) (by simp) (by simp) (by simp)]
    simp [active_eff]

theorem passive_word_u32 (pol : Nat) :
    u32 (if pol ≠ 0 then passive_tpctrl_val_pol else passive_tpctrl_val_nopol)
      = if pol ≠ 0 then passive_tpctrl_val_pol else passive_tpctrl_val_nopol := by
  split_ifs <;> decide

/-- Registers outside the filter and detect-config groups after an accepted
`ConfigurePassive(rx, polarity)`. -/
theorem passive_en_rd_other (env : Env) (w : World) (rx pol : Nat) (r : Reg)
    (hopen : ¬ Locked w) (hrx : rx ≤ 9)
    (hf0 : r ≠ .lp_tamper_filt_cfg) (hf1 : r ≠ .lp_tamper_filt_cfg1)
    (hf2 : r ≠ .lp_tamper_filt_cfg2) (hd1 : r ≠ .lp_tamper_det_cfg)
    (hd2 : r ≠ .lp_tamper_det_cfg2) :
    rd_reg32 (tamper_ioctl env w (.PASSIVE_EN (some ⟨rx, pol⟩))).world r =
      if r = .hp_secvio_intcfg then rd_reg32 w r ||| 0x80000000
      else if r = .ex_tpctrl rx then
        (if pol ≠ 0 then passive_tpctrl_val_pol else passive_tpctrl_val_nopol)
      else rd_reg32 w r := by
  have hopen' : ¬ (w.tamper_pin ≠ 0 ∧ w.tester_lock ≠ 0) := hopen
  have hv : ¬ rx > 9 := by omega
  have e8 : ∀ r, u32 (rd_reg32 w r ||| 0x80000000) = rd_reg32 w r ||| 0x80000000 :=
    fun r => u32_rd_or _ _ _ (by decide)
  have hW := passive_word_u32 pol
  simp only [tamper_ioctl, if_neg hopen', if_neg hv]
  generalize (if pol ≠ 0 then passive_tpctrl_val_pol else passive_tpctrl_val_nopol) = W at hW ⊢
  split_ifs with h1 h2
  · subst h1
    simp only [rd_wr_same, rd_wr_ne, passive_det_step_rd, passive_pol_step_rd,
      passive_filt_step_rd, ne_eq, reduceCtorEq, not_false_eq_true, e8]
  · subst h2
    simp only [rd_wr_same, rd_wr_ne, ne_eq, reduceCtorEq, not_false_eq_true, hW]
  · rw [rd_wr_ne _ _ _ _ _ h1, rd_wr_ne _ _ _ _ _ h2, passive_det_step_rd _ _ _ _ hd1 hd2,
      passive_pol_step_rd _ _ _ _ _ hd1 hd2, passive_filt_step_rd _ _ _ _ hf0 hf1 hf2]

/-- Every register after an accepted `ConfigurePassive(rx, polarity)`, in closed
form. -/
theorem passive_en_rd (env : Env) (w : World) (rx pol : Nat) (r : Reg)
    (hopen : ¬ Locked w) (hrx : rx ≤ 9) :
    rd_reg32 (tamper_ioctl env w (.PASSIVE_EN (some ⟨rx, pol⟩))).world r =
      passive_eff rx pol r (rd_reg32 w r) := by
  cases r with
  | lp_tamper_filt_cfg => exact passive_en_rd_filter env w rx pol _ hopen hrx (Or.inl rfl)
  | lp_tamper_filt_cfg1 =>
    exact passive_en_rd_filter env w rx pol _ hopen hrx (Or.inr (Or.inl rfl))
  | lp_tamper_filt_cfg2 =>
    exact passive_en_rd_filter env w rx pol _ hopen hrx (Or.inr (Or.inr rfl))
  | lp_tamper_det_cfg => exact passive_en_rd_det env w rx pol _ hopen hrx (Or.inl rfl)
  | lp_tamper_det_cfg2 => exact passive_en_rd_det env w rx pol _ hopen hrx (Or.inr rfl)
  | _ =>
    rw [passive_en_rd_other env w rx pol _ hopen hrx (by simp) (by simp) (by simp)
      (by simp) (by simp)]
    simp [passive_eff]

/-- No command changes the two fuse globals, so the policy never changes. -/
theorem tamper_ioctl_locked_iff (env : Env) (w : World) (c : Cmd) :
    Locked (tamper_ioctl env w c).world ↔ Locked w := by
  have hf : ∀ v rx, (active_filt_step env v rx).tamper_pin = v.tamper_pin ∧
      (active_filt_step env v rx).tester_lock = v.tester_lock := by
    intro v rx; unfold active_filt_step; split_ifs <;> exact ⟨rfl, rfl⟩
  have hr : ∀ v tx rx, (active_route_step env v tx rx).tamper_pin = v.tamper_pin ∧
      (active_route_step env v tx rx).tester_lock = v.tester_lock := by
    intro v tx rx; unfold active_route_step; split_ifs <;> exact ⟨rfl, rfl⟩
  have hd : ∀ v rx, (active_det_step env v rx).tamper_pin = v.tamper_pin ∧
      (active_det_step env v rx).tester_lock = v.tester_lock := by
    intro v rx; unfold active_det_step; split_ifs <;> exact ⟨rfl, rfl⟩
  have hpf : ∀ v rx, (passive_filt_step env v rx).tamper_pin = v.tamper_pin ∧
      (passive_filt_step env v rx).tester_lock = v.tester_lock := by
    intro v rx; unfold passive_filt_step; split_ifs <;> exact ⟨rfl, rfl⟩
  have hpp : ∀ v rx pol, (passive_pol_step env v rx pol).tamper_pin = v.tamper_pin ∧
      (passive_pol_step env v rx pol).tester_lock = v.tester_lock := by
    intro v rx pol; unfold passive_pol_step; split_ifs <;> exact ⟨rfl, rfl⟩
  have hpd : ∀ v rx, (passive_det_step env v rx).tamper_pin = v.tamper_pin ∧
      (passive_det_step env v rx).tester_lock = v.tester_lock := by
    intro v rx; unfold passive_det_step; split_ifs <;> exact ⟨rfl, rfl⟩
  have hg : (tamper_ioctl env w c).world.tamper_pin = w.tamper_pin ∧
      (tamper_ioctl env w c).world.tester_lock = w.tester_lock := by
    cases c with
    | CLOCK_EN a => cases a with
      | none => exact ⟨rfl, rfl⟩
      | some b => cases b <;> exact ⟨rfl, rfl⟩
    | TEMP_EN a => cases a with
      | none => exact ⟨rfl, rfl⟩
      | some b => cases b <;> exact ⟨rfl, rfl⟩
    | VOLT_EN a => cases a with
      | none => exact ⟨rfl, rfl⟩
      | some b => cases b <;> exact ⟨rfl, rfl⟩
    | ACTIVE_EN a => cases a with
      | none => exact ⟨rfl, rfl⟩
      | some b =>
        simp only [tamper_ioctl]
        split_ifs <;>
          simp only [wr_reg32_tamper_pin, wr_reg32_tester_lock, printk_tamper_pin,
            printk_tester_lock, hf, hr, hd, and_self]
    | PASSIVE_EN a => cases a with
      | none => exact ⟨rfl, rfl⟩
      | some b =>
        simp only [tamper_ioctl]
        split_ifs <;>
          simp only [wr_reg32_tamper_pin, wr_reg32_tester_lock, printk_tamper_pin,
            printk_tester_lock, hpf, hpp, hpd, and_self]
    | GET_STATUS b => cases b <;> exact ⟨rfl, rfl⟩
    | CLEAR_STATUS a => cases a <;> exact ⟨rfl, rfl⟩
    | unknown n => exact ⟨rfl, rfl⟩
  unfold Locked
  rw [hg.1, hg.2]

/-- Trace appended by an accepted `ConfigurePassive(rx, polarity)`. -/
theorem passive_en_trace (env : Env) (w : World) (rx pol : Nat) (hopen : ¬ Locked w)
    (hrx : rx ≤ 9) :
    (tamper_ioctl env w (.PASSIVE_EN (some ⟨rx, pol⟩))).world.trace = w.trace ++
      (Event.write (filter_enable_bits rx).1
          (rd_reg32 w (filter_enable_bits rx).1 ||| 1 <<< (filter_enable_bits rx).2) ::
        ((if pol ≠ 0 then
            [Event.write (polarity_bits rx).1
              (rd_reg32 w (polarity_bits rx).1 ||| 1 <<< (polarity_bits rx).2)]
          else []) ++
        [ Event.write (detect_enable_bits rx).1
            ((if pol ≠ 0 then
                rd_reg32 w (detect_enable_bits rx).1 ||| 1 <<< (polarity_bits rx).2
              else rd_reg32 w (detect_enable_bits rx).1) ||| 1 <<< (detect_enable_bits rx).2),
          Event.write (.ex_tpctrl rx) (if pol ≠ 0 then 0x0810E8DC else 0x0811E8DC),
          Event.write .hp_secvio_intcfg (rd_reg32 w .hp_secvio_intcfg ||| 0x80000000) ])) := by
  have hopen' : ¬ (w.tamper_pin ≠ 0 ∧ w.tester_lock ≠ 0) := hopen
  have hv : ¬ rx > 9 := by omega
  have e4 : ∀ r, u32 (rd_reg32 w r ||| 1 <<< (filter_enable_bits rx).2)
      = rd_reg32 w r ||| 1 <<< (filter_enable_bits rx).2 :=
    fun r => u32_rd_or _ _ _ (one_shiftLeft_lt _ (filter_bit_lt rx hrx))
  have e6 : ∀ r, u32 (rd_reg32 w r ||| 1 <<< (detect_enable_bits rx).2)
      = rd_reg32 w r ||| 1 <<< (detect_enable_bits rx).2 :=
    fun r => u32_rd_or _ _ _ (one_shiftLeft_lt _ (detect_bit_lt rx hrx))
  have e7 : ∀ r, u32 (rd_reg32 w r ||| 1 <<< (polarity_bits rx).2)
      = rd_reg32 w r ||| 1 <<< (polarity_bits rx).2 :=
    fun r => u32_rd_or _ _ _ (one_shiftLeft_lt _ (polarity_bit_lt rx hrx))
  have e8 : ∀ r, u32 (rd_reg32 w r ||| 1 <<< (polarity_bits rx).2
        ||| 1 <<< (detect_enable_bits rx).2)
      = rd_reg32 w r ||| 1 <<< (polarity_bits rx).2 ||| 1 <<< (detect_enable_bits rx).2 :=
    fun r => u32_or (Nat.or_lt_two_pow (rd_reg32_lt _ _)
      (one_shiftLeft_lt _ (polarity_bit_lt rx hrx))) (one_shiftLeft_lt _ (detect_bit_lt rx hrx))
  have e9 : ∀ r, u32 (rd_reg32 w r ||| 0x80000000) = rd_reg32 w r ||| 0x80000000 :=
    fun r => u32_rd_or _ _ _ (by decide)
  have ep : u32 passive_tpctrl_val_pol = 0x0810E8DC := by decide
  have en : u32 passive_tpctrl_val_nopol = 0x0811E8DC := by decide
  simp only [tamper_ioctl, if_neg hopen', if_neg hv, passive_filt_step_eq _ _ _ hrx,
    passive_det_step_eq, passive_pol_step_eq, polarity_reg_eq]
  by_cases hp : pol ≠ 0
  · simp only [if_pos hp]
    rcases filter_reg_cases rx with hF | hF | hF <;>
      rcases detect_reg_cases rx with hD | hD <;>
      simp only [hF, hD, wr_reg32_trace, rd_wr_ne, rd_wr_same, ne_eq, reduceCtorEq,
        not_false_eq_true, e4, e6, e7, e8, e9, ep, List.append_assoc, List.singleton_append,
        List.cons_append, List.nil_append]
  · simp only [if_neg hp]
    rcases filter_reg_cases rx with hF | hF | hF <;>
      rcases detect_reg_cases rx with hD | hD <;>
      simp only [hF, hD, wr_reg32_trace, rd_wr_ne, rd_wr_same, ne_eq, reduceCtorEq,
        not_false_eq_true, e4, e6, e9, en, List.append_assoc, List.singleton_append,
        List.cons_append, List.nil_append]

/-- A write to `lp.status` on write-1-to-clear hardware, read back. -/
theorem rd_wr_status_w1c (seed : Nat) (w : World) (v : Nat) :
    rd_reg32 (wr_reg32 ⟨.w1c_status, seed⟩ w .lp_status v) .lp_status
      = rd_reg32 w .lp_status &&& not32 v := by
  simp only [rd_reg32, wr_reg32_regs, if_true, HwModel.store]
  apply Nat.eq_of_testBit_eq
  intro i
  simp only [testBit_u32, Nat.testBit_and, testBit_not32]
  by_cases h : i < 32 <;> simp [h]

/-- Writing back to a write-1-to-clear register the word just read, with further
bits ORed in, clears the register. -/
theorem w1c_write_back_clears (x s : Nat) : x &&& not32 (x ||| s) = 0 := by
  apply Nat.eq_of_testBit_eq
  intro i
  simp only [Nat.testBit_and, testBit_not32, Nat.testBit_or, Nat.zero_testBit]
  cases x.testBit i <;> simp

/-- The register `lp.status` after `set_class_enable(c, true)` on
write-1-to-clear hardware. -/
theorem class_enable_rd_status_w1c (seed : Nat) (w : World) (c : TamperClass) :
    rd_reg32 (tamper_ioctl ⟨.w1c_status, seed⟩ w (c.cmd true)).world .lp_status = 0 := by
  cases c <;>
    simp only [TamperClass.cmd, tamper_ioctl, clock_en, temp_en, volt_en, if_true, rd_wr_ne,
      rd_udelay, ne_eq, reduceCtorEq, not_false_eq_true, rd_wr_status_w1c,
      w1c_write_back_clears]

theorem testBit_lt_of_lt {x i : Nat} (hx : x < 2 ^ 32) (h : x.testBit i = true) : i < 32 := by
  by_contra hn
  have : x.testBit i = false :=
    Nat.testBit_lt_two_pow (Nat.lt_of_lt_of_le hx
      (Nat.pow_le_pow_right (show 0 < 2 by decide) (by omega)))
  rw [this] at h
  exact Bool.false_ne_true h

/-- Registers other than `lp.status` after `set_class_enable(c, true)`, under
either hardware model. -/
theorem class_enable_rd (env : Env) (w : World) (c : TamperClass) (r : Reg)
    (hr : r ≠ .lp_status) :
    rd_reg32 (tamper_ioctl env w (c.cmd true)).world r =
      if r = .ex_dmcr then rd_reg32 w r ||| c.dbit
      else if r = .lp_tamper_det_cfg then rd_reg32 w r ||| c.sbit
      else if r = .hp_secvio_intcfg then rd_reg32 w r ||| 0x80000000
      else rd_reg32 w r := by
  have e1 : ∀ r, u32 (rd_reg32 w r ||| 0x1) = rd_reg32 w r ||| 0x1 :=
    fun r => u32_rd_or w r _ (by decide)
  have e2 : ∀ r, u32 (rd_reg32 w r ||| 0x2) = rd_reg32 w r ||| 0x2 :=
    fun r => u32_rd_or w r _ (by decide)
  have e4 : ∀ r, u32 (rd_reg32 w r ||| 0x4) = rd_reg32 w r ||| 0x4 :=
    fun r => u32_rd_or w r _ (by decide)
  have e10 : ∀ r, u32 (rd_reg32 w r ||| 0x10) = rd_reg32 w r ||| 0x10 :=
    fun r => u32_rd_or w r _ (by decide)
  have e20 : ∀ r, u32 (rd_reg32 w r ||| 0x20) = rd_reg32 w r ||| 0x20 :=
    fun r => u32_rd_or w r _ (by decide)
  have e40 : ∀ r, u32 (rd_reg32 w r ||| 0x40) = rd_reg32 w r ||| 0x40 :=
    fun r => u32_rd_or w r _ (by decide)
  have e31 : ∀ r, u32 (rd_reg32 w r ||| 0x80000000) = rd_reg32 w r ||| 0x80000000 :=
    fun r => u32_rd_or w r _ (by decide)
  split_ifs with h2 h3 h4
  · subst h2
    cases c <;>
      simp only [TamperClass.cmd, TamperClass.dbit, tamper_ioctl, clock_en, temp_en, volt_en,
        if_true, rd_wr_ne, rd_wr_same, rd_udelay, ne_eq, reduceCtorEq, not_false_eq_true,
        e1, e2, e4]
  · subst h3
    cases c <;>
      simp only [TamperClass.cmd, TamperClass.sbit, tamper_ioctl, clock_en, temp_en, volt_en,
        if_true, rd_wr_ne, rd_wr_same, rd_udelay, ne_eq, reduceCtorEq, not_false_eq_true,
        e10, e20, e40]
  · subst h4
    cases c <;>
      simp only [TamperClass.cmd, tamper_ioctl, clock_en, temp_en, volt_en,
        if_true, rd_wr_ne, rd_wr_same, rd_udelay, ne_eq, reduceCtorEq, not_false_eq_true,
        e31]
  · cases c <;>
      simp only [TamperClass.cmd, tamper_ioctl, clock_en, temp_en, volt_en,
        if_true, rd_wr_ne _ _ _ _ _ hr, rd_wr_ne _ _ _ _ _ h2, rd_wr_ne _ _ _ _ _ h3,
        rd_wr_ne _ _ _ _ _ h4, rd_udelay]

/-- Every register after `set_class_enable(c, false)`, under either hardware
model. -/
theorem class_disable_rd (env : Env) (w : World) (c : TamperClass) (r : Reg) :
    rd_reg32 (tamper_ioctl env w (c.cmd false)).world r =
      if r = .ex_dmcr then rd_reg32 w r &&& not32 c.dbit
      else if r = .lp_tamper_det_cfg then rd_reg32 w r &&& not32 c.sbit
      else rd_reg32 w r := by
  have e : ∀ r m, u32 (rd_reg32 w r &&& m) = rd_reg32 w r &&& m :=
    fun r m => u32_and_left _ _ (rd_reg32_lt _ _)
  split_ifs with h2 h3
  · subst h2
    cases c <;>
      simp only [TamperClass.cmd, TamperClass.dbit, tamper_ioctl, clock_en, temp_en, volt_en,
        Bool.false_eq_true, if_false, rd_wr_ne, rd_wr_same, rd_udelay, ne_eq, reduceCtorEq,
        not_false_eq_true, e]
  · subst h3
    cases c <;>
      simp only [TamperClass.cmd, TamperClass.sbit, tamper_ioctl, clock_en, temp_en, volt_en,
        Bool.false_eq_true, if_false, rd_wr_ne, rd_wr_same, rd_udelay, ne_eq, reduceCtorEq,
        not_false_eq_true, e]
  · cases c <;>
      simp only [TamperClass.cmd, tamper_ioctl, clock_en, temp_en, volt_en,
        Bool.false_eq_true, if_false, rd_wr_ne _ _ _ _ _ h2, rd_wr_ne _ _ _ _ _ h3, rd_udelay]

/-- Setting bits that were clear and then clearing them restores the word. -/
theorem or_and_not_cancel (x s : Nat) (hx : x < 2 ^ 32) (h : x &&& s = 0) :
    (x ||| s) &&& not32 s = x := by
  apply Nat.eq_of_testBit_eq
  intro i
  have hi := congrArg (fun z => Nat.testBit z i) h
  simp only [Nat.testBit_and, Nat.zero_testBit] at hi
  simp only [Nat.testBit_and, Nat.testBit_or, testBit_not32]
  cases hs : s.testBit i
  · cases hxi : x.testBit i
    · simp
    · simp [testBit_lt_of_lt hx hxi]
  · rw [hs, Bool.and_true] at hi
    simp [hi]

/-- The class bit is the single bit 4, 5 or 6. -/
theorem testBit_sbit (c : TamperClass) (i : Nat) (h : c.sbit.testBit i = true) :
    c.sbit = 1 <<< i ∧ (i = 4 ∨ i = 5 ∨ i = 6) := by
  have h4 : (0x10 : Nat).testBit i = decide (4 = i) := @Nat.testBit_two_pow 4 i
  have h5 : (0x20 : Nat).testBit i = decide (5 = i) := @Nat.testBit_two_pow 5 i
  have h6 : (0x40 : Nat).testBit i = decide (6 = i) := @Nat.testBit_two_pow 6 i
  cases c
  · simp only [TamperClass.sbit, h4, decide_eq_true_eq] at h
    subst h
    exact ⟨by decide, Or.inl rfl⟩
  · simp only [TamperClass.sbit, h5, decide_eq_true_eq] at h
    subst h
    exact ⟨by decide, Or.inr (Or.inl rfl)⟩
  · simp only [TamperClass.sbit, h6, decide_eq_true_eq] at h
    subst h
    exact ⟨by decide, Or.inr (Or.inr rfl)⟩

/-- The detect-bit range of the two configuration commands in
`lp.tamper_det_cfg`: the detect and polarity bits that live there are 9..12. -/
theorem det_cfg_bit_range (rx i : Nat)
    (h : (Reg.lp_tamper_det_cfg = (detect_enable_bits rx).1 ∧ i = (detect_enable_bits rx).2) ∨
      (Reg.lp_tamper_det_cfg = (polarity_bits rx).1 ∧ i = (polarity_bits rx).2)) :
    9 ≤ i ∧ i ≤ 12 := by
  unfold detect_enable_bits polarity_bits at h
  split_ifs at h <;> simp at h <;> omega

/-- ORing a bit in keeps every bit that was set. -/
theorem or_bit_at_mono (R : Reg) (b : Reg × Nat) (x i : Nat) (h : x.testBit i = true) :
    (or_bit_at R b x).testBit i = true := by
  rw [testBit_or_bit_at, h]; rfl

/-- Every register after an accepted channel-configuration command. -/
theorem chan_rd (env : Env) (w : World) (c : ChanCfg) (r : Reg)
    (hopen : ¬ Locked w) (hv : c.valid) :
    rd_reg32 (tamper_ioctl env w c.cmd).world r = c.eff env.AT5_POLYSEED r (rd_reg32 w r) := by
  cases c with
  | active tx rx => exact active_en_rd env w tx rx r hopen hv.1 hv.2.1 hv.2.2
  | passive rx pol => exact passive_en_rd env w rx pol r hopen hv

/-- An Open policy and valid parameters make the dispatcher return 0. -/
theorem chan_ret (env : Env) (w : World) (c : ChanCfg) (hopen : ¬ Locked w) (hv : c.valid) :
    (tamper_ioctl env w c.cmd).ret = 0 := by
  have hopen' : ¬ (w.tamper_pin ≠ 0 ∧ w.tester_lock ≠ 0) := hopen
  cases c with
  | active tx rx =>
    obtain ⟨⟨h5, h9⟩, hrx, hne⟩ := hv
    have h1 : ¬ (tx > 9 ∨ tx < 5) := by omega
    have h2 : ¬ (rx > 9 ∨ rx = tx) := by omega
    simp only [ChanCfg.cmd, tamper_ioctl, if_neg hopen', if_neg h1, if_neg h2]
  | passive rx pol =>
    have h1 : ¬ rx > 9 := by
      have : rx ≤ 9 := hv
      omega
    simp only [ChanCfg.cmd, tamper_ioctl, if_neg hopen', if_neg h1]

/-- The trigger word of `rx` after an accepted channel-configuration command. -/
theorem chan_rd_tpctrl (env : Env) (w : World) (c : ChanCfg)
    (hopen : ¬ Locked w) (hv : c.valid) :
    rd_reg32 (tamper_ioctl env w c.cmd).world (.ex_tpctrl c.rx) = c.word := by
  rw [chan_rd env w c _ hopen hv]
  cases c <;> simp [ChanCfg.eff, ChanCfg.rx, ChanCfg.word, active_eff, passive_eff]

theorem or_bit_at_comm (R : Reg) (a b : Reg × Nat) (x : Nat) :
    or_bit_at R a (or_bit_at R b x) = or_bit_at R b (or_bit_at R a x) := by
  apply Nat.eq_of_testBit_eq
  intro i
  simp only [testBit_or_bit_at]
  cases x.testBit i <;> cases decide (R = a.1 ∧ i = a.2) <;>
    cases decide (R = b.1 ∧ i = b.2) <;> rfl

theorem or_bit_at_idem (R : Reg) (a : Reg × Nat) (x : Nat) :
    or_bit_at R a (or_bit_at R a x) = or_bit_at R a x := by
  apply Nat.eq_of_testBit_eq
  intro i
  simp only [testBit_or_bit_at]
  cases x.testBit i <;> cases decide (R = a.1 ∧ i = a.2) <;> rfl

theorem testBit_route_upd (s t x i : Nat) :
    (route_upd s t x).testBit i =
      (decide (i < 32) &&
        ((x.testBit i && !(decide (s ≤ i) && decide (i - s < 4))) ||
          (decide (s ≤ i) && t.testBit (i - s)))) := by
  have hm : ((0xf : Nat) <<< s).testBit i = (decide (s ≤ i) && decide (i - s < 4)) :=
    testBit_mask 4 s i
  unfold route_upd
  rw [testBit_u32, Nat.testBit_or, Nat.testBit_and, testBit_not32, hm, Nat.testBit_shiftLeft]
  cases decide (i < 32) <;> cases x.testBit i <;> cases (decide (s ≤ i)) <;>
    cases decide (i - s < 4) <;> cases t.testBit (i - s) <;> simp

theorem route_upd_idem (s t x : Nat) : route_upd s t (route_upd s t x) = route_upd s t x := by
  apply Nat.eq_of_testBit_eq
  intro i
  simp only [testBit_route_upd]
  cases decide (i < 32) <;> cases x.testBit i <;> cases (decide (s ≤ i)) <;>
    cases decide (i - s < 4) <;> cases t.testBit (i - s) <;> rfl

theorem testBit_lt_16 {t k : Nat} (ht : t < 16) (h : t.testBit k = true) : k < 4 := by
  by_contra hn
  have : t.testBit k = false :=
    Nat.testBit_lt_two_pow (Nat.lt_of_lt_of_le (show t < 2 ^ 4 from ht)
      (Nat.pow_le_pow_right (show 0 < 2 by decide) (by omega)))
  rw [this] at h
  exact Bool.false_ne_true h

/-- Updates of two different 4-bit routing fields commute. -/
theorem route_upd_comm (s1 s2 t1 t2 x : Nat) (h1 : s1 % 4 = 0) (h2 : s2 % 4 = 0)
    (hne : s1 ≠ s2) (ht1 : t1 < 16) (ht2 : t2 < 16) :
    route_upd s1 t1 (route_upd s2 t2 x) = route_upd s2 t2 (route_upd s1 t1 x) := by
  apply Nat.eq_of_testBit_eq
  intro i
  simp only [testBit_route_upd]
  have k1 : t1.testBit (i - s1) = true → i - s1 < 4 := testBit_lt_16 ht1
  have k2 : t2.testBit (i - s2) = true → i - s2 < 4 := testBit_lt_16 ht2
  by_cases a1 : s1 ≤ i <;> by_cases b1 : i - s1 < 4 <;> by_cases a2 : s2 ≤ i <;>
    by_cases b2 : i - s2 < 4 <;>
    cases c1 : t1.testBit (i - s1) <;> cases c2 : t2.testBit (i - s2) <;>
    first
      | omega
      | (exfalso; have := k1 c1; omega)
      | (exfalso; have := k2 c2; omega)
      | (simp only [a1, b1, a2, b2, decide_True, decide_False]; done)
      | (simp only [a1, b1, a2, b2, decide_True, decide_False]
         cases decide (i < 32) <;> cases x.testBit i <;> rfl)

theorem route_shift_mod (rx : Nat) : (route_bits rx).2 % 4 = 0 := by
  unfold route_bits
  split_ifs <;> simp

theorem route_bits_inj (rx1 rx2 : Nat) (hne : rx1 ≠ rx2)
    (h : (route_bits rx1).1 = (route_bits rx2).1) :
    (route_bits rx1).2 ≠ (route_bits rx2).2 := by
  unfold route_bits at h ⊢
  split_ifs at h ⊢ <;> simp at h ⊢ <;> omega

theorem or_or_comm (x a b c d : Nat) : x ||| a ||| b ||| c ||| d = x ||| c ||| d ||| a ||| b := by
  apply Nat.eq_of_testBit_eq
  intro i
  simp only [Nat.testBit_or]
  cases x.testBit i <;> cases a.testBit i <;> cases b.testBit i <;> cases c.testBit i <;>
    cases d.testBit i <;> rfl

theorem or_or_idem (x a b : Nat) : x ||| a ||| b ||| a ||| b = x ||| a ||| b := by
  apply Nat.eq_of_testBit_eq
  intro i
  simp only [Nat.testBit_or]
  cases x.testBit i <;> cases a.testBit i <;> cases b.testBit i <;> rfl

theorem or_or_self (x a : Nat) : x ||| a ||| a = x ||| a := by
  rw [Nat.or_assoc, Nat.or_self]

theorem and_and_comm (x a b : Nat) : x &&& a &&& b = x &&& b &&& a := by
  apply Nat.eq_of_testBit_eq
  intro i
  simp only [Nat.testBit_and]
  cases x.testBit i <;> cases a.testBit i <;> cases b.testBit i <;> rfl

theorem and_and_idem (x a : Nat) : x &&& a &&& a = x &&& a := by
  apply Nat.eq_of_testBit_eq
  intro i
  simp only [Nat.testBit_and]
  cases x.testBit i <;> cases a.testBit i <;> rfl

/-- Two `ConfigureActive` effects with different receive slots commute. -/
theorem active_active_comm (seed tx1 rx1 tx2 rx2 : Nat) (r : Reg) (x : Nat)
    (h1 : tx1 ≤ 9) (h2 : tx2 ≤ 9) (hne : rx1 ≠ rx2) :
    active_eff seed tx1 rx1 r (active_eff seed tx2 rx2 r x)
      = active_eff seed tx2 rx2 r (active_eff seed tx1 rx1 r x) := by
  cases r with
  | lp_active_cfg i => simp only [active_eff]; split_ifs <;> rfl
  | lp_active_ctl => exact or_or_comm _ _ _ _ _
  | lp_active_clk_ctl => exact and_and_comm _ _ _
  | lp_tamper_filt_cfg => exact or_bit_at_comm _ _ _ _
  | lp_tamper_filt_cfg1 => exact or_bit_at_comm _ _ _ _
  | lp_tamper_filt_cfg2 => exact or_bit_at_comm _ _ _ _
  | lp_tamper_det_cfg => exact or_bit_at_comm _ _ _ _
  | lp_tamper_det_cfg2 => exact or_bit_at_comm _ _ _ _
  | lp_active_rt_ctl1 =>
    simp only [active_eff]
    split_ifs with a b
    · exact route_upd_comm _ _ _ _ _ (route_shift_mod _) (route_shift_mod _)
        (route_bits_inj rx1 rx2 hne (a.symm.trans b)) (by omega) (by omega)
    all_goals rfl
  | lp_active_rt_ctl2 =>
    simp only [active_eff]
    split_ifs with a b
    · exact route_upd_comm _ _ _ _ _ (route_shift_mod _) (route_shift_mod _)
        (route_bits_inj rx1 rx2 hne (a.symm.trans b)) (by omega) (by omega)
    all_goals rfl
  | ex_tpctrl i =>
    simp only [active_eff]
    split_ifs <;> first | (exfalso; omega) | rfl
  | _ => simp only [active_eff]

/-- A `ConfigureActive` effect and a `ConfigurePassive` effect with different
receive slots commute. -/
theorem active_passive_comm (seed tx1 rx1 rx2 pol : Nat) (r : Reg) (x : Nat)
    (hne : rx1 ≠ rx2) :
    active_eff seed tx1 rx1 r (passive_eff rx2 pol r x)
      = passive_eff rx2 pol r (active_eff seed tx1 rx1 r x) := by
  cases r with
  | lp_tamper_filt_cfg => exact or_bit_at_comm _ _ _ _
  | lp_tamper_filt_cfg1 => exact or_bit_at_comm _ _ _ _
  | lp_tamper_filt_cfg2 => exact or_bit_at_comm _ _ _ _
  | lp_tamper_det_cfg =>
    simp only [active_eff, passive_eff]
    split_ifs
    · rw [or_bit_at_comm, or_bit_at_comm _ (detect_enable_bits rx1) (polarity_bits rx2)]
    · rw [or_bit_at_comm]
  | lp_tamper_det_cfg2 =>
    simp only [active_eff, passive_eff]
    split_ifs
    · rw [or_bit_at_comm, or_bit_at_comm _ (detect_enable_bits rx1) (polarity_bits rx2)]
    · rw [or_bit_at_comm]
  | ex_tpctrl i =>
    simp only [active_eff, passive_eff]
    split_ifs <;> first | (exfalso; omega) | rfl
  | _ => simp only [active_eff, passive_eff]

/-- Two `ConfigurePassive` effects with different receive slots commute. -/
theorem passive_passive_comm (rx1 pol1 rx2 pol2 : Nat) (r : Reg) (x : Nat)
    (hne : rx1 ≠ rx2) :
    passive_eff rx1 pol1 r (passive_eff rx2 pol2 r x)
      = passive_eff rx2 pol2 r (passive_eff rx1 pol1 r x) := by
  have key : ∀ R : Reg,
      or_bit_at R (detect_enable_bits rx1)
        (if pol1 ≠ 0 then or_bit_at R (polarity_bits rx1)
            (or_bit_at R (detect_enable_bits rx2)
              (if pol2 ≠ 0 then or_bit_at R (polarity_bits rx2) x else x))
          else or_bit_at R (detect_enable_bits rx2)
              (if pol2 ≠ 0 then or_bit_at R (polarity_bits rx2) x else x))
      = or_bit_at R (detect_enable_bits rx2)
        (if pol2 ≠ 0 then or_bit_at R (polarity_bits rx2)
            (or_bit_at R (detect_enable_bits rx1)
              (if pol1 ≠ 0 then or_bit_at R (polarity_bits rx1) x else x))
          else or_bit_at R (detect_enable_bits rx1)
              (if pol1 ≠ 0 then or_bit_at R (polarity_bits rx1) x else x)) := by
    intro R
    apply Nat.eq_of_testBit_eq
    intro i
    split_ifs <;> simp only [testBit_or_bit_at] <;>
      cases x.testBit i <;>
      cases decide (R = (detect_enable_bits rx1).1 ∧ i = (detect_enable_bits rx1).2) <;>
      cases decide (R = (detect_enable_bits rx2).1 ∧ i = (detect_enable_bits rx2).2) <;>
      cases decide (R = (polarity_bits rx1).1 ∧ i = (polarity_bits rx1).2) <;>
      cases decide (R = (polarity_bits rx2).1 ∧ i = (polarity_bits rx2).2) <;> rfl
  cases r with
  | lp_tamper_filt_cfg => exact or_bit_at_comm _ _ _ _
  | lp_tamper_filt_cfg1 => exact or_bit_at_comm _ _ _ _
  | lp_tamper_filt_cfg2 => exact or_bit_at_comm _ _ _ _
  | lp_tamper_det_cfg => exact key _
  | lp_tamper_det_cfg2 => exact key _
  | ex_tpctrl i =>
    simp only [passive_eff]
    split_ifs <;> first | (exfalso; omega) | rfl
  | _ => simp only [passive_eff]

/-- Effects of two valid channel-configuration commands with different receive
slots commute on every register. -/
theorem chan_eff_comm (seed : Nat) (c1 c2 : ChanCfg) (r : Reg) (x : Nat)
    (hv1 : c1.valid) (hv2 : c2.valid) (hne : c1.rx ≠ c2.rx) :
    c1.eff seed r (c2.eff seed r x) = c2.eff seed r (c1.eff seed r x) := by
  cases c1 with
  | active tx1 rx1 =>
    cases c2 with
    | active tx2 rx2 => exact active_active_comm seed tx1 rx1 tx2 rx2 r x hv1.1.2 hv2.1.2 hne
    | passive rx2 pol2 => exact active_passive_comm seed tx1 rx1 rx2 pol2 r x hne
  | passive rx1 pol1 =>
    cases c2 with
    | active tx2 rx2 =>
      exact (active_passive_comm seed tx2 rx2 rx1 pol1 r x (Ne.symm hne)).symm
    | passive rx2 pol2 => exact passive_passive_comm rx1 pol1 rx2 pol2 r x hne

/-- The effect of a channel-configuration command is idempotent on every
register. -/
theorem chan_eff_idem (seed : Nat) (c : ChanCfg) (r : Reg) (x : Nat) :
    c.eff seed r (c.eff seed r x) = c.eff seed r x := by
  cases c with
  | active tx rx =>
    cases r with
    | lp_active_cfg i => simp only [ChanCfg.eff, active_eff]; split_ifs <;> rfl
    | lp_active_ctl => exact or_or_idem _ _ _
    | lp_active_clk_ctl => exact and_and_idem _ _
    | lp_tamper_filt_cfg => exact or_bit_at_idem _ _ _
    | lp_tamper_filt_cfg1 => exact or_bit_at_idem _ _ _
    | lp_tamper_filt_cfg2 => exact or_bit_at_idem _ _ _
    | lp_tamper_det_cfg => exact or_bit_at_idem _ _ _
    | lp_tamper_det_cfg2 => exact or_bit_at_idem _ _ _
    | lp_active_rt_ctl1 =>
      simp only [ChanCfg.eff, active_eff]
      split_ifs
      · exact route_upd_idem _ _ _
      · rfl
    | lp_active_rt_ctl2 =>
      simp only [ChanCfg.eff, active_eff]
      split_ifs
      · exact route_upd_idem _ _ _
      · rfl
    | ex_tpctrl i => simp only [ChanCfg.eff, active_eff]; split_ifs <;> rfl
    | hp_secvio_intcfg => exact or_or_self _ _
    | _ => simp only [ChanCfg.eff, active_eff]
  | passive rx pol =>
    have key : ∀ R : Reg,
        or_bit_at R (detect_enable_bits rx)
          (if pol ≠ 0 then or_bit_at R (polarity_bits rx)
              (or_bit_at R (detect_enable_bits rx)
                (if pol ≠ 0 then or_bit_at R (polarity_bits rx) x else x))
            else or_bit_at R (detect_enable_bits rx)
                (if pol ≠ 0 then or_bit_at R (polarity_bits rx) x else x))
        = or_bit_at R (detect_enable_bits rx)
            (if pol ≠ 0 then or_bit_at R (polarity_bits rx) x else x) := by
      intro R
      apply Nat.eq_of_testBit_eq
      intro i
      split_ifs <;> simp only [testBit_or_bit_at] <;>
        cases x.testBit i <;>
        cases decide (R = (detect_enable_bits rx).1 ∧ i = (detect_enable_bits rx).2) <;>
        cases decide (R = (polarity_bits rx).1 ∧ i = (polarity_bits rx).2) <;> rfl
    cases r with
    | lp_tamper_filt_cfg => exact or_bit_at_idem _ _ _
    | lp_tamper_filt_cfg1 => exact or_bit_at_idem _ _ _
    | lp_tamper_filt_cfg2 => exact or_bit_at_idem _ _ _
    | lp_tamper_det_cfg => exact key _
    | lp_tamper_det_cfg2 => exact key _
    | ex_tpctrl i => simp only [ChanCfg.eff, passive_eff]; split_ifs <;> rfl
    | hp_secvio_intcfg => exact or_or_self _ _
    | _ => simp only [ChanCfg.eff, passive_eff]

/-- A zero return of init means that all seven look-ups succeeded. -/
theorem init_ok_probed (env : Env) (p : Platform) (w : World)
    (h : (snvs_tamper_init env p w).2 = 0) : p.probed = true := by
  have hd : ¬ (-ENODEV = (0 : Int)) := by decide
  have hm : ¬ (-ENOMEM = (0 : Int)) := by decide
  cases h1 : p.caam_snvs_node
  · simp only [snvs_tamper_init, h1, Bool.not_false, if_true] at h
    exact absurd h hd
  cases h2 : p.caam_snvs_pdev
  · simp only [snvs_tamper_init, h1, h2, Bool.not_true, Bool.not_false, Bool.false_eq_true,
      if_false, if_true] at h
    exact absurd h hd
  cases h3 : p.caam_snvs_drvdata
  · simp only [snvs_tamper_init, h1, h2, h3, Bool.not_true, Bool.not_false, Bool.false_eq_true,
      if_false, if_true] at h
    exact absurd h hd
  cases h4 : p.snvs_node
  · simp only [snvs_tamper_init, h1, h2, h3, h4, Bool.not_true, Bool.not_false,
      Bool.false_eq_true, if_false, if_true] at h
    exact absurd h hd
  cases h5 : p.snvs_iomap
  · simp only [snvs_tamper_init, h1, h2, h3, h4, h5, Bool.not_true, Bool.not_false,
      Bool.false_eq_true, if_false, if_true] at h
    exact absurd h hm
  cases h6 : p.ocotp_node
  · simp only [snvs_tamper_init, h1, h2, h3, h4, h5, h6, Bool.not_true, Bool.not_false,
      Bool.false_eq_true, if_false, if_true] at h
    exact absurd h hd
  cases h7 : p.ocotp_iomap
  · simp only [snvs_tamper_init, h1, h2, h3, h4, h5, h6, h7, Bool.not_true, Bool.not_false,
      Bool.false_eq_true, if_false, if_true] at h
    exact absurd h hm
  simp only [Platform.probed, h1, h2, h3, h4, h5, h6, h7, Bool.and_self]

/-- Once the look-ups succeed, init leaves `dtocr` with bit 0 ORed in,
`hp.secvio_intcfg` with bit 31 masked out and `hp.secvio_ctl` with bit 30 ORed
in, whatever happens at the character-device registration. -/
theorem init_rd_ctl (env : Env) (p : Platform) (w : World) (hp : p.probed = true) :
    rd_reg32 (snvs_tamper_init env p w).1 .ex_dtocr = rd_reg32 w .ex_dtocr ||| 0x1 ∧
    rd_reg32 (snvs_tamper_init env p w).1 .hp_secvio_intcfg
      = rd_reg32 w .hp_secvio_intcfg &&& not32 0x80000000 ∧
    rd_reg32 (snvs_tamper_init env p w).1 .hp_secvio_ctl
      = rd_reg32 w .hp_secvio_ctl ||| 0x40000000 := by
  have e1 : u32 (rd_reg32 w .ex_dtocr ||| 0x1) = rd_reg32 w .ex_dtocr ||| 0x1 :=
    u32_rd_or w _ _ (by decide)
  have e2 : u32 (rd_reg32 w .hp_secvio_intcfg &&& not32 0x80000000)
      = rd_reg32 w .hp_secvio_intcfg &&& not32 0x80000000 :=
    u32_and_left _ _ (rd_reg32_lt _ _)
  have e3 : u32 (rd_reg32 w .hp_secvio_ctl ||| 0x40000000)
      = rd_reg32 w .hp_secvio_ctl ||| 0x40000000 := u32_rd_or w _ _ (by decide)
  simp only [Platform.probed, Bool.and_eq_true] at hp
  obtain ⟨⟨⟨⟨⟨⟨h1, h2⟩, h3⟩, h4⟩, h5⟩, h6⟩, h7⟩ := hp
  simp only [snvs_tamper_init, h1, h2, h3, h4, h5, h6, h7, Bool.not_true, Bool.false_eq_true,
    if_false]
  split_ifs <;> (try split) <;>
    simp only [rd_printk, rd_kcall, rd_iounmap, rd_wr_ne, rd_wr_same, rd_with_globals, ne_eq,
      reduceCtorEq, not_false_eq_true, e1, e2, e3, and_self]

/-- The interrupt handler leaves `hp.secvio_intcfg` with bit 31 masked out. -/
theorem handler_rd_intcfg (env : Env) (w : World) :
    rd_reg32 (tamper_detect_handler env w) .hp_secvio_intcfg
      = rd_reg32 w .hp_secvio_intcfg &&& 0x7fffffff := by
  have e : u32 (rd_reg32 w .hp_secvio_intcfg &&& 0x7fffffff)
      = rd_reg32 w .hp_secvio_intcfg &&& 0x7fffffff := u32_and_left _ _ (rd_reg32_lt _ _)
  rw [tamper_detect_handler_eq]
  split_ifs <;>
    simp only [rd_printk, rd_wr_same, ne_eq, reduceCtorEq, not_false_eq_true, e]

theorem testBit_and_0x7fffffff_31 (x : Nat) : (x &&& 0x7fffffff).testBit 31 = false := by
  rw [Nat.testBit_and, testBit_0x7fffffff]
  simp

theorem testBit_or_0x80000000_31 (x : Nat) : (x ||| 0x80000000).testBit 31 = true := by
  have h : (0x80000000 : Nat).testBit 31 = true := by decide
  rw [Nat.testBit_or, h, Bool.or_true]

/-- Bit 31 of `hp.secvio_intcfg` after one ioctl request: it is set exactly
when it was set before or the request is a class enable or a channel
configuration that returns 0. -/
theorem ioctl_intcfg_bit31 (env : Env) (v : World) (c : Cmd) :
    (rd_reg32 (tamper_ioctl env v c).world .hp_secvio_intcfg).testBit 31 =
      ((rd_reg32 v .hp_secvio_intcfg).testBit 31 || arming env v c) := by
  have hen : ∀ k : TamperClass,
      (rd_reg32 (tamper_ioctl env v (k.cmd true)).world .hp_secvio_intcfg).testBit 31 = true := by
    intro k
    rw [class_enable_rd env v k _ (by simp), if_neg (by simp), if_neg (by simp), if_pos rfl]
    exact testBit_or_0x80000000_31 _
  have hdis : ∀ k : TamperClass,
      rd_reg32 (tamper_ioctl env v (k.cmd false)).world .hp_secvio_intcfg
        = rd_reg32 v .hp_secvio_intcfg := by
    intro k
    rw [class_disable_rd env v k _, if_neg (by simp), if_neg (by simp)]
  have hcfg : ∀ cc : ChanCfg,
      (rd_reg32 (tamper_ioctl env v cc.cmd).world .hp_secvio_intcfg).testBit 31 =
        ((rd_reg32 v .hp_secvio_intcfg).testBit 31 ||
          decide ((tamper_ioctl env v cc.cmd).ret = 0)) := by
    intro cc
    by_cases hl : Locked v
    · have hl' : v.tamper_pin ≠ 0 ∧ v.tester_lock ≠ 0 := hl
      cases cc <;>
        simp only [ChanCfg.cmd, tamper_ioctl, if_pos hl', rd_printk] <;>
        simp [EINVAL]
    · by_cases hv : cc.valid
      · rw [chan_rd env v cc _ hl hv, chan_ret env v cc hl hv]
        have : cc.eff env.AT5_POLYSEED .hp_secvio_intcfg (rd_reg32 v .hp_secvio_intcfg)
            = rd_reg32 v .hp_secvio_intcfg ||| 0x80000000 := by
          cases cc <;> simp only [ChanCfg.eff, active_eff, passive_eff]
        rw [this, testBit_or_0x80000000_31]
        simp
      · have hl' : ¬ (v.tamper_pin ≠ 0 ∧ v.tester_lock ≠ 0) := hl
        cases cc with
        | active tx rx =>
          have hbad : (tx > 9 ∨ tx < 5) ∨ (rx > 9 ∨ rx = tx) := by
            by_contra hn
            apply hv
            simp only [ChanCfg.valid]
            omega
          simp only [ChanCfg.cmd, tamper_ioctl, if_neg hl']
          rcases hbad with h | h
          · rw [if_pos h]; simp [EINVAL]
          · by_cases h0 : tx > 9 ∨ tx < 5
            · rw [if_pos h0]; simp [EINVAL]
            · rw [if_neg h0, if_pos h]; simp [EINVAL]
        | passive rx pol =>
          have hbad : rx > 9 := by
            by_contra hn
            apply hv
            simp only [ChanCfg.valid]
            omega
          simp only [ChanCfg.cmd, tamper_ioctl, if_neg hl', if_pos hbad]
          simp [EINVAL]
  cases c with
  | CLOCK_EN a =>
    cases a with
    | none => simp [arming, Cmd.is_class_enable, Cmd.is_channel_config, tamper_ioctl]
    | some b =>
      cases b
      · rw [show Cmd.CLOCK_EN (some false) = TamperClass.Clock.cmd false from rfl, hdis]
        simp [arming, Cmd.is_class_enable, Cmd.is_channel_config, TamperClass.cmd]
      · rw [show Cmd.CLOCK_EN (some true) = TamperClass.Clock.cmd true from rfl, hen]
        simp [arming, Cmd.is_class_enable, TamperClass.cmd, tamper_ioctl]
  | TEMP_EN a =>
    cases a with
    | none => simp [arming, Cmd.is_class_enable, Cmd.is_channel_config, tamper_ioctl]
    | some b =>
      cases b
      · rw [show Cmd.TEMP_EN (some false) = TamperClass.Temperature.cmd false from rfl, hdis]
        simp [arming, Cmd.is_class_enable, Cmd.is_channel_config, TamperClass.cmd]
      · rw [show Cmd.TEMP_EN (some true) = TamperClass.Temperature.cmd true from rfl, hen]
        simp [arming, Cmd.is_class_enable, TamperClass.cmd, tamper_ioctl]
  | VOLT_EN a =>
    cases a with
    | none => simp [arming, Cmd.is_class_enable, Cmd.is_channel_config, tamper_ioctl]
    | some b =>
      cases b
      · rw [show Cmd.VOLT_EN (some false) = TamperClass.Voltage.cmd false from rfl, hdis]
        simp [arming, Cmd.is_class_enable, Cmd.is_channel_config, TamperClass.cmd]
      · rw [show Cmd.VOLT_EN (some true) = TamperClass.Voltage.cmd true from rfl, hen]
        simp [arming, Cmd.is_class_enable, TamperClass.cmd, tamper_ioctl]
  | ACTIVE_EN a =>
    cases a with
    | none => simp [arming, Cmd.is_class_enable, Cmd.is_channel_config, tamper_ioctl, EFAULT]
    | some a =>
      have := hcfg (.active a.tx a.rx)
      simpa [arming, Cmd.is_class_enable, Cmd.is_channel_config, ChanCfg.cmd] using this
  | PASSIVE_EN a =>
    cases a with
    | none => simp [arming, Cmd.is_class_enable, Cmd.is_channel_config, tamper_ioctl, EFAULT]
    | some a =>
      have := hcfg (.passive a.rx a.polarity)
      simpa [arming, Cmd.is_class_enable, Cmd.is_channel_config, ChanCfg.cmd] using this
  | GET_STATUS wr =>
    cases wr <;> simp [arming, Cmd.is_class_enable, Cmd.is_channel_config, tamper_ioctl]
  | CLEAR_STATUS a =>
    cases a with
    | none => simp [arming, Cmd.is_class_enable, Cmd.is_channel_config, tamper_ioctl]
    | some s =>
      simp only [arming, Cmd.is_class_enable, Cmd.is_channel_config, tamper_ioctl,
        rd_wr_ne _ _ _ _ _ (show Reg.hp_secvio_intcfg ≠ .lp_tamper_det_status by simp),
        rd_wr_ne _ _ _ _ _ (show Reg.hp_secvio_intcfg ≠ .lp_status by simp)]
      simp
  | unknown code => simp [arming, Cmd.is_class_enable, Cmd.is_channel_config, tamper_ioctl]

/-- A masked interrupt stays masked along a sequence of driver entries that
contains no successful class enable or channel configuration. -/
theorem quiet_calls_masked (env : Env) (ds : List DriverCall) :
    ∀ w : World, masked w → quiet_calls env w ds = true → masked (run_calls env w ds) := by
  induction ds with
  | nil => intro w hm _; exact hm
  | cons d ds ih =>
    intro w hm hq
    simp only [quiet_calls, Bool.and_eq_true] at hq
    apply ih _ _ hq.2
    cases d with
    | ioctl c =>
      have hq1 : arming env w c = false := by simpa using hq.1
      unfold masked at hm ⊢
      simp only [DriverCall.step]
      rw [ioctl_intcfg_bit31, hm, hq1]
      rfl
    | irq =>
      unfold masked
      simp only [DriverCall.step]
      rw [handler_rd_intcfg]
      exact testBit_and_0x7fffffff_31 _

/-! ## Claims -/

/-- C1: for every register state and every fuse state, `ConfigureActive` with
`tx == rx`, `tx < 5`, `tx > 9` or `rx > 9`, and `ConfigurePassive` with
`rx > 9`, return `-EINVAL` and leave every register unchanged, with no register
write in the events they append. -/
theorem C1_invalid_channel_rejected (env : Env) (w : World) (tx rx pol : Nat) :
    ((tx = rx ∨ tx < 5 ∨ tx > 9 ∨ rx > 9) →
      RejectedNoWrite w (tamper_ioctl env w (.ACTIVE_EN (some ⟨tx, rx⟩)))) ∧
    (rx > 9 →
      RejectedNoWrite w (tamper_ioctl env w (.PASSIVE_EN (some ⟨rx, pol⟩)))) := by
  constructor
  · intro h
    simp only [tamper_ioctl]
    split_ifs with h1 h2 h3
    · exact ⟨rfl, rfl, rfl, [Event.printk lockedMsg], rfl, rfl⟩
    · exact ⟨rfl, rfl, rfl, [], by simp, rfl⟩
    · exact ⟨rfl, rfl, rfl, [], by simp, rfl⟩
    · exfalso
      simp only [not_or, not_lt, gt_iff_lt] at h2 h3
      omega
  · intro h
    simp only [tamper_ioctl]
    split_ifs with h1
    · exact ⟨rfl, rfl, rfl, [Event.printk lockedMsg], rfl, rfl⟩
    · exact ⟨rfl, rfl, rfl, [], by simp, rfl⟩

/-- Witness for C1 at `tx = rx = 7` (active) and `rx = 10` (passive). -/
theorem C1_invalid_channel_rejected_witness :
    ((7 : Nat) = 7 ∨ 7 < 5 ∨ 7 > 9 ∨ 7 > 9) ∧ (10 : Nat) > 9 ∧
    RejectedNoWrite zeroWorld (tamper_ioctl sampleEnv zeroWorld (.ACTIVE_EN (some ⟨7, 7⟩))) ∧
    RejectedNoWrite zeroWorld (tamper_ioctl sampleEnv zeroWorld (.PASSIVE_EN (some ⟨10, 1⟩))) :=
  ⟨Or.inl rfl, by decide,
    (C1_invalid_channel_rejected sampleEnv zeroWorld 7 7 0).1 (Or.inl rfl),
    (C1_invalid_channel_rejected sampleEnv zeroWorld 0 10 1).2 (by decide)⟩

/-- C2: after the fuse reads of init, the device is Locked (the guard
`tamper_pin != 0 && tester_lock` holds in any state carrying the globals init
computed) exactly when bit 20 or 21 of the fuse word at 0x430 is set and bit 1
of the word at 0x400 is set; and when Locked, `ConfigureActive` and
`ConfigurePassive` return `-EINVAL` for every `tx`, `rx`, `polarity`, leave
every register unchanged and append only the lock message to the trace. -/
theorem C2_locked_iff_fuses_and_config_refused (env : Env) (p : Platform) (w w' : World)
    (hp : p.probed = true)
    (hpin : w'.tamper_pin = (snvs_tamper_init env p w).1.tamper_pin)
    (hlock : w'.tester_lock = (snvs_tamper_init env p w).1.tester_lock)
    (tx rx pol : Nat) :
    (Locked w' ↔
      (((w.regs (.ocotp 0x430)).testBit 20 = true ∨ (w.regs (.ocotp 0x430)).testBit 21 = true) ∧
        (w.regs (.ocotp 0x400)).testBit 1 = true)) ∧
    (Locked w' →
      (tamper_ioctl env w' (.ACTIVE_EN (some ⟨tx, rx⟩))).ret = -EINVAL ∧
      (tamper_ioctl env w' (.ACTIVE_EN (some ⟨tx, rx⟩))).world.regs = w'.regs ∧
      (tamper_ioctl env w' (.ACTIVE_EN (some ⟨tx, rx⟩))).world.trace
        = w'.trace ++ [Event.printk lockedMsg] ∧
      (tamper_ioctl env w' (.PASSIVE_EN (some ⟨rx, pol⟩))).ret = -EINVAL ∧
      (tamper_ioctl env w' (.PASSIVE_EN (some ⟨rx, pol⟩))).world.regs = w'.regs ∧
      (tamper_ioctl env w' (.PASSIVE_EN (some ⟨rx, pol⟩))).world.trace
        = w'.trace ++ [Event.printk lockedMsg]) := by
  obtain ⟨gp, gl⟩ := init_globals env p w hp
  constructor
  · unfold Locked
    rw [hpin, hlock, gp, gl]
    exact and_congr (pin_field_ne_zero _) (lock_bit_ne_zero _)
  · intro hl
    have hl' : w'.tamper_pin ≠ 0 ∧ w'.tester_lock ≠ 0 := hl
    simp [tamper_ioctl, hl']

/-- Witness for C2: init on `fusedWorld` yields a Locked state, in which the
valid requests `ConfigureActive(5, 0)` and `ConfigurePassive(0, 1)` are refused. -/
theorem C2_locked_iff_fuses_and_config_refused_witness :
    goodPlatform.probed = true ∧
    Locked (snvs_tamper_init sampleEnv goodPlatform fusedWorld).1 ∧
    (tamper_ioctl sampleEnv (snvs_tamper_init sampleEnv goodPlatform fusedWorld).1
      (.ACTIVE_EN (some ⟨5, 0⟩))).ret = -EINVAL ∧
    (tamper_ioctl sampleEnv (snvs_tamper_init sampleEnv goodPlatform fusedWorld).1
      (.PASSIVE_EN (some ⟨0, 1⟩))).ret = -EINVAL :=
  have h := C2_locked_iff_fuses_and_config_refused sampleEnv goodPlatform fusedWorld
    (snvs_tamper_init sampleEnv goodPlatform fusedWorld).1 rfl rfl rfl 5 0 1
  have hl : Locked (snvs_tamper_init sampleEnv goodPlatform fusedWorld).1 :=
    h.1.2 ⟨Or.inl (by decide), by decide⟩
  ⟨rfl, hl, (h.2 hl).1, (h.2 hl).2.2.2.1⟩

/-- Counterexample to C3 as stated: in a Locked state `SetClockDetect(true)` is
not refused; it returns 0 and writes four registers. -/
theorem C3_counterexample :
    Locked lockedWorld ∧
    (tamper_ioctl sampleEnv lockedWorld (.CLOCK_EN (some true))).ret = 0 ∧
    writes (tamper_ioctl sampleEnv lockedWorld (.CLOCK_EN (some true))).world.trace
      = [(.lp_status, 0x10), (.ex_dmcr, 0x4), (.lp_tamper_det_cfg, 0x10),
         (.hp_secvio_intcfg, 0x80000000)] ∧
    ¬ RejectedNoWrite lockedWorld (tamper_ioctl sampleEnv lockedWorld (.CLOCK_EN (some true))) := by
  refine ⟨by decide, rfl, by decide, ?_⟩
  intro h
  exact absurd h.1 (by decide)

/-- C3 (amended): in a Locked state the two channel-configuration commands are
refused with `-EINVAL` and no register write, whereas `SetClockDetect`,
`SetTemperatureDetect` and `SetVoltageDetect` are not gated by the fuse state:
for either value of `enable` they return 0 and write, in this order,
`lp.status`, `dmcr`, `lp.tamper_det_cfg`, `hp.secvio_intcfg` (enable) or
`dmcr`, `lp.tamper_det_cfg` (disable); `ClearStatus` is not gated either: it
returns 0 and writes `lp.status` and `lp.tamper_det_status`. -/
theorem C3_locked_gates_only_channel_config (env : Env) (w : World) (hl : Locked w)
    (tx rx pol : Nat) (enable : Bool) (s : tamper_status) :
    RejectedNoWrite w (tamper_ioctl env w (.ACTIVE_EN (some ⟨tx, rx⟩))) ∧
    RejectedNoWrite w (tamper_ioctl env w (.PASSIVE_EN (some ⟨rx, pol⟩))) ∧
    (∀ c ∈ [Cmd.CLOCK_EN (some enable), Cmd.TEMP_EN (some enable), Cmd.VOLT_EN (some enable)],
      (tamper_ioctl env w c).ret = 0 ∧
      ∃ evs, (tamper_ioctl env w c).world.trace = w.trace ++ evs ∧
        (writes evs).map Prod.fst =
          if enable then [.lp_status, .ex_dmcr, .lp_tamper_det_cfg, .hp_secvio_intcfg]
          else [.ex_dmcr, .lp_tamper_det_cfg]) ∧
    ((tamper_ioctl env w (.CLEAR_STATUS (some s))).ret = 0 ∧
      ∃ evs, (tamper_ioctl env w (.CLEAR_STATUS (some s))).world.trace = w.trace ++ evs ∧
        (writes evs).map Prod.fst = [.lp_status, .lp_tamper_det_status]) := by
  have hl' : w.tamper_pin ≠ 0 ∧ w.tester_lock ≠ 0 := hl
  refine ⟨?_, ?_, ?_, ?_⟩
  · simp only [tamper_ioctl, if_pos hl']
    exact ⟨rfl, rfl, rfl, [Event.printk lockedMsg], rfl, rfl⟩
  · simp only [tamper_ioctl, if_pos hl']
    exact ⟨rfl, rfl, rfl, [Event.printk lockedMsg], rfl, rfl⟩
  · intro c hc
    simp only [List.mem_cons, List.mem_singleton, List.not_mem_nil, or_false] at hc
    rcases hc with rfl | rfl | rfl <;> cases enable <;>
      simp [tamper_ioctl, clock_en, temp_en, volt_en, writes]
  · simp [tamper_ioctl, writes]

/-- Witness for C3 (amended) at `lockedWorld`. -/
theorem C3_locked_gates_only_channel_config_witness :
    Locked lockedWorld ∧
    RejectedNoWrite lockedWorld (tamper_ioctl sampleEnv lockedWorld (.ACTIVE_EN (some ⟨5, 0⟩))) ∧
    (tamper_ioctl sampleEnv lockedWorld (.VOLT_EN (some false))).ret = 0 :=
  have h := C3_locked_gates_only_channel_config sampleEnv lockedWorld (by decide) 5 0 1 false
    ⟨0x7f0, 0xff⟩
  ⟨by decide, h.1, (h.2.2.1 _ (by simp)).1⟩

/-- C4: for every register state and every fuse state, `GetStatus` (with a
writable result buffer) returns 0 and copies out `lp.status & 0x7f0` and
`lp.tamper_det_status & 0xff`; no bit outside 4..10, respectively 0..7, is ever
set in the two words; and the call, whether or not the copy-out succeeds,
leaves every register, both globals and the trace as they were. -/
theorem C4_get_status_masks_and_never_mutates (env : Env) (w : World) :
    (tamper_ioctl env w (.GET_STATUS true)).ret = 0 ∧
    (tamper_ioctl env w (.GET_STATUS true)).out =
      some { lpsr := rd_reg32 w .lp_status &&& 0x7f0,
             lptdsr := rd_reg32 w .lp_tamper_det_status &&& 0xff } ∧
    (∀ i, (rd_reg32 w .lp_status &&& 0x7f0).testBit i = true → 4 ≤ i ∧ i ≤ 10) ∧
    (∀ i, (rd_reg32 w .lp_tamper_det_status &&& 0xff).testBit i = true → i ≤ 7) ∧
    (∀ b, (tamper_ioctl env w (.GET_STATUS b)).world.regs = w.regs ∧
      (tamper_ioctl env w (.GET_STATUS b)).world.trace = w.trace ∧
      (tamper_ioctl env w (.GET_STATUS b)).world.tamper_pin = w.tamper_pin ∧
      (tamper_ioctl env w (.GET_STATUS b)).world.tester_lock = w.tester_lock) := by
  have h7f0 : ∀ j, (0x7f0 : Nat).testBit j = (decide (4 ≤ j) && decide (j - 4 < 7)) :=
    fun j => testBit_mask 7 4 j
  have hff : ∀ j, (0xff : Nat).testBit j = decide (j < 8) :=
    fun j => Nat.testBit_two_pow_sub_one 8 j
  refine ⟨rfl, rfl, ?_, ?_, ?_⟩
  · intro i hi
    rw [Nat.testBit_and, h7f0] at hi
    simp only [Bool.and_eq_true, decide_eq_true_eq] at hi
    omega
  · intro i hi
    rw [Nat.testBit_and, hff] at hi
    simp only [Bool.and_eq_true, decide_eq_true_eq] at hi
    omega
  · intro b
    cases b <;> exact ⟨rfl, rfl, rfl, rfl⟩

/-- C5: for every register state, `tamper_detect_handler` leaves bit 31 of
`hp.secvio_intcfg` cleared (whether or not an alarm bit is set), preserves every
other bit of that register, issues exactly one register write (to that
register), leaves all other registers and the two fuse globals unchanged, and
does not depend on the fuse globals. -/
theorem C5_handler_masks_interrupt_enable_only (env : Env) (w : World) :
    (rd_reg32 (tamper_detect_handler env w) .hp_secvio_intcfg).testBit 31 = false ∧
    (∀ i, i ≠ 31 → (rd_reg32 (tamper_detect_handler env w) .hp_secvio_intcfg).testBit i
        = (rd_reg32 w .hp_secvio_intcfg).testBit i) ∧
    (∃ evs, (tamper_detect_handler env w).trace = w.trace ++ evs ∧
      writes evs = [(.hp_secvio_intcfg, rd_reg32 w .hp_secvio_intcfg &&& 0x7fffffff)]) ∧
    (∀ r, r ≠ .hp_secvio_intcfg → (tamper_detect_handler env w).regs r = w.regs r) ∧
    (tamper_detect_handler env w).tamper_pin = w.tamper_pin ∧
    (tamper_detect_handler env w).tester_lock = w.tester_lock ∧
    (∀ tl tp,
      (tamper_detect_handler env { w with tester_lock := tl, tamper_pin := tp }).regs
        = (tamper_detect_handler env w).regs ∧
      (tamper_detect_handler env { w with tester_lock := tl, tamper_pin := tp }).trace
        = (tamper_detect_handler env w).trace) := by
  have hval : u32 (rd_reg32 w .hp_secvio_intcfg &&& 0x7fffffff)
      = rd_reg32 w .hp_secvio_intcfg &&& 0x7fffffff := u32_and_left _ _ (rd_reg32_lt _ _)
  have hregs : ∀ r, (tamper_detect_handler env w).regs r
      = if r = .hp_secvio_intcfg then rd_reg32 w .hp_secvio_intcfg &&& 0x7fffffff
        else w.regs r := by
    intro r
    rw [tamper_detect_handler_eq]
    split_ifs <;>
      simp_all [wr_reg32_regs, store_of_not_status env.hw .hp_secvio_intcfg]
  refine ⟨?_, ?_, ?_, ?_, ?_, ?_, ?_⟩
  · simp only [rd_reg32, hregs, if_true, testBit_u32, Nat.testBit_and, testBit_0x7fffffff]
    simp
  · intro i hi
    simp only [rd_reg32, hregs, if_true, testBit_u32, Nat.testBit_and, testBit_0x7fffffff]
    by_cases h : i < 31
    · simp [h, show i < 32 by omega]
    · have : ¬ i < 32 := by omega
      simp [this]
  · rw [tamper_detect_handler_eq]
    split_ifs
    · exact ⟨[Event.write .hp_secvio_intcfg (rd_reg32 w .hp_secvio_intcfg &&& 0x7fffffff),
        Event.printk "tamper detected!\n"], by simp [hval], rfl⟩
    · exact ⟨[Event.write .hp_secvio_intcfg (rd_reg32 w .hp_secvio_intcfg &&& 0x7fffffff)],
        by simp [hval], rfl⟩
  · intro r hr
    rw [hregs, if_neg hr]
  · rw [tamper_detect_handler_eq]
    split_ifs <;> rfl
  · rw [tamper_detect_handler_eq]
    split_ifs <;> rfl
  · intro tl tp
    rw [tamper_detect_handler_eq, tamper_detect_handler_eq]
    simp only [rd_reg32]
    split_ifs <;> exact ⟨rfl, rfl⟩

/-- C6: `tamper_detect_handler` prints the tamper-detected message exactly when
`(lp.status & 0x7f0) != 0` or `(lp.tamper_det_status & 0xff) != 0`, that is,
exactly when one of bits 4..10 of `lp.status` or one of bits 0..7 of
`lp.tamper_det_status` is set; no other bit of either register matters. -/
theorem C6_notification_iff_masked_status (env : Env) (w : World) :
    messages (tamper_detect_handler env w).trace =
      messages w.trace ++
        (if rd_reg32 w .lp_status &&& 0x7f0 ≠ 0 ∨ rd_reg32 w .lp_tamper_det_status &&& 0xff ≠ 0
         then ["tamper detected!\n"] else []) ∧
    ((rd_reg32 w .lp_status &&& 0x7f0 ≠ 0 ∨ rd_reg32 w .lp_tamper_det_status &&& 0xff ≠ 0) ↔
      ((∃ i, 4 ≤ i ∧ i ≤ 10 ∧ (rd_reg32 w .lp_status).testBit i = true) ∨
       (∃ i, i ≤ 7 ∧ (rd_reg32 w .lp_tamper_det_status).testBit i = true))) := by
  have hmsg : ∀ a b : List Event, messages (a ++ b) = messages a ++ messages b := by
    intro a b
    induction a with
    | nil => rfl
    | cons e es ih => cases e <;> simp [messages, ih]
  constructor
  · rw [tamper_detect_handler_eq]
    split_ifs <;> simp [hmsg, messages]
  · rw [ne_zero_iff_exists_testBit, ne_zero_iff_exists_testBit]
    apply or_congr
    · constructor
      · rintro ⟨i, hi⟩
        rw [Nat.testBit_and, testBit_0x7f0] at hi
        simp only [Bool.and_eq_true, decide_eq_true_eq] at hi
        exact ⟨i, hi.2.1, by omega, hi.1⟩
      · rintro ⟨i, h4, h10, hi⟩
        refine ⟨i, ?_⟩
        rw [Nat.testBit_and, testBit_0x7f0, hi]
        simp only [Bool.true_and, Bool.and_eq_true, decide_eq_true_eq]
        omega
    · constructor
      · rintro ⟨i, hi⟩
        rw [Nat.testBit_and, testBit_0xff] at hi
        simp only [Bool.and_eq_true, decide_eq_true_eq] at hi
        exact ⟨i, by omega, hi.1⟩
      · rintro ⟨i, h7, hi⟩
        refine ⟨i, ?_⟩
        rw [Nat.testBit_and, testBit_0xff, hi]
        simp only [Bool.true_and, decide_eq_true_eq]
        omega

/-- C7: with the two status registers write-1-to-clear, `ClearStatus(s)` returns
0, turns `lp.status` into `old & ~(s.lpsr & 0x7f0)` and `lp.tamper_det_status`
into `old & ~(s.lptdsr & 0xff)`: a bit is cleared exactly when it is named in
`s` and lies inside the mask, every other bit keeps its value, no other
register changes, and a second `ClearStatus(s)` leaves the register state of
the first. -/
theorem C7_clear_status_w1c_idempotent (seed : Nat) (w : World) (s : tamper_status) :
    (tamper_ioctl ⟨.w1c_status, seed⟩ w (.CLEAR_STATUS (some s))).ret = 0 ∧
    rd_reg32 (tamper_ioctl ⟨.w1c_status, seed⟩ w (.CLEAR_STATUS (some s))).world .lp_status
      = rd_reg32 w .lp_status &&& not32 (s.lpsr &&& 0x7f0) ∧
    rd_reg32 (tamper_ioctl ⟨.w1c_status, seed⟩ w (.CLEAR_STATUS (some s))).world
        .lp_tamper_det_status
      = rd_reg32 w .lp_tamper_det_status &&& not32 (s.lptdsr &&& 0xff) ∧
    (∀ i, (rd_reg32 (tamper_ioctl ⟨.w1c_status, seed⟩ w (.CLEAR_STATUS (some s))).world
        .lp_status).testBit i
      = ((rd_reg32 w .lp_status).testBit i && !(decide (4 ≤ i ∧ i ≤ 10) && s.lpsr.testBit i))) ∧
    (∀ i, (rd_reg32 (tamper_ioctl ⟨.w1c_status, seed⟩ w (.CLEAR_STATUS (some s))).world
        .lp_tamper_det_status).testBit i
      = ((rd_reg32 w .lp_tamper_det_status).testBit i &&
          !(decide (i ≤ 7) && s.lptdsr.testBit i))) ∧
    (∀ r, r ≠ .lp_status → r ≠ .lp_tamper_det_status →
      (tamper_ioctl ⟨.w1c_status, seed⟩ w (.CLEAR_STATUS (some s))).world.regs r = w.regs r) ∧
    (tamper_ioctl ⟨.w1c_status, seed⟩
        (tamper_ioctl ⟨.w1c_status, seed⟩ w (.CLEAR_STATUS (some s))).world
        (.CLEAR_STATUS (some s))).world.regs
      = (tamper_ioctl ⟨.w1c_status, seed⟩ w (.CLEAR_STATUS (some s))).world.regs := by
  have hregs : ∀ (w0 : World) (r : Reg),
      (tamper_ioctl ⟨.w1c_status, seed⟩ w0 (.CLEAR_STATUS (some s))).world.regs r
        = if r = .lp_tamper_det_status then
            w0.regs .lp_tamper_det_status &&& not32 (u32 (s.lptdsr &&& 0xff))
          else if r = .lp_status then w0.regs .lp_status &&& not32 (u32 (s.lpsr &&& 0x7f0))
          else w0.regs r := by
    intro w0 r
    simp only [tamper_ioctl, wr_reg32_regs]
    split_ifs with h1 h2 <;> simp_all [HwModel.store]
  have hbit : ∀ (x m i : Nat), (u32 (x &&& not32 (u32 m))).testBit i
      = ((u32 x).testBit i && !m.testBit i) := by
    intro x m i
    simp only [testBit_u32, Nat.testBit_and, testBit_not32]
    by_cases h : i < 32 <;> simp [h]
  have hval : ∀ (x m : Nat), u32 (x &&& not32 (u32 m)) = u32 x &&& not32 m := by
    intro x m
    apply Nat.eq_of_testBit_eq
    intro i
    rw [hbit, Nat.testBit_and, testBit_not32, testBit_u32]
    by_cases h : i < 32 <;> simp [h]
  refine ⟨rfl, ?_, ?_, ?_, ?_, ?_, ?_⟩
  · simp only [rd_reg32, hregs]
    simp [hval]
  · simp only [rd_reg32, hregs]
    simp [hval]
  · intro i
    simp only [rd_reg32, hregs]
    simp only [reduceCtorEq, if_false, if_true, hbit, Nat.testBit_and, testBit_0x7f0]
    by_cases h4 : 4 ≤ i <;> by_cases h10 : i ≤ 10 <;>
      simp [h4, h10, show (i - 4 < 7) = (i ≤ 10 ∨ i < 4) from by
        apply propext; omega]
  · intro i
    simp only [rd_reg32, hregs]
    simp only [reduceCtorEq, if_false, if_true, hbit, Nat.testBit_and, testBit_0xff]
    by_cases h7 : i ≤ 7
    · simp [h7, show i < 8 by omega]
    · simp [h7, show ¬ i < 8 by omega]
  · intro r h1 h2
    rw [hregs, if_neg h2, if_neg h1]
  · funext r
    rw [hregs]
    simp only [hregs w]
    by_cases h1 : r = .lp_tamper_det_status
    · subst h1
      simp [Nat.and_assoc]
    · by_cases h2 : r = .lp_status
      · subst h2
        simp [Nat.and_assoc]
      · simp [h1, h2]

/-- C8: for every `rx` in 0..9 the filter-enable step (of either configuration
command) is a single register write, to one of the three filter registers, of
the old value with exactly one bit (a position below 32) ORed in; register and
bit are those of `filter_enable_bits rx`, and two different `rx` never give the
same register and bit. -/
theorem C8_filter_step_one_register_one_bit (env : Env) (w : World) (rx rx' : Nat)
    (h : rx ≤ 9) (h' : rx' ≤ 9) :
    (filter_enable_bits rx).1 ∈
      [Reg.lp_tamper_filt_cfg, Reg.lp_tamper_filt_cfg1, Reg.lp_tamper_filt_cfg2] ∧
    (filter_enable_bits rx).2 < 32 ∧
    (active_filt_step env w rx).trace = w.trace ++
      [Event.write (filter_enable_bits rx).1
        (rd_reg32 w (filter_enable_bits rx).1 ||| 1 <<< (filter_enable_bits rx).2)] ∧
    (passive_filt_step env w rx).trace = w.trace ++
      [Event.write (filter_enable_bits rx).1
        (rd_reg32 w (filter_enable_bits rx).1 ||| 1 <<< (filter_enable_bits rx).2)] ∧
    (filter_enable_bits rx = filter_enable_bits rx' → rx = rx') := by
  have hb : (filter_enable_bits rx).2 < 32 := by
    interval_cases rx <;> decide
  have hv : u32 (rd_reg32 w (filter_enable_bits rx).1 ||| 1 <<< (filter_enable_bits rx).2)
      = rd_reg32 w (filter_enable_bits rx).1 ||| 1 <<< (filter_enable_bits rx).2 := by
    apply u32_rd_or
    rw [Nat.one_shiftLeft]
    exact Nat.pow_lt_pow_right (by decide) hb
  refine ⟨?_, hb, ?_, ?_, ?_⟩
  · interval_cases rx <;> decide
  · rw [active_filt_step_eq env w rx h, wr_reg32_trace, hv]
  · rw [passive_filt_step_eq env w rx h, wr_reg32_trace, hv]
  · interval_cases rx <;> interval_cases rx' <;> decide

/-- Witness for C8 at `rx = 5` (bit 31 of `tamper_filt_cfg1`) and `rx' = 9`. -/
theorem C8_filter_step_one_register_one_bit_witness :
    (5 : Nat) ≤ 9 ∧ (9 : Nat) ≤ 9 ∧
    (active_filt_step sampleEnv zeroWorld 5).trace = zeroWorld.trace ++
      [Event.write (filter_enable_bits 5).1
        (rd_reg32 zeroWorld (filter_enable_bits 5).1 ||| 1 <<< (filter_enable_bits 5).2)] ∧
    (filter_enable_bits 5 = filter_enable_bits 9 → (5 : Nat) = 9) :=
  have h := C8_filter_step_one_register_one_bit sampleEnv zeroWorld 5 9 (by decide) (by decide)
  ⟨by decide, by decide, h.2.2.1, h.2.2.2.2⟩

/-- C9: for every valid `(tx, rx)` and every Open state, the trigger word that
`ConfigureActive` leaves in trigger register `rx` is `0x0810E8DC | ((tx-4) << 17)`
and the 4-bit routing field it leaves for `rx` is `tx - 4`, in any two
environments and prior register states alike (they depend on `(tx, rx)` only);
`((word >> 17) & 7) + 4` gives back `tx`, and two different valid `tx` give
different trigger words and different routing fields. -/
theorem C9_trigger_word_and_route_field_recover_tx (env env' : Env) (w w' : World)
    (tx tx' rx : Nat) (hopen : ¬ Locked w) (hopen' : ¬ Locked w')
    (htx : 5 ≤ tx ∧ tx ≤ 9) (htx' : 5 ≤ tx' ∧ tx' ≤ 9) (hrx : rx ≤ 9) (hne : tx ≠ rx) :
    active_tpctrl_val tx = 0x0810E8DC ||| (tx - 4) <<< 17 ∧
    ((active_tpctrl_val tx >>> 17) &&& 0x7) + 4 = tx ∧
    rd_reg32 (tamper_ioctl env w (.ACTIVE_EN (some ⟨tx, rx⟩))).world (.ex_tpctrl rx)
      = 0x0810E8DC ||| (tx - 4) <<< 17 ∧
    (rd_reg32 (tamper_ioctl env w (.ACTIVE_EN (some ⟨tx, rx⟩))).world (route_bits rx).1
        >>> (route_bits rx).2) &&& 0xf = tx - 4 ∧
    rd_reg32 (tamper_ioctl env' w' (.ACTIVE_EN (some ⟨tx, rx⟩))).world (.ex_tpctrl rx)
      = rd_reg32 (tamper_ioctl env w (.ACTIVE_EN (some ⟨tx, rx⟩))).world (.ex_tpctrl rx) ∧
    (rd_reg32 (tamper_ioctl env' w' (.ACTIVE_EN (some ⟨tx, rx⟩))).world (route_bits rx).1
        >>> (route_bits rx).2) &&& 0xf
      = (rd_reg32 (tamper_ioctl env w (.ACTIVE_EN (some ⟨tx, rx⟩))).world (route_bits rx).1
        >>> (route_bits rx).2) &&& 0xf ∧
    (tx ≠ tx' → active_tpctrl_val tx ≠ active_tpctrl_val tx' ∧ tx - 4 ≠ tx' - 4) := by
  obtain ⟨h5, h9⟩ := htx
  obtain ⟨h5', h9'⟩ := htx'
  have hword : active_tpctrl_val tx = 0x0810E8DC ||| (tx - 4) <<< 17 := by
    interval_cases tx <;> decide
  have hu : u32 (active_tpctrl_val tx) = active_tpctrl_val tx := by
    interval_cases tx <;> decide
  have hv1 : ¬ (tx > 9 ∨ tx < 5) := by omega
  have hv2 : ¬ (rx > 9 ∨ rx = tx) := by omega
  have htp : ∀ (e : Env) (v : World), ¬ Locked v →
      rd_reg32 (tamper_ioctl e v (.ACTIVE_EN (some ⟨tx, rx⟩))).world (.ex_tpctrl rx)
        = active_tpctrl_val tx := by
    intro e v hv
    have hv' : ¬ (v.tamper_pin ≠ 0 ∧ v.tester_lock ≠ 0) := hv
    simp only [tamper_ioctl, if_neg hv', if_neg hv1, if_neg hv2]
    rw [rd_wr_ne _ _ _ _ _ (by simp), rd_wr_same _ _ _ _ (by simp) (by simp), hu]
  have hrt : ∀ (e : Env) (v : World), ¬ Locked v →
      (rd_reg32 (tamper_ioctl e v (.ACTIVE_EN (some ⟨tx, rx⟩))).world (route_bits rx).1
        >>> (route_bits rx).2) &&& 0xf = tx - 4 := by
    intro e v hv
    have hv' : ¬ (v.tamper_pin ≠ 0 ∧ v.tester_lock ≠ 0) := hv
    have hR : (route_bits rx).1 = .lp_active_rt_ctl1 ∨ (route_bits rx).1 = .lp_active_rt_ctl2 := by
      unfold route_bits
      split_ifs
      · exact Or.inl rfl
      · exact Or.inr rfl
    have hs : (route_bits rx).2 + 4 ≤ 32 := by
      unfold route_bits
      split_ifs <;> simp only <;> omega
    simp only [tamper_ioctl, if_neg hv', if_neg hv1, if_neg hv2, active_route_step_eq]
    rcases hR with hR | hR <;> rw [hR] <;>
      rw [rd_wr_ne _ _ _ _ _ (by decide), rd_wr_ne _ _ _ _ _ (by simp),
        active_det_step_rd _ _ _ _ (by decide) (by decide),
        rd_wr_same _ _ _ _ (by decide) (by decide)] <;>
      exact route_field _ _ _ (by omega) hs
  refine ⟨hword, ?_, ?_, hrt env w hopen, ?_, ?_, ?_⟩
  · interval_cases tx <;> decide
  · rw [htp env w hopen, hword]
  · rw [htp env w hopen, htp env' w' hopen']
  · rw [hrt env w hopen, hrt env' w' hopen']
  · intro hd
    constructor
    · interval_cases tx <;> interval_cases tx' <;> first | exact absurd rfl hd | decide
    · omega

/-- Witness for C9 at `tx = 9`, `tx' = 5`, `rx = 8` (second routing bank). -/
theorem C9_trigger_word_and_route_field_recover_tx_witness :
    ¬ Locked zeroWorld ∧ (5 ≤ 9 ∧ 9 ≤ 9) ∧ (8 : Nat) ≤ 9 ∧ (9 : Nat) ≠ 8 ∧
    rd_reg32 (tamper_ioctl sampleEnv zeroWorld (.ACTIVE_EN (some ⟨9, 8⟩))).world (.ex_tpctrl 8)
      = 0x0810E8DC ||| (9 - 4) <<< 17 ∧
    ((active_tpctrl_val 9 >>> 17) &&& 0x7) + 4 = 9 :=
  have h := C9_trigger_word_and_route_field_recover_tx sampleEnv sampleEnv zeroWorld zeroWorld
    9 5 8 (by decide) (by decide) (by decide) (by decide) (by decide) (by decide)
  ⟨by decide, by decide, by decide, by decide, h.2.2.1, h.2.1⟩

/-- C10: when the policy is Open and `(tx, rx)` is valid, `ConfigureActive`
returns 0 and appends to the trace exactly nine register writes, in this
order: seed register `active_cfg[tx-5] := AT5_POLYSEED`;
`active_ctl |= 1 << (tx-5+16)`; `active_clk_ctl &= ~(3 << ((tx-5)*4))`;
`active_ctl |= 1 << (tx-5)`; the filter register of `rx` with its bit ORed in;
the routing register of `rx` with the field of `rx` set to `tx-4`; the
detect-config register of `rx` with its bit ORed in; `tpctrl[rx]` with the
trigger word; `hp.secvio_intcfg |= 0x80000000`. -/
theorem C10_configure_active_write_log (env : Env) (w : World) (tx rx : Nat)
    (hopen : ¬ Locked w) (htx : 5 ≤ tx ∧ tx ≤ 9) (hrx : rx ≤ 9) (hne : tx ≠ rx) :
    (tamper_ioctl env w (.ACTIVE_EN (some ⟨tx, rx⟩))).ret = 0 ∧
    (tamper_ioctl env w (.ACTIVE_EN (some ⟨tx, rx⟩))).world.trace = w.trace ++
      [ Event.write (.lp_active_cfg (tx - 5)) (u32 env.AT5_POLYSEED),
        Event.write .lp_active_ctl (rd_reg32 w .lp_active_ctl ||| 1 <<< (tx - 5 + 16)),
        Event.write .lp_active_clk_ctl
          (rd_reg32 w .lp_active_clk_ctl &&& not32 (3 <<< ((tx - 5) * 4))),
        Event.write .lp_active_ctl
          (rd_reg32 w .lp_active_ctl ||| 1 <<< (tx - 5 + 16) ||| 1 <<< (tx - 5)),
        Event.write (filter_enable_bits rx).1
          (rd_reg32 w (filter_enable_bits rx).1 ||| 1 <<< (filter_enable_bits rx).2),
        Event.write (route_bits rx).1
          (rd_reg32 w (route_bits rx).1 &&& not32 (0xf <<< (route_bits rx).2)
            ||| (tx - 4) <<< (route_bits rx).2),
        Event.write (detect_enable_bits rx).1
          (rd_reg32 w (detect_enable_bits rx).1 ||| 1 <<< (detect_enable_bits rx).2),
        Event.write (.ex_tpctrl rx) (0x0810E8DC ||| (tx - 4) <<< 17),
        Event.write .hp_secvio_intcfg (rd_reg32 w .hp_secvio_intcfg ||| 0x80000000) ] := by
  have hopen' : ¬ (w.tamper_pin ≠ 0 ∧ w.tester_lock ≠ 0) := hopen
  obtain ⟨h5, h9⟩ := htx
  have hv1 : ¬ (tx > 9 ∨ tx < 5) := by omega
  have hv2 : ¬ (rx > 9 ∨ rx = tx) := by omega
  have hidx : 0 + tx - 5 = tx - 5 := by omega
  have e1 : ∀ r, u32 (rd_reg32 w r ||| 1 <<< (tx - 5 + 16))
      = rd_reg32 w r ||| 1 <<< (tx - 5 + 16) :=
    fun r => u32_rd_or _ _ _ (one_shiftLeft_lt _ (by omega))
  have e2 : ∀ r m, u32 (rd_reg32 w r &&& m) = rd_reg32 w r &&& m :=
    fun r m => u32_and_left _ _ (rd_reg32_lt _ _)
  have e3 : ∀ r, u32 (rd_reg32 w r ||| 1 <<< (tx - 5 + 16) ||| 1 <<< (tx - 5))
      = rd_reg32 w r ||| 1 <<< (tx - 5 + 16) ||| 1 <<< (tx - 5) :=
    fun r => u32_or (Nat.or_lt_two_pow (rd_reg32_lt _ _) (one_shiftLeft_lt _ (by omega)))
      (one_shiftLeft_lt _ (by omega))
  have e4 : ∀ r, u32 (rd_reg32 w r ||| 1 <<< (filter_enable_bits rx).2)
      = rd_reg32 w r ||| 1 <<< (filter_enable_bits rx).2 :=
    fun r => u32_rd_or _ _ _ (one_shiftLeft_lt _ (filter_bit_lt rx hrx))
  have e5 : ∀ r, u32 (rd_reg32 w r &&& not32 (0xf <<< (route_bits rx).2)
        ||| (tx - 4) <<< (route_bits rx).2)
      = rd_reg32 w r &&& not32 (0xf <<< (route_bits rx).2)
        ||| (tx - 4) <<< (route_bits rx).2 :=
    fun r => u32_or (Nat.lt_of_le_of_lt Nat.and_le_left (rd_reg32_lt _ _))
      (shiftLeft_lt _ _ 4 (by omega) (route_shift_le rx hrx))
  have e6 : ∀ r, u32 (rd_reg32 w r ||| 1 <<< (detect_enable_bits rx).2)
      = rd_reg32 w r ||| 1 <<< (detect_enable_bits rx).2 :=
    fun r => u32_rd_or _ _ _ (one_shiftLeft_lt _ (detect_bit_lt rx hrx))
  have e7 : u32 (active_tpctrl_val tx) = 0x0810E8DC ||| (tx - 4) <<< 17 := by
    interval_cases tx <;> decide
  have e8 : ∀ r, u32 (rd_reg32 w r ||| 0x80000000) = rd_reg32 w r ||| 0x80000000 :=
    fun r => u32_rd_or _ _ _ (by decide)
  simp only [tamper_ioctl, if_neg hopen', if_neg hv1, if_neg hv2, active_filt_step_eq _ _ _ hrx,
    active_route_step_eq, active_det_step_eq, hidx]
  refine ⟨trivial, ?_⟩
  rcases filter_reg_cases rx with hF | hF | hF <;>
    rcases route_reg_cases rx with hR | hR <;>
    rcases detect_reg_cases rx with hD | hD <;>
    simp only [hF, hR, hD, wr_reg32_trace, rd_wr_ne, rd_wr_same, ne_eq, reduceCtorEq,
      not_false_eq_true, e1, e2, e3, e4, e5, e6, e7, e8, List.append_assoc, List.singleton_append,
      List.cons_append, List.nil_append]

/-- Witness for C10 at `tx = 5`, `rx = 0` on the all-zero Open state. -/
theorem C10_configure_active_write_log_witness :
    ¬ Locked zeroWorld ∧ (5 ≤ 5 ∧ 5 ≤ 9) ∧ (0 : Nat) ≤ 9 ∧ (5 : Nat) ≠ 0 ∧
    (tamper_ioctl sampleEnv zeroWorld (.ACTIVE_EN (some ⟨5, 0⟩))).ret = 0 ∧
    writes (tamper_ioctl sampleEnv zeroWorld (.ACTIVE_EN (some ⟨5, 0⟩))).world.trace =
      [ (.lp_active_cfg 0, 0x12345678), (.lp_active_ctl, 0x10000), (.lp_active_clk_ctl, 0),
        (.lp_active_ctl, 0x10001), (.lp_tamper_filt_cfg, 0x800000), (.lp_active_rt_ctl1, 0x1),
        (.lp_tamper_det_cfg, 0x200), (.ex_tpctrl 0, 0x0812E8DC),
        (.hp_secvio_intcfg, 0x80000000) ] :=
  have h := C10_configure_active_write_log sampleEnv zeroWorld 5 0 (by decide) (by decide)
    (by decide) (by decide)
  ⟨by decide, by decide, by decide, by decide, h.1, by rw [h.2]; decide⟩

/-- C11: when the look-ups of init succeed and the calibration word read at
offset 0x490 is 0, init leaves `dtmr = 0x68420800`, for every prior value of
`dtmr` (and of every other register); that word is the four sub-fields of the
fallback constant `0x020081a1`: `0x1a1` in bits 22..31, `0x020` in bits 12..21,
`0x20` in bits 6..11 and `0x00` in bits 0..5. -/
theorem C11_trim_fallback_programs_dtmr (env : Env) (p : Platform) (w : World)
    (hp : p.probed = true) (htrim : rd_reg32 w (.ocotp 0x490) = 0) :
    rd_reg32 (snvs_tamper_init env p w).1 .ex_dtmr = 0x68420800 ∧
    (0x68420800 : Nat) = (0x1a1 <<< 22) ||| (0x020 <<< 12) ||| (0x20 <<< 6) ||| 0x00 ∧
    (0x020081a1 &&& 0x3ff = 0x1a1 ∧ (0x020081a1 >>> 10) &&& 0x3ff = 0x020 ∧
      (0x020081a1 >>> 20) &&& 0x3f = 0x20 ∧ (0x020081a1 >>> 26) &&& 0x3f = 0x00) := by
  refine ⟨?_, by decide, by decide⟩
  rw [init_rd_dtmr env p w hp, if_pos htrim]
  decide

/-- Witness for C11: init on the all-zero state (calibration word unprogrammed). -/
theorem C11_trim_fallback_programs_dtmr_witness :
    goodPlatform.probed = true ∧ rd_reg32 zeroWorld (.ocotp 0x490) = 0 ∧
    rd_reg32 (snvs_tamper_init sampleEnv goodPlatform zeroWorld).1 .ex_dtmr = 0x68420800 :=
  ⟨rfl, rfl, (C11_trim_fallback_programs_dtmr sampleEnv goodPlatform zeroWorld rfl rfl).1⟩

/-- C12: when the look-ups of init succeed, init writes to fuse-shadow storage
if and only if bit 20 or 21 of the word at 0x430 is set and bit 1 of the word
at 0x400 is clear; the single write then goes to offset 0x430 and carries the
old word with bits 20 and 21 cleared and every other bit preserved; in every
other fuse state init makes no write to fuse-shadow storage. -/
theorem C12_fuse_consuming_write_iff_assigned_unlocked (env : Env) (p : Platform) (w : World)
    (hp : p.probed = true) :
    (∃ evs, (snvs_tamper_init env p w).1.trace = w.trace ++ evs ∧
      fuse_writes evs =
        if ((w.regs (.ocotp 0x430)).testBit 20 = true ∨ (w.regs (.ocotp 0x430)).testBit 21 = true) ∧
            ¬ (w.regs (.ocotp 0x400)).testBit 1 = true
        then [(.ocotp 0x430, rd_reg32 w (.ocotp 0x430) &&& not32 0x300000)]
        else []) ∧
    (∀ i, (rd_reg32 w (.ocotp 0x430) &&& not32 0x300000).testBit i =
      ((rd_reg32 w (.ocotp 0x430)).testBit i && !decide (i = 20 ∨ i = 21))) := by
  have hm : ∀ j, (0x300000 : Nat).testBit j = (decide (20 ≤ j) && decide (j - 20 < 2)) :=
    fun j => testBit_mask 2 20 j
  have e : u32 (rd_reg32 w (.ocotp 0x430) &&& not32 0x300000)
      = rd_reg32 w (.ocotp 0x430) &&& not32 0x300000 := u32_and_left _ _ (rd_reg32_lt _ _)
  constructor
  · simp only [Platform.probed, Bool.and_eq_true] at hp
    obtain ⟨⟨⟨⟨⟨⟨h1, h2⟩, h3⟩, h4⟩, h5⟩, h6⟩, h7⟩ := hp
    simp only [← consume_guard_iff w]
    simp only [snvs_tamper_init, h1, h2, h3, h4, h5, h6, h7, Bool.not_true, Bool.false_eq_true,
      if_false]
    split_ifs <;> (try split) <;> simp_all [fuse_writes]
  · intro i
    rw [Nat.testBit_and, testBit_not32, hm, rd_reg32, testBit_u32]
    have h : (decide (20 ≤ i) && decide (i - 20 < 2)) = decide (i = 20 ∨ i = 21) := by
      rw [Bool.eq_iff_iff]
      simp only [Bool.and_eq_true, decide_eq_true_eq]
      omega
    rw [h]
    cases decide (i < 32) <;> cases (w.regs (.ocotp 0x430)).testBit i <;>
      cases decide (i = 20 ∨ i = 21) <;> rfl

/-- Witness for C12: on `assignedWorld` init makes exactly one fuse-shadow
write, of the old word `0x300400` with bits 20 and 21 cleared. -/
theorem C12_fuse_consuming_write_iff_assigned_unlocked_witness :
    goodPlatform.probed = true ∧
    ∃ evs, (snvs_tamper_init sampleEnv goodPlatform assignedWorld).1.trace
        = assignedWorld.trace ++ evs ∧
      fuse_writes evs = [(.ocotp 0x430, 0x400)] :=
  have h := C12_fuse_consuming_write_iff_assigned_unlocked sampleEnv goodPlatform assignedWorld rfl
  ⟨rfl, h.1.elim fun evs he => ⟨evs, he.1, he.2.trans (by decide)⟩⟩

/-- Counterexample to C13 as stated: from a state with bit 31 of
`hp.secvio_intcfg` set, `snvs_tamper_exit` unmaps the expanded region as its
first action, writes no register, and leaves bit 31 set. -/
theorem C13_counterexample :
    (rd_reg32 armedWorld .hp_secvio_intcfg).testBit 31 = true ∧
    (snvs_tamper_exit armedWorld).trace =
      [Event.iounmap .snvsex, Event.call "device_destroy", Event.call "class_destroy",
       Event.call "unregister_chrdev"] ∧
    writes (snvs_tamper_exit armedWorld).trace = [] ∧
    (rd_reg32 (snvs_tamper_exit armedWorld) .hp_secvio_intcfg).testBit 31 = true := by
  refine ⟨by decide, rfl, rfl, by decide⟩

/-- C13 (amended): driver detach unmaps the expanded register region as its
first action, then destroys the device and the class and unregisters the
character device; it writes no register, so every register, bit 31 of
`hp.secvio_intcfg` included, keeps the value it had before detach. -/
theorem C13_exit_unmaps_without_masking (w : World) :
    (snvs_tamper_exit w).trace = w.trace ++
      [Event.iounmap .snvsex, Event.call "device_destroy", Event.call "class_destroy",
       Event.call "unregister_chrdev"] ∧
    writes [Event.iounmap .snvsex, Event.call "device_destroy", Event.call "class_destroy",
       Event.call "unregister_chrdev"] = [] ∧
    (snvs_tamper_exit w).regs = w.regs ∧
    (rd_reg32 (snvs_tamper_exit w) .hp_secvio_intcfg).testBit 31
      = (rd_reg32 w .hp_secvio_intcfg).testBit 31 := by
  refine ⟨?_, rfl, rfl, rfl⟩
  simp [snvs_tamper_exit]

/-- C15: the end-to-end scenario on write-1-to-clear status registers, from the
all-zero state with both fuse globals zero.  `ConfigurePassive(rx = 3,
polarity = 1)` returns 0 and leaves bit 15 of `tamper_filt_cfg1`, bits 1 and 17
of `tamper_det_cfg2`, `tpctrl[3] = 0x0810E8DC` and bit 31 of `secvio_intcfg`;
`GetStatus` returns (0, 0); once the hardware sets detect-status bit 3,
`tamper_detect_handler` prints the tamper message and clears bit 31 of
`secvio_intcfg`, and `GetStatus` returns (0, 0x8); after `ClearStatus` with
(0, 0x8), `GetStatus` returns (0, 0) again. -/
theorem C15_end_to_end_passive_scenario :
    (tamper_ioctl w1cEnv zeroWorld (.PASSIVE_EN (some ⟨3, 1⟩))).ret = 0 ∧
    rd_reg32 (tamper_ioctl w1cEnv zeroWorld (.PASSIVE_EN (some ⟨3, 1⟩))).world
      .lp_tamper_filt_cfg1 = 1 <<< 15 ∧
    rd_reg32 (tamper_ioctl w1cEnv zeroWorld (.PASSIVE_EN (some ⟨3, 1⟩))).world
      .lp_tamper_det_cfg2 = (1 <<< 1) ||| (1 <<< 17) ∧
    rd_reg32 (tamper_ioctl w1cEnv zeroWorld (.PASSIVE_EN (some ⟨3, 1⟩))).world
      (.ex_tpctrl 3) = 0x0810E8DC ∧
    rd_reg32 (tamper_ioctl w1cEnv zeroWorld (.PASSIVE_EN (some ⟨3, 1⟩))).world
      .hp_secvio_intcfg = 1 <<< 31 ∧
    (tamper_ioctl w1cEnv (tamper_ioctl w1cEnv zeroWorld (.PASSIVE_EN (some ⟨3, 1⟩))).world
      (.GET_STATUS true)).out = some ⟨0, 0⟩ ∧
    messages (tamper_detect_handler w1cEnv
      (hw_assert (tamper_ioctl w1cEnv zeroWorld (.PASSIVE_EN (some ⟨3, 1⟩))).world
        .lp_tamper_det_status 0x8)).trace = ["tamper detected!\n"] ∧
    rd_reg32 (tamper_detect_handler w1cEnv
      (hw_assert (tamper_ioctl w1cEnv zeroWorld (.PASSIVE_EN (some ⟨3, 1⟩))).world
        .lp_tamper_det_status 0x8)) .hp_secvio_intcfg = 0 ∧
    (tamper_ioctl w1cEnv (tamper_detect_handler w1cEnv
      (hw_assert (tamper_ioctl w1cEnv zeroWorld (.PASSIVE_EN (some ⟨3, 1⟩))).world
        .lp_tamper_det_status 0x8)) (.GET_STATUS true)).out = some ⟨0, 0x8⟩ ∧
    (tamper_ioctl w1cEnv (tamper_detect_handler w1cEnv
      (hw_assert (tamper_ioctl w1cEnv zeroWorld (.PASSIVE_EN (some ⟨3, 1⟩))).world
        .lp_tamper_det_status 0x8)) (.CLEAR_STATUS (some ⟨0, 0x8⟩))).ret = 0 ∧
    (tamper_ioctl w1cEnv
      (tamper_ioctl w1cEnv (tamper_detect_handler w1cEnv
        (hw_assert (tamper_ioctl w1cEnv zeroWorld (.PASSIVE_EN (some ⟨3, 1⟩))).world
          .lp_tamper_det_status 0x8)) (.CLEAR_STATUS (some ⟨0, 0x8⟩))).world
      (.GET_STATUS true)).out = some ⟨0, 0⟩ := by
  refine ⟨rfl, by decide, by decide, by decide, by decide, by decide, by decide, by decide,
    by decide, rfl, by decide⟩

/-- Counterexample to C16 as stated: for `tx = 6` the trigger word of
`ConfigureActive(6, 0)` and that of `ConfigurePassive(0, 1)` differ in bit 18,
outside `0x00030000`. -/
theorem C16_counterexample :
    rd_reg32 (tamper_ioctl sampleEnv zeroWorld (.ACTIVE_EN (some ⟨6, 0⟩))).world (.ex_tpctrl 0)
      = 0x0814E8DC ∧
    rd_reg32 (tamper_ioctl sampleEnv zeroWorld (.PASSIVE_EN (some ⟨0, 1⟩))).world (.ex_tpctrl 0)
      = 0x0810E8DC ∧
    (rd_reg32 (tamper_ioctl sampleEnv zeroWorld (.ACTIVE_EN (some ⟨6, 0⟩))).world (.ex_tpctrl 0)
      ^^^ rd_reg32 (tamper_ioctl sampleEnv zeroWorld (.PASSIVE_EN (some ⟨0, 1⟩))).world
        (.ex_tpctrl 0)) &&& not32 0x00030000 = 1 <<< 18 := by
  refine ⟨by decide, by decide, by decide⟩

/-- C16 (amended): for every `tx` in 5..9 and `rx` in 0..9 (`tx != rx`), the
trigger word left by `ConfigureActive(tx, rx)` and the one left by
`ConfigurePassive(rx, polarity)` differ only in bits 16..19: their XOR is
`(tx-4) << 17`, with bit 16 added when `polarity` is zero, a subset of
`0x000F0000`; it is a subset of `0x00030000` exactly when `tx = 5`. -/
theorem C16_trigger_words_differ_in_bits_16_to_19 (env env' : Env) (w w' : World)
    (tx rx pol : Nat) (hopen : ¬ Locked w) (hopen' : ¬ Locked w')
    (htx : 5 ≤ tx ∧ tx ≤ 9) (hrx : rx ≤ 9) (hne : tx ≠ rx) :
    (rd_reg32 (tamper_ioctl env w (.ACTIVE_EN (some ⟨tx, rx⟩))).world (.ex_tpctrl rx)
      ^^^ rd_reg32 (tamper_ioctl env' w' (.PASSIVE_EN (some ⟨rx, pol⟩))).world (.ex_tpctrl rx))
      = ((tx - 4) <<< 17) ^^^ (if pol ≠ 0 then 0 else 0x10000) ∧
    (rd_reg32 (tamper_ioctl env w (.ACTIVE_EN (some ⟨tx, rx⟩))).world (.ex_tpctrl rx)
      ^^^ rd_reg32 (tamper_ioctl env' w' (.PASSIVE_EN (some ⟨rx, pol⟩))).world (.ex_tpctrl rx))
      &&& not32 0x000F0000 = 0 ∧
    ((rd_reg32 (tamper_ioctl env w (.ACTIVE_EN (some ⟨tx, rx⟩))).world (.ex_tpctrl rx)
      ^^^ rd_reg32 (tamper_ioctl env' w' (.PASSIVE_EN (some ⟨rx, pol⟩))).world (.ex_tpctrl rx))
      &&& not32 0x00030000 = 0 ↔ tx = 5) := by
  rw [active_en_rd_tpctrl env w tx rx hopen htx hrx hne,
    passive_en_rd_tpctrl env' w' rx pol hopen' hrx]
  obtain ⟨h5, h9⟩ := htx
  by_cases hp : pol ≠ 0
  · simp only [if_pos hp]
    interval_cases tx <;> decide
  · simp only [if_neg hp]
    interval_cases tx <;> decide

/-- Witness for C16 (amended) at `tx = 9`, `rx = 4`, `polarity = 0`. -/
theorem C16_trigger_words_differ_in_bits_16_to_19_witness :
    ¬ Locked zeroWorld ∧ (5 ≤ 9 ∧ 9 ≤ 9) ∧ (4 : Nat) ≤ 9 ∧ (9 : Nat) ≠ 4 ∧
    (rd_reg32 (tamper_ioctl sampleEnv zeroWorld (.ACTIVE_EN (some ⟨9, 4⟩))).world (.ex_tpctrl 4)
      ^^^ rd_reg32 (tamper_ioctl sampleEnv zeroWorld (.PASSIVE_EN (some ⟨4, 0⟩))).world
        (.ex_tpctrl 4)) &&& not32 0x000F0000 = 0 :=
  have h := C16_trigger_words_differ_in_bits_16_to_19 sampleEnv sampleEnv zeroWorld zeroWorld
    9 4 0 (by decide) (by decide) (by decide) (by decide) (by decide)
  ⟨by decide, by decide, by decide, by decide, h.2.1⟩

/-- Counterexample to C17 as stated: on the all-zero state `SetClockDetect(false)`
writes `dmcr` and then `lp.tamper_det_cfg`, the same relative order in which
`SetClockDetect(true)` writes them; the disable order is not the reverse of the
enable order, neither as a whole nor on the two registers both write. -/
theorem C17_counterexample :
    (writes (tamper_ioctl sampleEnv zeroWorld (TamperClass.Clock.cmd true)).world.trace).map
      Prod.fst = [.lp_status, .ex_dmcr, .lp_tamper_det_cfg, .hp_secvio_intcfg] ∧
    (writes (tamper_ioctl sampleEnv zeroWorld (TamperClass.Clock.cmd false)).world.trace).map
      Prod.fst = [.ex_dmcr, .lp_tamper_det_cfg] ∧
    (writes (tamper_ioctl sampleEnv zeroWorld (TamperClass.Clock.cmd false)).world.trace).map
      Prod.fst ≠
      ((writes (tamper_ioctl sampleEnv zeroWorld (TamperClass.Clock.cmd true)).world.trace).map
        Prod.fst).reverse ∧
    (writes (tamper_ioctl sampleEnv zeroWorld (TamperClass.Clock.cmd false)).world.trace).map
      Prod.fst ≠
      (((writes (tamper_ioctl sampleEnv zeroWorld (TamperClass.Clock.cmd true)).world.trace).map
        Prod.fst).filter (fun r => r = .ex_dmcr ∨ r = .lp_tamper_det_cfg)).reverse := by
  refine ⟨by decide, by decide, by decide, by decide⟩

/-- C17 (amended): for each class, `set_class_enable(c, false)` returns 0 and
issues exactly: write `dmcr` (class detect-mode bit cleared), the 1 ms settle
delay, write `lp.tamper_det_cfg` (class bit cleared).  The two registers are
written in the same relative order as by `set_class_enable(c, true)`, which
writes `lp.status`, `dmcr`, (delay), `lp.tamper_det_cfg`, `hp.secvio_intcfg`;
the disable sequence is not the inverse, and the delay is kept between the
`dmcr` write and the `lp.tamper_det_cfg` write. -/
theorem C17_disable_keeps_enable_order (env : Env) (w : World) (c : TamperClass) :
    (tamper_ioctl env w (c.cmd false)).ret = 0 ∧
    (tamper_ioctl env w (c.cmd false)).world.trace = w.trace ++
      [ Event.write .ex_dmcr (rd_reg32 w .ex_dmcr &&& not32 c.dbit),
        Event.delay 1000,
        Event.write .lp_tamper_det_cfg (rd_reg32 w .lp_tamper_det_cfg &&& not32 c.sbit) ] ∧
    (∃ evs, (tamper_ioctl env w (c.cmd true)).world.trace = w.trace ++ evs ∧
      (writes evs).map Prod.fst
        = [.lp_status, .ex_dmcr, .lp_tamper_det_cfg, .hp_secvio_intcfg] ∧
      evs.map (fun e => decide (e = Event.delay 1000)) = [false, false, true, false, false]) := by
  refine ⟨by cases c <;> rfl, class_disable_trace env w c, _, class_enable_trace env w c, ?_, ?_⟩
  · simp [writes]
  · simp

/-- C18: for each class, with (S, D) = Clock (0x10, 0x4), Temperature
(0x20, 0x1), Voltage (0x40, 0x2), `set_class_enable(c, true)` returns 0 and
performs exactly, in order: write `lp.status := old | S`; write
`dmcr := old | D`; 1 ms (1000 us) delay; write `lp.tamper_det_cfg := old | S`;
write `hp.secvio_intcfg := old | 0x80000000`.  On plain-storage hardware every
bit of every register afterwards is the bit it held before, except that the
class bit is set in `lp.status` and `lp.tamper_det_cfg`, the detect-mode bit in
`dmcr` and bit 31 in `hp.secvio_intcfg`. -/
theorem C18_class_enable_sequence (env : Env) (seed : Nat) (w : World) (c : TamperClass) :
    (TamperClass.Clock.sbit = 0x10 ∧ TamperClass.Clock.dbit = 0x4 ∧
      TamperClass.Temperature.sbit = 0x20 ∧ TamperClass.Temperature.dbit = 0x1 ∧
      TamperClass.Voltage.sbit = 0x40 ∧ TamperClass.Voltage.dbit = 0x2) ∧
    (tamper_ioctl env w (c.cmd true)).ret = 0 ∧
    (tamper_ioctl env w (c.cmd true)).world.trace = w.trace ++
      [ Event.write .lp_status (rd_reg32 w .lp_status ||| c.sbit),
        Event.write .ex_dmcr (rd_reg32 w .ex_dmcr ||| c.dbit),
        Event.delay 1000,
        Event.write .lp_tamper_det_cfg (rd_reg32 w .lp_tamper_det_cfg ||| c.sbit),
        Event.write .hp_secvio_intcfg (rd_reg32 w .hp_secvio_intcfg ||| 0x80000000) ] ∧
    (∀ r i, (rd_reg32 (tamper_ioctl ⟨.plain, seed⟩ w (c.cmd true)).world r).testBit i =
      ((rd_reg32 w r).testBit i ||
        (decide (r = .lp_status ∨ r = .lp_tamper_det_cfg) && c.sbit.testBit i) ||
        (decide (r = .ex_dmcr) && c.dbit.testBit i) ||
        (decide (r = .hp_secvio_intcfg) && decide (i = 31)))) := by
  refine ⟨⟨rfl, rfl, rfl, rfl, rfl, rfl⟩, by cases c <;> rfl, class_enable_trace env w c, ?_⟩
  intro r i
  have h31 : (0x80000000 : Nat).testBit i = decide (31 = i) := @Nat.testBit_two_pow 31 i
  rw [class_enable_rd_plain]
  split_ifs with h1 h2 h3 h4
  · subst h1
    simp [Nat.testBit_or]
  · subst h2
    simp [Nat.testBit_or]
  · subst h3
    simp [Nat.testBit_or]
  · subst h4
    simp [Nat.testBit_or, h31, eq_comm]
  · simp [h1, h2, h3, h4]

/-- C19: for every accepted configuration with receive slot `rx` (an Open state,
`rx` in 0..9, and for the active command `tx` in 5..9, `tx != rx`), every bit of
each of the three filter registers after the command is the bit it held before,
except the one bit of `filter_enable_bits rx`, which is set: bit 23 of
`tamper_filt_cfg` for `rx = 0`, bit 31 of `tamper_filt_cfg` for `rx = 1`, bit
`(rx-1)*8 - 1` of `tamper_filt_cfg1` for `rx` in 2..5, bit `(rx-5)*8 - 1` of
`tamper_filt_cfg2` for `rx` in 6..9; `ConfigureActive` and `ConfigurePassive`
set the same bit for the same `rx`. -/
theorem C19_filter_step_sets_exactly_one_bit (env : Env) (w : World) (tx rx pol : Nat) (R : Reg)
    (hopen : ¬ Locked w) (htx : 5 ≤ tx ∧ tx ≤ 9) (hrx : rx ≤ 9) (hne : tx ≠ rx)
    (hR : R = .lp_tamper_filt_cfg ∨ R = .lp_tamper_filt_cfg1 ∨ R = .lp_tamper_filt_cfg2) :
    (filter_enable_bits rx =
      if rx = 0 then (.lp_tamper_filt_cfg, 23)
      else if rx = 1 then (.lp_tamper_filt_cfg, 31)
      else if rx ≤ 5 then (.lp_tamper_filt_cfg1, (rx - 1) * 8 - 1)
      else (.lp_tamper_filt_cfg2, (rx - 5) * 8 - 1)) ∧
    (∀ i, (rd_reg32 (tamper_ioctl env w (.ACTIVE_EN (some ⟨tx, rx⟩))).world R).testBit i =
      ((rd_reg32 w R).testBit i ||
        decide (R = (filter_enable_bits rx).1 ∧ i = (filter_enable_bits rx).2))) ∧
    (∀ i, (rd_reg32 (tamper_ioctl env w (.PASSIVE_EN (some ⟨rx, pol⟩))).world R).testBit i =
      ((rd_reg32 w R).testBit i ||
        decide (R = (filter_enable_bits rx).1 ∧ i = (filter_enable_bits rx).2))) ∧
    rd_reg32 (tamper_ioctl env w (.ACTIVE_EN (some ⟨tx, rx⟩))).world R
      = rd_reg32 (tamper_ioctl env w (.PASSIVE_EN (some ⟨rx, pol⟩))).world R := by
  have hbit : ∀ i, (if R = (filter_enable_bits rx).1
        then rd_reg32 w R ||| 1 <<< (filter_enable_bits rx).2 else rd_reg32 w R).testBit i =
      ((rd_reg32 w R).testBit i ||
        decide (R = (filter_enable_bits rx).1 ∧ i = (filter_enable_bits rx).2)) := by
    intro i
    split_ifs with h
    · rw [Nat.testBit_or, Nat.one_shiftLeft, Nat.testBit_two_pow]
      simp [h, eq_comm]
    · simp [h]
  refine ⟨rfl, ?_, ?_, ?_⟩
  · intro i
    rw [active_en_rd_filter env w tx rx R hopen htx hrx hne hR, hbit]
  · intro i
    rw [passive_en_rd_filter env w rx pol R hopen hrx hR, hbit]
  · rw [active_en_rd_filter env w tx rx R hopen htx hrx hne hR,
      passive_en_rd_filter env w rx pol R hopen hrx hR]

/-- Witness for C19 at `tx = 7`, `rx = 5` (bit 31 of `tamper_filt_cfg1`). -/
theorem C19_filter_step_sets_exactly_one_bit_witness :
    ¬ Locked zeroWorld ∧ (5 ≤ 7 ∧ 7 ≤ 9) ∧ (5 : Nat) ≤ 9 ∧ (7 : Nat) ≠ 5 ∧
    (rd_reg32 (tamper_ioctl sampleEnv zeroWorld (.ACTIVE_EN (some ⟨7, 5⟩))).world
      .lp_tamper_filt_cfg1).testBit 31 =
      ((rd_reg32 zeroWorld .lp_tamper_filt_cfg1).testBit 31 ||
        decide (Reg.lp_tamper_filt_cfg1 = (filter_enable_bits 5).1 ∧
          31 = (filter_enable_bits 5).2)) :=
  have h := C19_filter_step_sets_exactly_one_bit sampleEnv zeroWorld 7 5 1 .lp_tamper_filt_cfg1
    (by decide) (by decide) (by decide) (by decide) (Or.inr (Or.inl rfl))
  ⟨by decide, by decide, by decide, by decide, h.2.1 31⟩

/-- C20: for every accepted `ConfigureActive(tx, rx)`, the routing step is a
single write, to `active_rt_ctl1` when `rx < 8` and to `active_rt_ctl2` when
`rx` is 8 or 9; after the command the 4-bit field at the offset of `rx` in that
register (`4*rx`, respectively `4*(rx-8)`) equals `tx-4` whatever it held
before, and every other 4-bit field of both routing registers has the value it
had before. -/
theorem C20_route_step_sets_only_field_of_rx (env : Env) (w w0 : World) (tx rx j : Nat)
    (R : Reg) (hopen : ¬ Locked w) (htx : 5 ≤ tx ∧ tx ≤ 9) (hrx : rx ≤ 9) (hne : tx ≠ rx)
    (hR : R = .lp_active_rt_ctl1 ∨ R = .lp_active_rt_ctl2) :
    (route_bits rx =
      if rx < 8 then (.lp_active_rt_ctl1, rx * 4) else (.lp_active_rt_ctl2, (rx - 8) * 4)) ∧
    (active_route_step env w0 tx rx).trace = w0.trace ++
      [Event.write (route_bits rx).1
        (rd_reg32 w0 (route_bits rx).1 &&& not32 (0xf <<< (route_bits rx).2)
          ||| (tx - 4) <<< (route_bits rx).2)] ∧
    (rd_reg32 (tamper_ioctl env w (.ACTIVE_EN (some ⟨tx, rx⟩))).world (route_bits rx).1
        >>> (route_bits rx).2) &&& 0xf = tx - 4 ∧
    (¬ (R = (route_bits rx).1 ∧ 4 * j = (route_bits rx).2) →
      (rd_reg32 (tamper_ioctl env w (.ACTIVE_EN (some ⟨tx, rx⟩))).world R >>> (4 * j)) &&& 0xf
        = (rd_reg32 w R >>> (4 * j)) &&& 0xf) := by
  have hs : (route_bits rx).2 + 4 ≤ 32 := route_shift_le rx hrx
  have hs4 : (route_bits rx).2 % 4 = 0 := by
    unfold route_bits
    split_ifs <;> simp only <;> omega
  have ht : tx - 4 < 16 := by omega
  have e5 : u32 (rd_reg32 w0 (route_bits rx).1 &&& not32 (0xf <<< (route_bits rx).2)
        ||| (tx - 4) <<< (route_bits rx).2)
      = rd_reg32 w0 (route_bits rx).1 &&& not32 (0xf <<< (route_bits rx).2)
        ||| (tx - 4) <<< (route_bits rx).2 :=
    u32_or (Nat.lt_of_le_of_lt Nat.and_le_left (rd_reg32_lt _ _)) (shiftLeft_lt _ _ 4 ht hs)
  refine ⟨rfl, ?_, ?_, ?_⟩
  · rw [active_route_step_eq, wr_reg32_trace, e5]
  · rw [active_en_rd_route env w tx rx _ hopen htx hrx hne (route_reg_cases rx), if_pos rfl]
    exact route_field _ _ _ ht hs
  · intro hnot
    rw [active_en_rd_route env w tx rx R hopen htx hrx hne hR]
    split_ifs with h
    · exact route_field_other _ _ _ _ ht hs4 (fun h4 => hnot ⟨h, h4⟩)
    · rfl

/-- Witness for C20 at `tx = 6`, `rx = 9` (field 1 of `active_rt_ctl2`),
looking at field 0 of the same register. -/
theorem C20_route_step_sets_only_field_of_rx_witness :
    ¬ Locked zeroWorld ∧ (5 ≤ 6 ∧ 6 ≤ 9) ∧ (9 : Nat) ≤ 9 ∧ (6 : Nat) ≠ 9 ∧
    (rd_reg32 (tamper_ioctl sampleEnv zeroWorld (.ACTIVE_EN (some ⟨6, 9⟩))).world
        (route_bits 9).1 >>> (route_bits 9).2) &&& 0xf = 6 - 4 ∧
    (rd_reg32 (tamper_ioctl sampleEnv zeroWorld (.ACTIVE_EN (some ⟨6, 9⟩))).world
        .lp_active_rt_ctl2 >>> (4 * 0)) &&& 0xf
      = (rd_reg32 zeroWorld .lp_active_rt_ctl2 >>> (4 * 0)) &&& 0xf :=
  have h := C20_route_step_sets_only_field_of_rx sampleEnv zeroWorld zeroWorld 6 9 0
    .lp_active_rt_ctl2 (by decide) (by decide) (by decide) (by decide) (Or.inr rfl)
  ⟨by decide, by decide, by decide, by decide, h.2.2.1, h.2.2.2 (by decide)⟩

/-- C21: after an accepted configuration with receive slot `rx`, every bit of
the two detect-config registers is the bit it held before, except that the
detect bit of `rx` is set: bit 9 (`rx = 0`) or bit 10 (`rx = 1`) of
`lp.tamper_det_cfg`, or bit `rx-2` of `lp.tamper_det_cfg2` for `rx` in 2..9,
the same for `ConfigureActive` and `ConfigurePassive`; `ConfigurePassive` with
non-zero polarity sets in addition bit 11 (`rx = 0`) or bit 12 (`rx = 1`) of
`lp.tamper_det_cfg`, or bit `rx-2+16` of `lp.tamper_det_cfg2` for `rx >= 2`,
and with polarity zero no further bit; over `rx` in 0..9 all these (register,
bit) positions are pairwise distinct. -/
theorem C21_detect_and_polarity_bits (env : Env) (w : World) (tx rx rx' pol : Nat) (R : Reg)
    (hopen : ¬ Locked w) (htx : 5 ≤ tx ∧ tx ≤ 9) (hrx : rx ≤ 9) (hrx' : rx' ≤ 9) (hne : tx ≠ rx)
    (hR : R = .lp_tamper_det_cfg ∨ R = .lp_tamper_det_cfg2) :
    (detect_enable_bits rx =
      if rx = 0 then (.lp_tamper_det_cfg, 9) else if rx = 1 then (.lp_tamper_det_cfg, 10)
      else (.lp_tamper_det_cfg2, rx - 2)) ∧
    (polarity_bits rx =
      if rx = 0 then (.lp_tamper_det_cfg, 11) else if rx = 1 then (.lp_tamper_det_cfg, 12)
      else (.lp_tamper_det_cfg2, rx - 2 + 16)) ∧
    (∀ i, (rd_reg32 (tamper_ioctl env w (.ACTIVE_EN (some ⟨tx, rx⟩))).world R).testBit i =
      ((rd_reg32 w R).testBit i ||
        decide (R = (detect_enable_bits rx).1 ∧ i = (detect_enable_bits rx).2))) ∧
    (∀ i, (rd_reg32 (tamper_ioctl env w (.PASSIVE_EN (some ⟨rx, pol⟩))).world R).testBit i =
      ((rd_reg32 w R).testBit i ||
        (decide (pol ≠ 0) && decide (R = (polarity_bits rx).1 ∧ i = (polarity_bits rx).2)) ||
        decide (R = (detect_enable_bits rx).1 ∧ i = (detect_enable_bits rx).2))) ∧
    (detect_enable_bits rx = detect_enable_bits rx' → rx = rx') ∧
    (polarity_bits rx = polarity_bits rx' → rx = rx') ∧
    detect_enable_bits rx ≠ polarity_bits rx' := by
  refine ⟨rfl, rfl, ?_, ?_, ?_, ?_, ?_⟩
  · intro i
    rw [active_en_rd_det env w tx rx R hopen htx hrx hne hR, testBit_or_bit_at]
  · intro i
    rw [passive_en_rd_det env w rx pol R hopen hrx hR, testBit_or_bit_at]
    by_cases hp : pol ≠ 0
    · rw [if_pos hp, testBit_or_bit_at]
      simp [hp]
    · rw [if_neg hp]
      simp [hp]
  · interval_cases rx <;> interval_cases rx' <;> decide
  · interval_cases rx <;> interval_cases rx' <;> decide
  · interval_cases rx <;> interval_cases rx' <;> decide

/-- Witness for C21 at `tx = 5`, `rx = 9`, non-zero polarity: bit 23 of
`lp.tamper_det_cfg2` is the polarity bit of slot 9. -/
theorem C21_detect_and_polarity_bits_witness :
    ¬ Locked zeroWorld ∧ (5 ≤ 5 ∧ 5 ≤ 9) ∧ (9 : Nat) ≤ 9 ∧ (0 : Nat) ≤ 9 ∧ (5 : Nat) ≠ 9 ∧
    (rd_reg32 (tamper_ioctl sampleEnv zeroWorld (.PASSIVE_EN (some ⟨9, 1⟩))).world
      .lp_tamper_det_cfg2).testBit 23 =
      ((rd_reg32 zeroWorld .lp_tamper_det_cfg2).testBit 23 ||
        (decide ((1 : Nat) ≠ 0) &&
          decide (Reg.lp_tamper_det_cfg2 = (polarity_bits 9).1 ∧ 23 = (polarity_bits 9).2)) ||
        decide (Reg.lp_tamper_det_cfg2 = (detect_enable_bits 9).1 ∧
          23 = (detect_enable_bits 9).2)) ∧
    detect_enable_bits 9 ≠ polarity_bits 0 :=
  have h := C21_detect_and_polarity_bits sampleEnv zeroWorld 5 9 0 1 .lp_tamper_det_cfg2
    (by decide) (by decide) (by decide) (by decide) (by decide) (Or.inr rfl)
  ⟨by decide, by decide, by decide, by decide, by decide, h.2.2.2.1 23, h.2.2.2.2.2.2⟩

/-- C22: when the look-ups of init succeed and the calibration word `trim` read
at offset 0x490 is non-zero, then for every prior value of `dtmr`: init writes
`dtmr` four times, each write being the previous word with one slice
(`0x3ff000`, `0x3f`, `0xfc0`, `0xffc00000`) replaced by a field of `trim` and
every bit outside that slice kept; the four slices are pairwise disjoint and
together are `0xffffffff`; and `dtmr` ends as
`((trim & 0x3ff) << 22) | (((trim >> 10) & 0x3ff) << 12) |
(((trim >> 20) & 0x3f) << 6) | ((trim >> 26) & 0x3f)`, in which no bit of the
prior value appears. -/
theorem C22_trim_slices_cover_dtmr (env : Env) (p : Platform) (w : World)
    (hp : p.probed = true) (htrim : rd_reg32 w (.ocotp 0x490) ≠ 0) :
    rd_reg32 (snvs_tamper_init env p w).1 .ex_dtmr =
      ((rd_reg32 w (.ocotp 0x490) &&& 0x3ff) <<< 22) |||
      (((rd_reg32 w (.ocotp 0x490) >>> 10) &&& 0x3ff) <<< 12) |||
      (((rd_reg32 w (.ocotp 0x490) >>> 20) &&& 0x3f) <<< 6) |||
      ((rd_reg32 w (.ocotp 0x490) >>> 26) &&& 0x3f) ∧
    (∃ evs s1 s2 s3 s4, (snvs_tamper_init env p w).1.trace = w.trace ++ evs ∧
      reg_writes .ex_dtmr evs = [s1, s2, s3, s4] ∧
      s1 = dtmr_step (rd_reg32 w .ex_dtmr) 0x3ff000
        (((rd_reg32 w (.ocotp 0x490) >>> 10) &&& 0x3ff) <<< 12) ∧
      s2 = dtmr_step s1 0x3f ((rd_reg32 w (.ocotp 0x490) >>> 26) &&& 0x3f) ∧
      s3 = dtmr_step s2 0xfc0 (((rd_reg32 w (.ocotp 0x490) >>> 20) &&& 0x3f) <<< 6) ∧
      s4 = dtmr_step s3 0xffc00000 ((rd_reg32 w (.ocotp 0x490) &&& 0x3ff) <<< 22) ∧
      (∀ i, (0x3ff000 : Nat).testBit i = false →
        s1.testBit i = (rd_reg32 w .ex_dtmr).testBit i) ∧
      (∀ i, (0x3f : Nat).testBit i = false → s2.testBit i = s1.testBit i) ∧
      (∀ i, (0xfc0 : Nat).testBit i = false → s3.testBit i = s2.testBit i) ∧
      (∀ i, (0xffc00000 : Nat).testBit i = false → s4.testBit i = s3.testBit i)) ∧
    ((0x3ff000 : Nat) &&& 0x3f = 0 ∧ (0x3ff000 : Nat) &&& 0xfc0 = 0 ∧
      (0x3ff000 : Nat) &&& 0xffc00000 = 0 ∧ (0x3f : Nat) &&& 0xfc0 = 0 ∧
      (0x3f : Nat) &&& 0xffc00000 = 0 ∧ (0xfc0 : Nat) &&& 0xffc00000 = 0 ∧
      (0x3ff000 : Nat) ||| 0x3f ||| 0xfc0 ||| 0xffc00000 = 0xffffffff) := by
  obtain ⟨l1, l2, l3, l4⟩ := trim_fields_lt (rd_reg32 w (.ocotp 0x490))
  obtain ⟨i1, i2, i3, i4⟩ := trim_fields_in_slices (rd_reg32 w (.ocotp 0x490))
  have b0 := rd_reg32_lt w .ex_dtmr
  have b1 := dtmr_step_lt _ 0x3ff000 _ b0 l1
  have b2 := dtmr_step_lt _ 0x3f _ b1 l2
  have b3 := dtmr_step_lt _ 0xfc0 _ b2 l3
  refine ⟨?_, ?_, by decide⟩
  · rw [init_rd_dtmr env p w hp, if_neg htrim]
    rfl
  · obtain ⟨evs, ht, hw⟩ := init_dtmr_writes env p w hp htrim
    exact ⟨evs, _, _, _, _, ht, hw, rfl, rfl, rfl, rfl,
      fun i hi => dtmr_step_frame _ _ _ i b0 i1 hi,
      fun i hi => dtmr_step_frame _ _ _ i b1 i2 hi,
      fun i hi => dtmr_step_frame _ _ _ i b2 i3 hi,
      fun i hi => dtmr_step_frame _ _ _ i b3 i4 hi⟩

/-- Witness for C22: a state whose calibration word is `0xffffffff`. -/
theorem C22_trim_slices_cover_dtmr_witness :
    goodPlatform.probed = true ∧ rd_reg32 trimmedWorld (.ocotp 0x490) ≠ 0 ∧
    rd_reg32 (snvs_tamper_init sampleEnv goodPlatform trimmedWorld).1 .ex_dtmr = 0xffffffff :=
  ⟨rfl, by decide,
    (C22_trim_slices_cover_dtmr sampleEnv goodPlatform trimmedWorld rfl (by decide)).1.trans
      (by decide)⟩

/-- C23: when the policy is Open and `rx <= 9`, `ConfigurePassive(rx, polarity)`
returns 0 and appends exactly these register writes, in this order: the filter
register of `rx` (its bit ORed in); for non-zero polarity the detect-config
register of `rx` (its polarity bit ORed in); the detect-config register of `rx`
(its detect bit ORed in); `tpctrl[rx]` (`0x0810E8DC` for non-zero polarity,
`0x0811E8DC` for zero polarity); `hp.secvio_intcfg` (bit 31 ORed in).  The seed
registers, `active_ctl`, `active_clk_ctl`, `active_rt_ctl1` and
`active_rt_ctl2` keep their values, so the routing field that an earlier
accepted `ConfigureActive(tx, rx0)` left for `rx0` is still `tx - 4`. -/
theorem C23_configure_passive_writes_and_frame (env : Env) (w : World) (rx pol tx rx0 i : Nat)
    (hopen : ¬ Locked w) (hrx : rx ≤ 9)
    (htx : 5 ≤ tx ∧ tx ≤ 9) (hrx0 : rx0 ≤ 9) (hne : tx ≠ rx0) :
    (tamper_ioctl env w (.PASSIVE_EN (some ⟨rx, pol⟩))).ret = 0 ∧
    (tamper_ioctl env w (.PASSIVE_EN (some ⟨rx, pol⟩))).world.trace = w.trace ++
      (Event.write (filter_enable_bits rx).1
          (rd_reg32 w (filter_enable_bits rx).1 ||| 1 <<< (filter_enable_bits rx).2) ::
        ((if pol ≠ 0 then
            [Event.write (polarity_bits rx).1
              (rd_reg32 w (polarity_bits rx).1 ||| 1 <<< (polarity_bits rx).2)]
          else []) ++
        [ Event.write (detect_enable_bits rx).1
            ((if pol ≠ 0 then
                rd_reg32 w (detect_enable_bits rx).1 ||| 1 <<< (polarity_bits rx).2
              else rd_reg32 w (detect_enable_bits rx).1) ||| 1 <<< (detect_enable_bits rx).2),
          Event.write (.ex_tpctrl rx) (if pol ≠ 0 then 0x0810E8DC else 0x0811E8DC),
          Event.write .hp_secvio_intcfg (rd_reg32 w .hp_secvio_intcfg ||| 0x80000000) ])) ∧
    (polarity_bits rx).1 = (detect_enable_bits rx).1 ∧
    rd_reg32 (tamper_ioctl env w (.PASSIVE_EN (some ⟨rx, pol⟩))).world (.lp_active_cfg i)
      = rd_reg32 w (.lp_active_cfg i) ∧
    rd_reg32 (tamper_ioctl env w (.PASSIVE_EN (some ⟨rx, pol⟩))).world .lp_active_ctl
      = rd_reg32 w .lp_active_ctl ∧
    rd_reg32 (tamper_ioctl env w (.PASSIVE_EN (some ⟨rx, pol⟩))).world .lp_active_clk_ctl
      = rd_reg32 w .lp_active_clk_ctl ∧
    rd_reg32 (tamper_ioctl env w (.PASSIVE_EN (some ⟨rx, pol⟩))).world .lp_active_rt_ctl1
      = rd_reg32 w .lp_active_rt_ctl1 ∧
    rd_reg32 (tamper_ioctl env w (.PASSIVE_EN (some ⟨rx, pol⟩))).world .lp_active_rt_ctl2
      = rd_reg32 w .lp_active_rt_ctl2 ∧
    (rd_reg32 (tamper_ioctl env
        (tamper_ioctl env w (.ACTIVE_EN (some ⟨tx, rx0⟩))).world
        (.PASSIVE_EN (some ⟨rx, pol⟩))).world (route_bits rx0).1
      >>> (route_bits rx0).2) &&& 0xf = tx - 4 := by
  have hopen' : ¬ (w.tamper_pin ≠ 0 ∧ w.tester_lock ≠ 0) := hopen
  have hv : ¬ rx > 9 := by omega
  have hopen1 : ¬ Locked (tamper_ioctl env w (.ACTIVE_EN (some ⟨tx, rx0⟩))).world :=
    fun h => hopen ((tamper_ioctl_locked_iff env w _).mp h)
  refine ⟨?_, passive_en_trace env w rx pol hopen hrx, polarity_reg_eq rx, ?_, ?_, ?_, ?_, ?_, ?_⟩
  · simp only [tamper_ioctl, if_neg hopen', if_neg hv]
  · rw [passive_en_rd env w rx pol _ hopen hrx]; rfl
  · rw [passive_en_rd env w rx pol _ hopen hrx]; rfl
  · rw [passive_en_rd env w rx pol _ hopen hrx]; rfl
  · rw [passive_en_rd env w rx pol _ hopen hrx]; rfl
  · rw [passive_en_rd env w rx pol _ hopen hrx]; rfl
  · have hpass : rd_reg32 (tamper_ioctl env
          (tamper_ioctl env w (.ACTIVE_EN (some ⟨tx, rx0⟩))).world
          (.PASSIVE_EN (some ⟨rx, pol⟩))).world (route_bits rx0).1
        = rd_reg32 (tamper_ioctl env w (.ACTIVE_EN (some ⟨tx, rx0⟩))).world (route_bits rx0).1 := by
      rw [passive_en_rd env _ rx pol _ hopen1 hrx]
      rcases route_reg_cases rx0 with h | h <;> rw [h] <;> rfl
    rw [hpass, active_en_rd_route env w tx rx0 _ hopen htx hrx0 hne (route_reg_cases rx0),
      if_pos rfl]
    exact route_field _ _ _ (by omega) (route_shift_le rx0 hrx0)

/-- Witness for C23 at `rx = 3`, non-zero polarity, after `ConfigureActive(6, 3)`. -/
theorem C23_configure_passive_writes_and_frame_witness :
    ¬ Locked zeroWorld ∧ (3 : Nat) ≤ 9 ∧ (5 ≤ 6 ∧ 6 ≤ 9) ∧ (6 : Nat) ≠ 3 ∧
    (tamper_ioctl sampleEnv zeroWorld (.PASSIVE_EN (some ⟨3, 1⟩))).ret = 0 ∧
    writes (tamper_ioctl sampleEnv zeroWorld (.PASSIVE_EN (some ⟨3, 1⟩))).world.trace =
      [ (.lp_tamper_filt_cfg1, 0x8000), (.lp_tamper_det_cfg2, 0x20000),
        (.lp_tamper_det_cfg2, 0x20002), (.ex_tpctrl 3, 0x0810E8DC),
        (.hp_secvio_intcfg, 0x80000000) ] ∧
    (rd_reg32 (tamper_ioctl sampleEnv
        (tamper_ioctl sampleEnv zeroWorld (.ACTIVE_EN (some ⟨6, 3⟩))).world
        (.PASSIVE_EN (some ⟨3, 1⟩))).world (route_bits 3).1
      >>> (route_bits 3).2) &&& 0xf = 6 - 4 :=
  have h := C23_configure_passive_writes_and_frame sampleEnv zeroWorld 3 1 6 3 0
    (by decide) (by decide) (by decide) (by decide) (by decide)
  ⟨by decide, by decide, by decide, by decide, h.1, by rw [h.2.1]; decide, h.2.2.2.2.2.2.2.2⟩

/-- C24: for every `tx`, `rx` that pass validation (`5 <= tx <= 9`, `rx <= 9`,
`tx != rx`) and every polarity, every shift count evaluated by
`ConfigureActive` and `ConfigurePassive` lies in 0..31; the seed index `tx-5`
lies in 0..4 and the trigger index `rx` in 0..9; and no subtraction (`tx-5`,
`tx-4`, `rx-1`, `rx-2`, `rx-5`, `rx-8`) is negative on the branch where it is
evaluated, so the truncated subtractions of the embedding agree with the
integer ones. -/
theorem C24_shift_counts_and_indices_in_range (tx rx pol : Nat)
    (htx : 5 ≤ tx ∧ tx ≤ 9) (hrx : rx ≤ 9) (hne : tx ≠ rx) :
    (∀ s ∈ active_shift_counts tx rx, 0 ≤ s ∧ s ≤ 31) ∧
    (∀ s ∈ passive_shift_counts rx pol, 0 ≤ s ∧ s ≤ 31) ∧
    ((0 : Int) ≤ (tx : Int) - 5 ∧ (tx : Int) - 5 ≤ 4) ∧
    ((0 : Int) ≤ (rx : Int) ∧ (rx : Int) ≤ 9) ∧
    (∀ d ∈ config_differences tx rx, 0 ≤ d) ∧
    (((tx - 5 : Nat) : Int) = (tx : Int) - 5 ∧ ((tx - 4 : Nat) : Int) = (tx : Int) - 4) ∧
    (2 ≤ rx → ((rx - 1 : Nat) : Int) = (rx : Int) - 1 ∧ ((rx - 2 : Nat) : Int) = (rx : Int) - 2) ∧
    (6 ≤ rx → ((rx - 5 : Nat) : Int) = (rx : Int) - 5) ∧
    (8 ≤ rx → ((rx - 8 : Nat) : Int) = (rx : Int) - 8) := by
  obtain ⟨h5, h9⟩ := htx
  refine ⟨?_, ?_, by omega, by omega, ?_, by omega, fun _ => by omega, fun _ => by omega,
    fun _ => by omega⟩
  · interval_cases tx <;> interval_cases rx <;> decide
  · by_cases hp : pol = 0
    · subst hp
      interval_cases rx <;> decide
    · have hpi : ((pol : Int) ≠ 0) := by exact_mod_cast hp
      unfold passive_shift_counts
      rw [if_pos hpi]
      interval_cases rx <;> decide
  · interval_cases tx <;> interval_cases rx <;> decide

/-- Witness for C24 at `tx = 9`, `rx = 5` (filter shift count 31). -/
theorem C24_shift_counts_and_indices_in_range_witness :
    (5 ≤ 9 ∧ 9 ≤ 9) ∧ (5 : Nat) ≤ 9 ∧ (9 : Nat) ≠ 5 ∧
    (∀ s ∈ active_shift_counts ((9 : Nat) : Int) ((5 : Nat) : Int), 0 ≤ s ∧ s ≤ 31) ∧
    (31 : Int) ∈ active_shift_counts ((9 : Nat) : Int) ((5 : Nat) : Int) :=
  ⟨by decide, by decide, by decide,
    (C24_shift_counts_and_indices_in_range 9 5 1 (by decide) (by decide) (by decide)).1,
    by decide⟩

/-- C25: for each class, the first write of `set_class_enable(c, true)` puts
into `lp.status` the word just read with the class bit ORed in, so every bit
that was set in `lp.status` is set in the written word; on write-1-to-clear
hardware `lp.status` therefore reads 0 after the command: every alarm bit that
was pending is cleared, and a following `GetStatus` reports no status bit. -/
theorem C25_class_enable_clears_pending_status (env : Env) (seed : Nat) (w : World)
    (c : TamperClass) :
    (∃ evs, (tamper_ioctl env w (c.cmd true)).world.trace
        = w.trace ++ Event.write .lp_status (rd_reg32 w .lp_status ||| c.sbit) :: evs) ∧
    (∀ i, (rd_reg32 w .lp_status).testBit i = true →
      (rd_reg32 w .lp_status ||| c.sbit).testBit i = true) ∧
    rd_reg32 (tamper_ioctl ⟨.w1c_status, seed⟩ w (c.cmd true)).world .lp_status = 0 ∧
    (∀ i, (rd_reg32 (tamper_ioctl ⟨.w1c_status, seed⟩ w (c.cmd true)).world
      .lp_status).testBit i = false) ∧
    (∀ s, (tamper_ioctl ⟨.w1c_status, seed⟩
        (tamper_ioctl ⟨.w1c_status, seed⟩ w (c.cmd true)).world (.GET_STATUS true)).out
      = some s → s.lpsr = 0) := by
  refine ⟨⟨_, class_enable_trace env w c⟩, ?_, class_enable_rd_status_w1c seed w c, ?_, ?_⟩
  · intro i hi
    rw [Nat.testBit_or, hi, Bool.true_or]
  · intro i
    rw [class_enable_rd_status_w1c, Nat.zero_testBit]
  · intro s hs
    have hout : (tamper_ioctl ⟨.w1c_status, seed⟩
        (tamper_ioctl ⟨.w1c_status, seed⟩ w (c.cmd true)).world (.GET_STATUS true)).out
        = some ⟨rd_reg32 (tamper_ioctl ⟨.w1c_status, seed⟩ w (c.cmd true)).world .lp_status
            &&& 0x7f0,
          rd_reg32 (tamper_ioctl ⟨.w1c_status, seed⟩ w (c.cmd true)).world
            .lp_tamper_det_status &&& 0xff⟩ := rfl
    rw [← Option.some.inj (hout.symm.trans hs)]
    show rd_reg32 (tamper_ioctl ⟨.w1c_status, seed⟩ w (c.cmd true)).world .lp_status
      &&& 0x7f0 = 0
    rw [class_enable_rd_status_w1c]
    rfl

/-- C26: after an accepted `ConfigureActive(tx, rx)` or
`ConfigurePassive(rx, polarity)`, every bit that was set in one of the three
filter registers or the two detect-config registers is still set.  In
particular `ConfigurePassive(rx, 0)` issued after `ConfigurePassive(rx, p)`
with `p != 0` leaves the polarity bit of `rx` set in the detect-config register,
although `tpctrl[rx]` goes from `0x0810E8DC` to the zero-polarity word
`0x0811E8DC`. -/
theorem C26_config_only_sets_filter_and_detect_bits (env : Env) (w : World)
    (tx rx pol p i : Nat) (R : Reg)
    (hopen : ¬ Locked w) (htx : 5 ≤ tx ∧ tx ≤ 9) (hrx : rx ≤ 9) (hne : tx ≠ rx) (hp : p ≠ 0)
    (hR : R = .lp_tamper_filt_cfg ∨ R = .lp_tamper_filt_cfg1 ∨ R = .lp_tamper_filt_cfg2 ∨
      R = .lp_tamper_det_cfg ∨ R = .lp_tamper_det_cfg2) :
    ((rd_reg32 w R).testBit i = true →
      (rd_reg32 (tamper_ioctl env w (.ACTIVE_EN (some ⟨tx, rx⟩))).world R).testBit i = true) ∧
    ((rd_reg32 w R).testBit i = true →
      (rd_reg32 (tamper_ioctl env w (.PASSIVE_EN (some ⟨rx, pol⟩))).world R).testBit i = true) ∧
    (rd_reg32 (tamper_ioctl env w (.PASSIVE_EN (some ⟨rx, p⟩))).world
        (polarity_bits rx).1).testBit (polarity_bits rx).2 = true ∧
    rd_reg32 (tamper_ioctl env w (.PASSIVE_EN (some ⟨rx, p⟩))).world (.ex_tpctrl rx)
      = 0x0810E8DC ∧
    (rd_reg32 (tamper_ioctl env (tamper_ioctl env w (.PASSIVE_EN (some ⟨rx, p⟩))).world
        (.PASSIVE_EN (some ⟨rx, 0⟩))).world (polarity_bits rx).1).testBit (polarity_bits rx).2
      = true ∧
    rd_reg32 (tamper_ioctl env (tamper_ioctl env w (.PASSIVE_EN (some ⟨rx, p⟩))).world
        (.PASSIVE_EN (some ⟨rx, 0⟩))).world (.ex_tpctrl rx) = 0x0811E8DC := by
  have hopen1 : ¬ Locked (tamper_ioctl env w (.PASSIVE_EN (some ⟨rx, p⟩))).world :=
    fun h => hopen ((tamper_ioctl_locked_iff env w _).mp h)
  have hmono : ∀ (v : World) (q : Nat) (S : Reg) (j : Nat), ¬ Locked v →
      (S = .lp_tamper_filt_cfg ∨ S = .lp_tamper_filt_cfg1 ∨ S = .lp_tamper_filt_cfg2 ∨
        S = .lp_tamper_det_cfg ∨ S = .lp_tamper_det_cfg2) →
      (rd_reg32 v S).testBit j = true →
      (rd_reg32 (tamper_ioctl env v (.PASSIVE_EN (some ⟨rx, q⟩))).world S).testBit j = true := by
    intro v q S j hv hS h
    rw [passive_en_rd env v rx q _ hv hrx]
    rcases hS with rfl | rfl | rfl | rfl | rfl <;> simp only [passive_eff] <;>
      first
        | exact or_bit_at_mono _ _ _ _ h
        | (apply or_bit_at_mono
           split_ifs
           · exact or_bit_at_mono _ _ _ _ h
           · exact h)
  have hPreg : (polarity_bits rx).1 = .lp_tamper_filt_cfg ∨
      (polarity_bits rx).1 = .lp_tamper_filt_cfg1 ∨ (polarity_bits rx).1 = .lp_tamper_filt_cfg2 ∨
      (polarity_bits rx).1 = .lp_tamper_det_cfg ∨ (polarity_bits rx).1 = .lp_tamper_det_cfg2 := by
    rw [polarity_reg_eq]
    rcases detect_reg_cases rx with h | h
    · exact Or.inr (Or.inr (Or.inr (Or.inl h)))
    · exact Or.inr (Or.inr (Or.inr (Or.inr h)))
  have hset : (rd_reg32 (tamper_ioctl env w (.PASSIVE_EN (some ⟨rx, p⟩))).world
      (polarity_bits rx).1).testBit (polarity_bits rx).2 = true := by
    have key : ∀ S : Reg, S = (polarity_bits rx).1 →
        (S = .lp_tamper_det_cfg ∨ S = .lp_tamper_det_cfg2) →
        (rd_reg32 (tamper_ioctl env w (.PASSIVE_EN (some ⟨rx, p⟩))).world S).testBit
          (polarity_bits rx).2 = true := by
      intro S hS hc
      rw [passive_en_rd env w rx p _ hopen hrx]
      rcases hc with rfl | rfl <;> simp only [passive_eff] <;>
        (apply or_bit_at_mono
         rw [if_pos hp, testBit_or_bit_at]
         simp [hS])
    refine key _ rfl ?_
    rw [polarity_reg_eq]
    exact detect_reg_cases rx
  refine ⟨?_, hmono w pol R i hopen hR, hset, ?_, hmono _ 0 _ _ hopen1 hPreg hset, ?_⟩
  · intro h
    rw [active_en_rd env w tx rx _ hopen htx hrx hne]
    rcases hR with rfl | rfl | rfl | rfl | rfl <;> simp only [active_eff] <;>
      exact or_bit_at_mono _ _ _ _ h
  · rw [passive_en_rd_tpctrl env w rx p hopen hrx, if_pos hp]; rfl
  · rw [passive_en_rd_tpctrl env _ rx 0 hopen1 hrx, if_neg (by simp)]; rfl

/-- Witness for C26 at `rx = 3`: bit 1 of `lp.tamper_det_cfg2` is the detect bit
and bit 17 the polarity bit. -/
theorem C26_config_only_sets_filter_and_detect_bits_witness :
    ¬ Locked zeroWorld ∧ (5 ≤ 6 ∧ 6 ≤ 9) ∧ (3 : Nat) ≤ 9 ∧ (6 : Nat) ≠ 3 ∧ (1 : Nat) ≠ 0 ∧
    polarity_bits 3 = (.lp_tamper_det_cfg2, 17) ∧
    (rd_reg32 (tamper_ioctl sampleEnv
        (tamper_ioctl sampleEnv zeroWorld (.PASSIVE_EN (some ⟨3, 1⟩))).world
        (.PASSIVE_EN (some ⟨3, 0⟩))).world (polarity_bits 3).1).testBit (polarity_bits 3).2
      = true ∧
    rd_reg32 (tamper_ioctl sampleEnv
        (tamper_ioctl sampleEnv zeroWorld (.PASSIVE_EN (some ⟨3, 1⟩))).world
        (.PASSIVE_EN (some ⟨3, 0⟩))).world (.ex_tpctrl 3) = 0x0811E8DC :=
  have h := C26_config_only_sets_filter_and_detect_bits sampleEnv zeroWorld 6 3 1 1 0
    .lp_tamper_det_cfg2 (by decide) (by decide) (by decide) (by decide) (by decide)
    (Or.inr (Or.inr (Or.inr (Or.inr rfl))))
  ⟨by decide, by decide, by decide, by decide, by decide, by decide, h.2.2.2.2.1, h.2.2.2.2.2⟩

/-- C27: in the shared register `lp.tamper_det_cfg`, `set_class_enable(c, b)`
changes at most the bit of its own class, which is bit 4, 5 or 6, and an
accepted `ConfigureActive(tx, rx)` or `ConfigurePassive(rx, polarity)` changes
at most bits 9..12, for every prior register state. -/
theorem C27_class_and_channel_bits_disjoint (env : Env) (w : World) (c : TamperClass)
    (b : Bool) (tx rx pol i : Nat)
    (hopen : ¬ Locked w) (htx : 5 ≤ tx ∧ tx ≤ 9) (hrx : rx ≤ 9) (hne : tx ≠ rx) :
    ((rd_reg32 (tamper_ioctl env w (c.cmd b)).world .lp_tamper_det_cfg).testBit i ≠
        (rd_reg32 w .lp_tamper_det_cfg).testBit i →
      c.sbit = 1 <<< i ∧ (i = 4 ∨ i = 5 ∨ i = 6)) ∧
    ((rd_reg32 (tamper_ioctl env w (.ACTIVE_EN (some ⟨tx, rx⟩))).world
          .lp_tamper_det_cfg).testBit i ≠ (rd_reg32 w .lp_tamper_det_cfg).testBit i →
      9 ≤ i ∧ i ≤ 12) ∧
    ((rd_reg32 (tamper_ioctl env w (.PASSIVE_EN (some ⟨rx, pol⟩))).world
          .lp_tamper_det_cfg).testBit i ≠ (rd_reg32 w .lp_tamper_det_cfg).testBit i →
      9 ≤ i ∧ i ≤ 12) := by
  refine ⟨?_, ?_, ?_⟩
  · intro h
    apply testBit_sbit
    cases b
    · rw [class_disable_rd, if_neg (by simp), if_pos rfl, Nat.testBit_and, testBit_not32] at h
      cases hs : c.sbit.testBit i
      · exfalso
        apply h
        cases hx : (rd_reg32 w .lp_tamper_det_cfg).testBit i
        · simp
        · simp [testBit_lt_of_lt (rd_reg32_lt _ _) hx, hs]
      · rfl
    · rw [class_enable_rd _ _ _ _ (by simp), if_neg (by simp), if_pos rfl, Nat.testBit_or] at h
      cases hs : c.sbit.testBit i
      · rw [hs, Bool.or_false] at h
        exact absurd rfl h
      · rfl
  · intro h
    rw [active_en_rd env w tx rx _ hopen htx hrx hne] at h
    simp only [active_eff, testBit_or_bit_at] at h
    apply det_cfg_bit_range rx i
    left
    by_contra hn
    apply h
    simp [hn]
  · intro h
    rw [passive_en_rd env w rx pol _ hopen hrx] at h
    simp only [passive_eff, testBit_or_bit_at] at h
    apply det_cfg_bit_range rx i
    by_contra hn
    rw [not_or] at hn
    apply h
    split_ifs
    · simp [testBit_or_bit_at, hn.1, hn.2]
    · simp [hn.1]

/-- Witness for C27: on an Open device with all registers zero, enabling the
temperature class changes bit 5 only and `ConfigurePassive(1, 1)` changes bits
10 and 12 only. -/
theorem C27_class_and_channel_bits_disjoint_witness :
    ¬ Locked zeroWorld ∧ (5 ≤ 6 ∧ 6 ≤ 9) ∧ (1 : Nat) ≤ 9 ∧ (6 : Nat) ≠ 1 ∧
    rd_reg32 (tamper_ioctl sampleEnv zeroWorld (TamperClass.Temperature.cmd true)).world
      .lp_tamper_det_cfg = 0x20 ∧
    rd_reg32 (tamper_ioctl sampleEnv zeroWorld (.PASSIVE_EN (some ⟨1, 1⟩))).world
      .lp_tamper_det_cfg = 0x1400 ∧
    ((rd_reg32 (tamper_ioctl sampleEnv zeroWorld (.PASSIVE_EN (some ⟨1, 1⟩))).world
          .lp_tamper_det_cfg).testBit 5 ≠ (rd_reg32 zeroWorld .lp_tamper_det_cfg).testBit 5 →
      9 ≤ 5 ∧ 5 ≤ 12) :=
  ⟨by decide, by decide, by decide, by decide, by decide, by decide,
    (C27_class_and_channel_bits_disjoint sampleEnv zeroWorld .Temperature true 6 1 1 5
      (by decide) (by decide) (by decide) (by decide)).2.2⟩

/-- C28: `set_class_enable(c, false)` returns 0 and appends exactly the write of
`dmcr` with the detect-mode bit of the class cleared, the 1000 microsecond
delay, and the write of `lp.tamper_det_cfg` with the bit of the class cleared;
every other register, in particular `lp.status` and `hp.secvio_intcfg`, reads
as before.  So enabling and then disabling a class restores `dmcr` and
`lp.tamper_det_cfg` when the bits of the class were clear beforehand, but
leaves bit 31 of `hp.secvio_intcfg` set. -/
theorem C28_class_disable_writes_and_round_trip (env : Env) (w : World) (c : TamperClass) :
    (tamper_ioctl env w (c.cmd false)).ret = 0 ∧
    (tamper_ioctl env w (c.cmd false)).world.trace = w.trace ++
      [ Event.write .ex_dmcr (rd_reg32 w .ex_dmcr &&& not32 c.dbit),
        Event.delay 1000,
        Event.write .lp_tamper_det_cfg (rd_reg32 w .lp_tamper_det_cfg &&& not32 c.sbit) ] ∧
    (∀ r, r ≠ .ex_dmcr → r ≠ .lp_tamper_det_cfg →
      rd_reg32 (tamper_ioctl env w (c.cmd false)).world r = rd_reg32 w r) ∧
    rd_reg32 (tamper_ioctl env w (c.cmd false)).world .lp_status = rd_reg32 w .lp_status ∧
    rd_reg32 (tamper_ioctl env w (c.cmd false)).world .hp_secvio_intcfg
      = rd_reg32 w .hp_secvio_intcfg ∧
    (rd_reg32 w .ex_dmcr &&& c.dbit = 0 →
      rd_reg32 (tamper_ioctl env (tamper_ioctl env w (c.cmd true)).world (c.cmd false)).world
        .ex_dmcr = rd_reg32 w .ex_dmcr) ∧
    (rd_reg32 w .lp_tamper_det_cfg &&& c.sbit = 0 →
      rd_reg32 (tamper_ioctl env (tamper_ioctl env w (c.cmd true)).world (c.cmd false)).world
        .lp_tamper_det_cfg = rd_reg32 w .lp_tamper_det_cfg) ∧
    (rd_reg32 (tamper_ioctl env (tamper_ioctl env w (c.cmd true)).world (c.cmd false)).world
        .hp_secvio_intcfg).testBit 31 = true := by
  refine ⟨?_, class_disable_trace env w c, ?_, ?_, ?_, ?_, ?_, ?_⟩
  · cases c <;> rfl
  · intro r h1 h2
    rw [class_disable_rd, if_neg h1, if_neg h2]
  · rw [class_disable_rd, if_neg (by simp), if_neg (by simp)]
  · rw [class_disable_rd, if_neg (by simp), if_neg (by simp)]
  · intro h
    rw [class_disable_rd, if_pos rfl, class_enable_rd _ _ _ _ (by simp), if_pos rfl]
    exact or_and_not_cancel _ _ (rd_reg32_lt _ _) h
  · intro h
    rw [class_disable_rd, if_neg (by simp), if_pos rfl, class_enable_rd _ _ _ _ (by simp),
      if_neg (by simp), if_pos rfl]
    exact or_and_not_cancel _ _ (rd_reg32_lt _ _) h
  · rw [class_disable_rd, if_neg (by simp), if_neg (by simp),
      class_enable_rd _ _ _ _ (by simp), if_neg (by simp), if_neg (by simp), if_pos rfl,
      Nat.testBit_or]
    have : (0x80000000 : Nat).testBit 31 = true := by decide
    rw [this, Bool.or_true]

/-- C29: on an Open device two channel-configuration commands with valid
parameters (`ConfigureActive` or `ConfigurePassive`, in any mix) are accepted in
either order, and when their receive slots differ the two orders leave every
register reading the same word (on either hardware model, in particular on
plain storage).  For the same receive slot the last trigger word wins: after
`c1` then `c2` the register `tpctrl[rx]` holds the word of `c2`, after `c2` then
`c1` the word of `c1`, so the two orders differ when the words differ. -/
theorem C29_channel_configs_commute_iff_distinct_rx (env : Env) (w : World) (c1 c2 : ChanCfg)
    (hopen : ¬ Locked w) (hv1 : c1.valid) (hv2 : c2.valid) :
    (tamper_ioctl env w c1.cmd).ret = 0 ∧ (tamper_ioctl env w c2.cmd).ret = 0 ∧
    (tamper_ioctl env (tamper_ioctl env w c1.cmd).world c2.cmd).ret = 0 ∧
    (tamper_ioctl env (tamper_ioctl env w c2.cmd).world c1.cmd).ret = 0 ∧
    (c1.rx ≠ c2.rx → ∀ r,
      rd_reg32 (tamper_ioctl env (tamper_ioctl env w c1.cmd).world c2.cmd).world r =
        rd_reg32 (tamper_ioctl env (tamper_ioctl env w c2.cmd).world c1.cmd).world r) ∧
    (c1.rx = c2.rx →
      rd_reg32 (tamper_ioctl env (tamper_ioctl env w c1.cmd).world c2.cmd).world
          (.ex_tpctrl c1.rx) = c2.word ∧
      rd_reg32 (tamper_ioctl env (tamper_ioctl env w c2.cmd).world c1.cmd).world
          (.ex_tpctrl c1.rx) = c1.word) ∧
    (c1.rx = c2.rx → c1.word ≠ c2.word →
      rd_reg32 (tamper_ioctl env (tamper_ioctl env w c1.cmd).world c2.cmd).world
          (.ex_tpctrl c1.rx) ≠
        rd_reg32 (tamper_ioctl env (tamper_ioctl env w c2.cmd).world c1.cmd).world
          (.ex_tpctrl c1.rx)) := by
  have hopen1 : ¬ Locked (tamper_ioctl env w c1.cmd).world :=
    fun h => hopen ((tamper_ioctl_locked_iff env w _).mp h)
  have hopen2 : ¬ Locked (tamper_ioctl env w c2.cmd).world :=
    fun h => hopen ((tamper_ioctl_locked_iff env w _).mp h)
  have hlast : c1.rx = c2.rx →
      rd_reg32 (tamper_ioctl env (tamper_ioctl env w c1.cmd).world c2.cmd).world
          (.ex_tpctrl c1.rx) = c2.word ∧
      rd_reg32 (tamper_ioctl env (tamper_ioctl env w c2.cmd).world c1.cmd).world
          (.ex_tpctrl c1.rx) = c1.word := by
    intro h
    refine ⟨?_, chan_rd_tpctrl env _ c1 hopen2 hv1⟩
    rw [h]
    exact chan_rd_tpctrl env _ c2 hopen1 hv2
  refine ⟨chan_ret env w c1 hopen hv1, chan_ret env w c2 hopen hv2,
    chan_ret env _ c2 hopen1 hv2, chan_ret env _ c1 hopen2 hv1, ?_, hlast, ?_⟩
  · intro hne r
    rw [chan_rd env _ c2 r hopen1 hv2, chan_rd env w c1 r hopen hv1,
      chan_rd env _ c1 r hopen2 hv1, chan_rd env w c2 r hopen hv2]
    exact (chan_eff_comm env.AT5_POLYSEED c1 c2 r _ hv1 hv2 hne).symm
  · intro h hw
    rw [(hlast h).1, (hlast h).2]
    exact Ne.symm hw

/-- Witness for C29: `ConfigureActive(6, 3)` and `ConfigurePassive(4, 1)` commute
on an Open device with all registers zero, while `ConfigureActive(6, 3)` and
`ConfigurePassive(3, 1)` do not. -/
theorem C29_channel_configs_commute_iff_distinct_rx_witness :
    ¬ Locked zeroWorld ∧ (ChanCfg.active 6 3).valid ∧ (ChanCfg.passive 4 1).valid ∧
    (∀ r,
      rd_reg32 (tamper_ioctl sampleEnv
          (tamper_ioctl sampleEnv zeroWorld (.ACTIVE_EN (some ⟨6, 3⟩))).world
          (.PASSIVE_EN (some ⟨4, 1⟩))).world r =
        rd_reg32 (tamper_ioctl sampleEnv
          (tamper_ioctl sampleEnv zeroWorld (.PASSIVE_EN (some ⟨4, 1⟩))).world
          (.ACTIVE_EN (some ⟨6, 3⟩))).world r) ∧
    rd_reg32 (tamper_ioctl sampleEnv
        (tamper_ioctl sampleEnv zeroWorld (.ACTIVE_EN (some ⟨6, 3⟩))).world
        (.PASSIVE_EN (some ⟨3, 1⟩))).world (.ex_tpctrl 3) = 0x0810E8DC ∧
    rd_reg32 (tamper_ioctl sampleEnv
        (tamper_ioctl sampleEnv zeroWorld (.PASSIVE_EN (some ⟨3, 1⟩))).world
        (.ACTIVE_EN (some ⟨6, 3⟩))).world (.ex_tpctrl 3) = 0x0814E8DC :=
  ⟨by decide, ⟨⟨by decide, by decide⟩, by decide, by decide⟩, (by decide : (4 : Nat) ≤ 9),
    (C29_channel_configs_commute_iff_distinct_rx sampleEnv zeroWorld (.active 6 3)
      (.passive 4 1) (by decide) ⟨⟨by decide, by decide⟩, by decide, by decide⟩
      (by decide : (4 : Nat) ≤ 9)).2.2.2.2.1 (by decide),
    by decide, by decide⟩

/-- C30: on plain-storage hardware, issuing an accepted `ConfigureActive(tx, rx)`
or `ConfigurePassive(rx, polarity)` a second time is accepted again and leaves
every register reading the same word as after the first time, and the same
holds for `set_class_enable(k, b)` for every class `k` and both values of
`b`. -/
theorem C30_commands_idempotent_on_plain_storage (seed : Nat) (w : World) (c : ChanCfg)
    (k : TamperClass) (b : Bool) (r : Reg) (hopen : ¬ Locked w) (hv : c.valid) :
    (tamper_ioctl ⟨.plain, seed⟩ w c.cmd).ret = 0 ∧
    (tamper_ioctl ⟨.plain, seed⟩ (tamper_ioctl ⟨.plain, seed⟩ w c.cmd).world c.cmd).ret = 0 ∧
    rd_reg32 (tamper_ioctl ⟨.plain, seed⟩
        (tamper_ioctl ⟨.plain, seed⟩ w c.cmd).world c.cmd).world r =
      rd_reg32 (tamper_ioctl ⟨.plain, seed⟩ w c.cmd).world r ∧
    (tamper_ioctl ⟨.plain, seed⟩ (tamper_ioctl ⟨.plain, seed⟩ w (k.cmd b)).world (k.cmd b)).ret
      = 0 ∧
    rd_reg32 (tamper_ioctl ⟨.plain, seed⟩
        (tamper_ioctl ⟨.plain, seed⟩ w (k.cmd b)).world (k.cmd b)).world r =
      rd_reg32 (tamper_ioctl ⟨.plain, seed⟩ w (k.cmd b)).world r := by
  have hopen1 : ¬ Locked (tamper_ioctl ⟨.plain, seed⟩ w c.cmd).world :=
    fun h => hopen ((tamper_ioctl_locked_iff _ w _).mp h)
  refine ⟨chan_ret _ w c hopen hv, chan_ret _ _ c hopen1 hv, ?_, ?_, ?_⟩
  · rw [chan_rd _ _ c r hopen1 hv, chan_rd _ w c r hopen hv]
    exact chan_eff_idem _ c r _
  · cases k <;> cases b <;> rfl
  · cases b
    · rw [class_disable_rd, class_disable_rd]
      split_ifs
      · exact and_and_idem _ _
      · exact and_and_idem _ _
      · rfl
    · rw [class_enable_rd_plain, class_enable_rd_plain]
      split_ifs
      · exact or_or_self _ _
      · exact or_or_self _ _
      · exact or_or_self _ _
      · exact or_or_self _ _
      · rfl

/-- Witness for C30: `ConfigureActive(6, 3)` twice on an Open device with all
registers zero, read at the routing register. -/
theorem C30_commands_idempotent_on_plain_storage_witness :
    ¬ Locked zeroWorld ∧ (ChanCfg.active 6 3).valid ∧
    rd_reg32 (tamper_ioctl ⟨.plain, 0x12345678⟩
        (tamper_ioctl ⟨.plain, 0x12345678⟩ zeroWorld (.ACTIVE_EN (some ⟨6, 3⟩))).world
        (.ACTIVE_EN (some ⟨6, 3⟩))).world .lp_active_rt_ctl1 =
      rd_reg32 (tamper_ioctl ⟨.plain, 0x12345678⟩ zeroWorld
        (.ACTIVE_EN (some ⟨6, 3⟩))).world .lp_active_rt_ctl1 ∧
    rd_reg32 (tamper_ioctl ⟨.plain, 0x12345678⟩ zeroWorld
        (.ACTIVE_EN (some ⟨6, 3⟩))).world .lp_active_rt_ctl1 = 0x2000 :=
  ⟨by decide, ⟨⟨by decide, by decide⟩, by decide, by decide⟩,
    (C30_commands_idempotent_on_plain_storage 0x12345678 zeroWorld (.active 6 3) .Clock true
      .lp_active_rt_ctl1 (by decide) ⟨⟨by decide, by decide⟩, by decide, by decide⟩).2.2.1,
    by decide⟩

/-- C31: a request whose command code is none of the seven defined commands
takes the `default` branch: `tamper_ioctl` returns 0, copies nothing out, and
leaves the whole driver state as it was (no register changes, nothing is
appended to the trace, so no write, delay or message), in every fuse state,
the Locked ones included; the outcome does not depend on what the registers
hold. -/
theorem C31_unknown_command_accepted_silently (env : Env) (w : World) (code : Nat) :
    (tamper_ioctl env w (.unknown code)).ret = 0 ∧
    (tamper_ioctl env w (.unknown code)).out = none ∧
    (tamper_ioctl env w (.unknown code)).world = w ∧
    writes (tamper_ioctl env w (.unknown code)).world.trace = writes w.trace ∧
    (∀ f : Reg → Nat,
      tamper_ioctl env { w with regs := f } (.unknown code) = ⟨{ w with regs := f }, 0, none⟩) ∧
    (tamper_ioctl env lockedWorld (.unknown code)).ret = 0 ∧
    (tamper_ioctl env lockedWorld (.unknown code)).world = lockedWorld :=
  ⟨rfl, rfl, rfl, rfl, fun _ => rfl, rfl, rfl⟩

/-- C32: after an init that returns 0, for every prior register state: `dtocr`
reads its old word with bit 0 set and every other bit preserved (unchanged when
bit 0 was already set); `hp.secvio_intcfg` reads its old word with bit 31
cleared and every other bit preserved; `hp.secvio_ctl` reads its old word with
bit 30 set and every other bit preserved.  Hence the top-level interrupt is
masked after init and stays masked along every sequence of ioctl requests and
interrupt-handler runs that contains no class enable or channel configuration
returning 0, while such a request, issued in a masked state, unmasks it. -/
theorem C32_init_control_bits_and_interrupt_masked (env : Env) (p : Platform) (w : World)
    (ds : List DriverCall) (c : Cmd)
    (hok : (snvs_tamper_init env p w).2 = 0) :
    (∀ i, (rd_reg32 (snvs_tamper_init env p w).1 .ex_dtocr).testBit i =
      ((rd_reg32 w .ex_dtocr).testBit i || decide (i = 0))) ∧
    ((rd_reg32 w .ex_dtocr).testBit 0 = true →
      rd_reg32 (snvs_tamper_init env p w).1 .ex_dtocr = rd_reg32 w .ex_dtocr) ∧
    (∀ i, (rd_reg32 (snvs_tamper_init env p w).1 .hp_secvio_intcfg).testBit i =
      ((rd_reg32 w .hp_secvio_intcfg).testBit i && !decide (i = 31))) ∧
    (∀ i, (rd_reg32 (snvs_tamper_init env p w).1 .hp_secvio_ctl).testBit i =
      ((rd_reg32 w .hp_secvio_ctl).testBit i || decide (i = 30))) ∧
    masked (snvs_tamper_init env p w).1 ∧
    (quiet_calls env (snvs_tamper_init env p w).1 ds = true →
      masked (run_calls env (snvs_tamper_init env p w).1 ds)) ∧
    (∀ v : World, masked v → arming env v c = true → ¬ masked (tamper_ioctl env v c).world) := by
  have hp : p.probed = true := init_ok_probed env p w hok
  obtain ⟨h1, h2, h3⟩ := init_rd_ctl env p w hp
  have hb0 : ∀ i, (0x1 : Nat).testBit i = decide (0 = i) := fun i => @Nat.testBit_two_pow 0 i
  have hb30 : ∀ i, (0x40000000 : Nat).testBit i = decide (30 = i) :=
    fun i => @Nat.testBit_two_pow 30 i
  have hbit0 : ∀ i, (rd_reg32 (snvs_tamper_init env p w).1 .ex_dtocr).testBit i =
      ((rd_reg32 w .ex_dtocr).testBit i || decide (i = 0)) := by
    intro i
    rw [h1, Nat.testBit_or, hb0]
    congr 1
    simp only [eq_comm]
  have hmask : masked (snvs_tamper_init env p w).1 := by
    unfold masked
    rw [h2, not32_bit31]
    exact testBit_and_0x7fffffff_31 _
  refine ⟨hbit0, ?_, ?_, ?_, hmask, quiet_calls_masked env ds _ hmask, ?_⟩
  · intro h
    apply Nat.eq_of_testBit_eq
    intro i
    rw [hbit0]
    by_cases hi : i = 0
    · subst hi
      rw [h]
      rfl
    · simp [hi]
  · intro i
    rw [h2, not32_bit31, Nat.testBit_and, testBit_0x7fffffff]
    cases hx : (rd_reg32 w .hp_secvio_intcfg).testBit i
    · rfl
    · have hi : i < 32 := testBit_lt_of_lt (rd_reg32_lt _ _) hx
      simp only [Bool.true_and]
      rw [Bool.eq_iff_iff]
      simp only [decide_eq_true_eq, Bool.not_eq_true', decide_eq_false_iff_not]
      omega
  · intro i
    rw [h3, Nat.testBit_or, hb30]
    congr 1
    simp only [eq_comm]
  · intro v hv ha hm
    unfold masked at hv hm
    rw [ioctl_intcfg_bit31, hv, ha] at hm
    exact Bool.noConfusion hm

/-- Witness for C32: init on the all-ones register file with every look-up
succeeding, followed by a status read, a class disable and an interrupt. -/
theorem C32_init_control_bits_and_interrupt_masked_witness :
    (snvs_tamper_init sampleEnv goodPlatform
      { zeroWorld with regs := fun _ => 0xffffffff }).2 = 0 ∧
    rd_reg32 (snvs_tamper_init sampleEnv goodPlatform
      { zeroWorld with regs := fun _ => 0xffffffff }).1 .hp_secvio_intcfg = 0x7fffffff ∧
    masked (run_calls sampleEnv
      (snvs_tamper_init sampleEnv goodPlatform { zeroWorld with regs := fun _ => 0xffffffff }).1
      [.ioctl (.GET_STATUS true), .ioctl (.CLOCK_EN (some false)), .irq]) :=
  ⟨by decide, by decide,
    (C32_init_control_bits_and_interrupt_masked sampleEnv goodPlatform
      { zeroWorld with regs := fun _ => 0xffffffff }
      [.ioctl (.GET_STATUS true), .ioctl (.CLOCK_EN (some false)), .irq] (.unknown 0)
      (by decide)).2.2.2.2.2.1 (by decide)⟩

end Tamper
